import Mathlib

/-!
Verification development for the juju Kubernetes application reconciler
(package application, file application.go).

The Go source is shallowly embedded: the cluster control plane is a record of
association-list stores keyed by resource name, each slot holding either a
healthy object or an injected transport fault; the mutation batch is a list of
staged operations applied by a fold.  Collaborator functions that live outside
the embedded file (labelling helpers, storage-class synthesis, the batch
executor's upsert semantics, pagination transport) are modelled from the
specification and carry a doc comment saying so.  Fields of the Kubernetes
objects that no claim touches (probes, environment variables, resource
requests) are elided from the object model.
-/

set_option maxRecDepth 8000

namespace JujuK8sApp

/-- Control-plane error classification: a get either misses (not-found) or
fails with a transport error carrying a message. -/
inductive K8sErr where
  | notFound
  | k8sFail (msg : String)
deriving DecidableEq

/-- The juju error taxonomy used by the reconciler: NotSupported (unknown
deployment type), NotValid (validation failures), wrapped control-plane
errors, and plain formatted errors (errors.Errorf). -/
inductive JujuErr where
  | notSupported (msg : String)
  | notValid (msg : String)
  | k8s (e : K8sErr)
  | generic (msg : String)
deriving DecidableEq

/-- First-match association-list lookup. -/
def lookupA {α : Type} : List (String × α) → String → Option α
  | [], _ => none
  | (k, v) :: rest, key => if k = key then some v else lookupA rest key

/-- Replace the first binding of a key, or append a fresh one. -/
def insertA {α : Type} : List (String × α) → String → α → List (String × α)
  | [], key, v => [(key, v)]
  | (k, w) :: rest, key, v =>
    if k = key then (k, v) :: rest else (k, w) :: insertA rest key v

/-- Drop the first binding of a key (delete tolerates a missing key). -/
def removeA {α : Type} : List (String × α) → String → List (String × α)
  | [], _ => []
  | (k, w) :: rest, key => if k = key then rest else (k, w) :: removeA rest key

@[simp] theorem lookupA_nil {α : Type} (key : String) :
    lookupA ([] : List (String × α)) key = none := rfl

theorem lookupA_cons {α : Type} (k key : String) (v : α) (rest : List (String × α)) :
    lookupA ((k, v) :: rest) key = if k = key then some v else lookupA rest key := rfl

@[simp] theorem lookupA_insertA_self {α : Type} (m : List (String × α)) (k : String) (v : α) :
    lookupA (insertA m k v) k = some v := by
  induction m with
  | nil => simp [insertA, lookupA]
  | cons hd tl ih =>
    obtain ⟨k₁, v₁⟩ := hd
    by_cases h : k₁ = k
    · simp [insertA, lookupA, h]
    · simp [insertA, lookupA, h, ih]

theorem lookupA_insertA_ne {α : Type} (m : List (String × α)) (k k' : String) (v : α)
    (h : k ≠ k') : lookupA (insertA m k v) k' = lookupA m k' := by
  induction m with
  | nil => simp [insertA, lookupA, h]
  | cons hd tl ih =>
    obtain ⟨k₁, v₁⟩ := hd
    by_cases h₁ : k₁ = k
    · subst h₁
      simp [insertA, lookupA, h]
    · simp [insertA, lookupA, h₁, ih]

/-- Re-inserting the value already bound to a key is a no-op. -/
theorem insertA_of_lookupA {α : Type} (m : List (String × α)) (k : String) (v : α)
    (h : lookupA m k = some v) : insertA m k v = m := by
  induction m with
  | nil => simp [lookupA] at h
  | cons hd tl ih =>
    obtain ⟨k₁, v₁⟩ := hd
    by_cases h₁ : k₁ = k
    · subst h₁
      simp [lookupA] at h
      simp [insertA, h]
    · simp [lookupA, h₁] at h
      simp [insertA, h₁, ih h]

/-! ## Object model (the fields the reconciler reads or writes) -/

/-- A container volume mount (corev1.VolumeMount). -/
structure VolumeMount where
  name : String
  mountPath : String
  subPath : String := ""
  readOnly : Bool := false
deriving DecidableEq

/-- Volume backing (corev1.VolumeSource restricted to the shapes the
reconciler produces): the charm-data empty dir, a simple non-persistent
source, or a reference to a persistent volume claim. -/
inductive VolumeSource where
  | emptyDir
  | nonPersistent (medium : String)
  | pvcRef (claimName : String) (readOnly : Bool)
deriving DecidableEq

/-- A pod volume (corev1.Volume). -/
structure Volume where
  name : String
  source : VolumeSource
deriving DecidableEq

/-- A container of the pod spec (corev1.Container; probe, env and resource
fields that no claim touches are elided). -/
structure Container where
  name : String
  image : String
  volumeMounts : List VolumeMount := []
  envFromSecret : Option String := none
deriving DecidableEq

/-- corev1.PodSpec restricted to the fields the reconciler manipulates. -/
structure PodSpec where
  initContainers : List Container := []
  containers : List Container := []
  volumes : List Volume := []
deriving DecidableEq

/-- A pod template (corev1.PodTemplateSpec). -/
structure PodTemplate where
  labels : List (String × String) := []
  annots : List (String × String) := []
  spec : PodSpec
deriving DecidableEq

/-- Spec of a persistent volume claim: the resolved storage-class name and
the requested size in MiB. -/
structure PVCSpec where
  storageClassName : String
  sizeMi : Nat
deriving DecidableEq

/-- corev1.PersistentVolumeClaim. -/
structure PVC where
  name : String
  labels : List (String × String) := []
  annots : List (String × String) := []
  spec : PVCSpec
deriving DecidableEq

/-- storagev1.StorageClass (name plus identifying labels). -/
structure StorageClassObj where
  name : String
  labels : List (String × String) := []
deriving DecidableEq

/-- corev1.ServicePort restricted to the fields the reconciler writes. -/
structure ServicePort where
  name : String
  port : Int
deriving DecidableEq

/-- corev1.Service. A non-nil deletion timestamp is modelled by the
deletionMarked flag. -/
structure Service where
  name : String
  ns : String
  labels : List (String × String) := []
  annots : List (String × String) := []
  selector : List (String × String) := []
  svcType : String := ""
  clusterIP : String := ""
  publishNotReady : Bool := false
  ports : List ServicePort := []
  deletionMarked : Bool := false
deriving DecidableEq

/-- corev1.Secret with string data. -/
structure Secret where
  name : String
  ns : String
  labels : List (String × String) := []
  annots : List (String × String) := []
  data : List (String × String) := []
  deletionMarked : Bool := false
deriving DecidableEq

/-- appsv1.StatefulSet restricted to the reconciler's footprint. -/
structure StatefulSetObj where
  name : String
  ns : String
  labels : List (String × String) := []
  annots : List (String × String) := []
  replicas : Option Int := none
  selector : List (String × String) := []
  template : PodTemplate
  claimTemplates : List PVC := []
  podManagementPolicy : String := ""
  deletionMarked : Bool := false
deriving DecidableEq

/-- appsv1.Deployment restricted to the reconciler's footprint. -/
structure DeploymentObj where
  name : String
  ns : String
  labels : List (String × String) := []
  annots : List (String × String) := []
  replicas : Option Int := none
  selector : List (String × String) := []
  template : PodTemplate
  deletionMarked : Bool := false
deriving DecidableEq

/-- appsv1.DaemonSet restricted to the reconciler's footprint; the status
carries the desired-scheduled count read by State. -/
structure DaemonSetObj where
  name : String
  ns : String
  labels : List (String × String) := []
  annots : List (String × String) := []
  selector : List (String × String) := []
  template : PodTemplate
  statusDesiredScheduled : Int := 0
  deletionMarked : Bool := false
deriving DecidableEq

/-- caas.DeploymentType: a closed set of recognized topologies plus an
unrecognized raw value (the source type is a string). -/
inductive DeploymentType where
  | stateful
  | stateless
  | daemon
  | other (value : String)
deriving DecidableEq

/-- The app receiver (struct app): identity of the application being
reconciled. -/
structure App where
  name : String
  ns : String
  modelUUID : String
  modelName : String
  legacyLabels : Bool
  deploymentType : DeploymentType
deriving DecidableEq

/-- caas.MountConfig of a sidecar container. -/
structure MountCfg where
  storageName : String
  path : String
deriving DecidableEq

/-- caas.ContainerConfig of one declared sidecar container. -/
structure ContainerCfg where
  name : String
  image : String
  mounts : List MountCfg := []
deriving DecidableEq

/-- Attachment parameters of a declared filesystem. -/
structure AttachmentCfg where
  path : String := ""
  readOnly : Bool := false
deriving DecidableEq

/-- storage.KubernetesFilesystemParams.  The backend attributes are
modelled by their two observable projections: an optional simple
non-persistent medium, and the configured storage-class name. -/
structure FilesystemCfg where
  storageName : String
  sizeMi : Nat
  attachment : Option AttachmentCfg := none
  nonPersistentMedium : Option String := none
  storageClassAttr : String := ""
  resourceTags : List (String × String) := []
deriving DecidableEq

/-- caas.ApplicationConfig. -/
structure AppConfig where
  agentVersion : String := ""
  agentImagePath : String := ""
  charmBaseImage : String := ""
  charmModifiedVersion : Nat := 0
  introductionSecret : String := ""
  controllerAddresses : String := ""
  controllerCertBundle : String := ""
  containers : List ContainerCfg := []
  filesystems : List FilesystemCfg := []
  resourceTags : List (String × String) := []
deriving DecidableEq

deriving instance DecidableEq for Except

/-- The observable control-plane state: per-kind stores keyed by resource
name.  A slot is either a healthy object or an injected transport fault
(Except.error msg); an absent key reads as not-found. -/
structure Cluster where
  statefulSets : List (String × Except String StatefulSetObj) := []
  deployments : List (String × Except String DeploymentObj) := []
  daemonSets : List (String × Except String DaemonSetObj) := []
  services : List (String × Except String Service) := []
  secrets : List (String × Except String Secret) := []
  pvcs : List (String × Except String PVC) := []
  storageClasses : List (String × StorageClassObj) := []
deriving DecidableEq

/-- A typed get against a store: absent key is not-found, a faulted slot is
a transport error, otherwise the object. -/
def getRes {α : Type} (store : List (String × Except String α)) (key : String) :
    Except K8sErr α :=
  match lookupA store key with
  | none => .error .notFound
  | some (.error msg) => .error (.k8sFail msg)
  | some (.ok v) => .ok v

/-- caas.DeploymentState. -/
structure DeploymentState where
  exists_ : Bool := false
  terminating : Bool := false
deriving DecidableEq

/-- caas.ApplicationState. -/
structure ApplicationState where
  desiredReplicas : Int := 0
  replicas : List String := []
deriving DecidableEq

/-! ## Naming and labelling conventions -/

/-- The charm (unit) container name. -/
def unitContainerName : String := "charm"

/-- The implicit charm-data volume name. -/
def charmVolumeName : String := "charm-data"

/-- paths.DataDir for unix-like pods. -/
def jujuDataDir : String := "/var/lib/juju"

/-- secretName: the bootstrap-configuration secret is named
app plus "-application-config". -/
def secretName (a : App) : String := a.name ++ "-application-config"

/-- headlessServiceName: app plus "-endpoints". -/
def headlessServiceName (appName : String) : String := appName ++ "-endpoints"

/-- Modelled from the spec: AnnotationKeyApplicationUUID(false), the
current (non-legacy) storage-unique-id annotation key. -/
def appUuidKey : String := "app.juju.is/uuid"

/-- Modelled from the spec: LabelsForApp — application-identifying labels in
legacy or current form. -/
def labelsForApp (name : String) (legacy : Bool) : List (String × String) :=
  if legacy then [("juju-app", name)]
  else [("app.kubernetes.io/name", name), ("app.kubernetes.io/managed-by", "juju")]

/-- Modelled from the spec: SelectorLabelsForApp — the label subset used for
pod matching. -/
def selectorLabelsForApp (name : String) (legacy : Bool) : List (String × String) :=
  if legacy then [("juju-app", name)] else [("app.kubernetes.io/name", name)]

/-- a.labels(). -/
def appLabels (a : App) : List (String × String) :=
  labelsForApp a.name a.legacyLabels

/-- a.selectorLabels(). -/
def appSelectorLabels (a : App) : List (String × String) :=
  selectorLabelsForApp a.name a.legacyLabels

/-- Modelled from the spec: a.annotations(config) merges resource-tag
annotations with the agent-version annotation (key form selected by the
legacy mode flag). -/
def annotsFor (a : App) (cfg : AppConfig) : List (String × String) :=
  cfg.resourceTags ++
    [((if a.legacyLabels then "juju-version" else "juju.is/version"), cfg.agentVersion)]

/-- Modelled from the spec: LabelsForStorage merged with the juju-managed
label set, attached to every claim. -/
def storageLabels (storageName : String) (legacy : Bool) : List (String × String) :=
  (if legacy then [("juju-storage", storageName)]
   else [("storage.juju.is/name", storageName)]) ++
    [("app.kubernetes.io/managed-by", "juju")]

/-- Modelled from the spec: resource-tag annotations merged with the
storage-name annotation, attached to every claim. -/
def storageAnnots (fs : FilesystemCfg) (legacy : Bool) : List (String × String) :=
  fs.resourceTags ++
    (if legacy then [("juju-storage", fs.storageName)]
     else [("storage.juju.is/name", fs.storageName)])

/-! ## Pod spec assembly (applicationPodSpec) -/

/-- The charm (supervisor) container with its three charm-data mounts. -/
def charmContainer (cfg : AppConfig) : Container :=
  { name := unitContainerName
    image := cfg.charmBaseImage
    volumeMounts :=
      [{ name := charmVolumeName, mountPath := "/charm/bin", subPath := "charm/bin",
         readOnly := true },
       { name := charmVolumeName, mountPath := jujuDataDir, subPath := "var/lib/juju" },
       { name := charmVolumeName, mountPath := "/charm/containers",
         subPath := "charm/containers" }] }

/-- One sidecar container per declared container config, supervised by
pebble, with its two charm-data mounts. -/
def sidecarContainer (v : ContainerCfg) : Container :=
  { name := v.name
    image := v.image
    volumeMounts :=
      [{ name := charmVolumeName, mountPath := "/charm/bin/pebble",
         subPath := "charm/bin/pebble", readOnly := true },
       { name := charmVolumeName, mountPath := "/charm/container",
         subPath := "charm/containers/" ++ v.name }] }

/-- The charm-init initializer container; it sources environment from the
application secret. -/
def charmInitContainer (a : App) (cfg : AppConfig) : Container :=
  { name := "charm-init"
    image := cfg.agentImagePath
    envFromSecret := some (secretName a)
    volumeMounts :=
      [{ name := charmVolumeName, mountPath := jujuDataDir, subPath := "var/lib/juju" },
       { name := charmVolumeName, mountPath := "/charm/bin", subPath := "charm/bin" },
       { name := charmVolumeName, mountPath := "/charm/containers",
         subPath := "charm/containers" }] }

/-- Insertion step for the deterministic by-name ordering of sidecars. -/
def insertByName (c : ContainerCfg) : List ContainerCfg → List ContainerCfg
  | [] => [c]
  | d :: ds => if c.name ≤ d.name then c :: d :: ds else d :: insertByName c ds

/-- The declared containers sorted by name (sort.Slice on container names). -/
def sortContainersCfg : List ContainerCfg → List ContainerCfg
  | [] => []
  | c :: cs => insertByName c (sortContainersCfg cs)

/-- applicationPodSpec: charm container first, then the sidecars in name
order, one init container, and the charm-data empty-dir volume. -/
def applicationPodSpec (a : App) (cfg : AppConfig) : PodSpec :=
  { initContainers := [charmInitContainer a cfg]
    containers := charmContainer cfg :: (sortContainersCfg cfg.containers).map sidecarContainer
    volumes := [{ name := charmVolumeName, source := .emptyDir }] }

/-! ## Staged operations and the mutation batch -/

/-- One operation staged into the mutation batch. -/
inductive Op where
  | secretOp (s : Secret)
  | serviceOp (s : Service)
  | statefulSetOp (w : StatefulSetObj)
  | deploymentOp (w : DeploymentObj)
  | daemonSetOp (w : DaemonSetObj)
  | pvcOp (p : PVC)
  | storageClassOp (sc : StorageClassObj)
  | deleteStatefulSetOp (name : String)
  | deleteDeploymentOp (name : String)
  | deleteDaemonSetOp (name : String)
  | deleteServiceOp (name : String)
  | deleteSecretOp (name : String)
deriving DecidableEq

/-- Modelled from the spec: the mutation-batch collaborator upserts each
staged object; a staged workload whose replica pointer is nil leaves the
live replica count untouched (only created objects get an explicit initial
count), and deletes tolerate not-found. -/
def applyOp (c : Cluster) (op : Op) : Cluster :=
  match op with
  | .secretOp s => { c with secrets := insertA c.secrets s.name (.ok s) }
  | .serviceOp s => { c with services := insertA c.services s.name (.ok s) }
  | .statefulSetOp w =>
    let w' := match lookupA c.statefulSets w.name with
      | some (.ok old) => if w.replicas = none then { w with replicas := old.replicas } else w
      | _ => w
    { c with statefulSets := insertA c.statefulSets w.name (.ok w') }
  | .deploymentOp w =>
    let w' := match lookupA c.deployments w.name with
      | some (.ok old) => if w.replicas = none then { w with replicas := old.replicas } else w
      | _ => w
    { c with deployments := insertA c.deployments w.name (.ok w') }
  | .daemonSetOp w => { c with daemonSets := insertA c.daemonSets w.name (.ok w) }
  | .pvcOp p => { c with pvcs := insertA c.pvcs p.name (.ok p) }
  | .storageClassOp sc => { c with storageClasses := insertA c.storageClasses sc.name sc }
  | .deleteStatefulSetOp n => { c with statefulSets := removeA c.statefulSets n }
  | .deleteDeploymentOp n => { c with deployments := removeA c.deployments n }
  | .deleteDaemonSetOp n => { c with daemonSets := removeA c.daemonSets n }
  | .deleteServiceOp n => { c with services := removeA c.services n }
  | .deleteSecretOp n => { c with secrets := removeA c.secrets n }

/-- applier.Run: execute the staged batch in order. -/
def runOps (c : Cluster) (ops : List Op) : Cluster := ops.foldl applyOp c

/-- A direct (unbatched) service write, as done by svc.Apply. -/
def applyService (c : Cluster) (s : Service) : Cluster :=
  { c with services := insertA c.services s.name (.ok s) }

/-! ## Services and the storage-unique identity -/

/-- The single-port placeholder default service created once on first
observation. -/
def defaultService (a : App) (ann : List (String × String)) : Service :=
  { name := a.name
    ns := a.ns
    labels := appLabels a
    annots := ann
    selector := appSelectorLabels a
    svcType := "ClusterIP"
    ports := [{ name := "placeholder", port := 65535 }] }

/-- configureDefaultService: get the service; on not-found apply it, on
success do nothing, and propagate any other error. -/
def configureDefaultService (a : App) (ann : List (String × String)) (c : Cluster) :
    Option JujuErr × Cluster :=
  match getRes c.services a.name with
  | .error .notFound => (none, applyService c (defaultService a ann))
  | .error e => (some (.k8s e), c)
  | .ok _ => (none, c)

/-- The headless, publish-not-ready endpoints service for the Stateful
topology, applied unconditionally. -/
def headlessService (a : App) (ann : List (String × String)) : Service :=
  { name := headlessServiceName a.name
    ns := a.ns
    labels := appLabels a
    annots := insertA ann "service.alpha.kubernetes.io/tolerate-unready-endpoints" "true"
    selector := appSelectorLabels a
    svcType := "ClusterIP"
    clusterIP := "None"
    publishNotReady := true }

/-- configureHeadlessService applies the headless service directly. -/
def configureHeadlessService (a : App) (ann : List (String × String)) (c : Cluster) : Cluster :=
  applyService c (headlessService a ann)

/-- getStorageUniqPrefix: reuse the workload's storage-unique-id annotation
when present and non-empty; treat not-found as absent; propagate other
errors; otherwise fall back to the freshly generated random token. -/
def getStorageUniqId (randomId : String)
    (getMeta : Except K8sErr (List (String × String))) : Except JujuErr String :=
  match getMeta with
  | .ok ann =>
    let uniqID := (lookupA ann appUuidKey).getD ""
    if uniqID.length > 0 then .ok uniqID else .ok randomId
  | .error .notFound => .ok randomId
  | .error e => .error (.k8s e)

/-! ## Storage resolution -/

/-- a.volumeName: app-storageName. -/
def volumeName (a : App) (storageName : String) : String :=
  a.name ++ "-" ++ storageName

/-- Modelled from the spec: QualifiedStorageClassName — the
namespace-qualified form of a storage-class name. -/
def qualifiedStorageClassName (ns sc : String) : String := ns ++ "-" ++ sc

/-- Modelled from the spec: GetMountPathForFilesystem — a deterministic
mount path from the filesystem index, the application name and the spec; an
explicit attachment path takes priority. -/
def getMountPathForFilesystem (idx : Nat) (appName : String) (fs : FilesystemCfg) : String :=
  match fs.attachment with
  | some att =>
    if att.path ≠ "" then att.path
    else "/var/lib/juju/storage/" ++ appName ++ "/" ++ fs.storageName ++ "/" ++ toString idx
  | none => "/var/lib/juju/storage/" ++ appName ++ "/" ++ fs.storageName ++ "/" ++ toString idx

/-- Modelled from the spec: VolumeSourceForFilesystem — a filesystem whose
attributes select a simple non-persistent medium maps to a plain volume
source and needs no claim. -/
def volumeSourceForFilesystem (fs : FilesystemCfg) : Option VolumeSource :=
  fs.nonPersistentMedium.map .nonPersistent

/-- Claim parameters produced by ParseVolumeParams. -/
structure VolumeParams where
  name : String
  storageClass : String
  sizeMi : Nat
deriving DecidableEq

/-- Modelled from the spec: ParseVolumeParams names the claim parameters by
the caller-supplied name and reads the configured storage class from the
filesystem attributes (the size, a natural number of MiB, always parses). -/
def parseVolumeParams (pvcName : String) (sizeMi : Nat) (fs : FilesystemCfg) : VolumeParams :=
  { name := pvcName, storageClass := fs.storageClassAttr, sizeMi }

/-- Modelled from the spec: StorageProvisioner and StorageClassSpec
synthesize a brand-new class derived from the claim parameters, named by the
namespace-qualified configured name (tolerating namespace-scoped naming
collisions) and labelled for the model. -/
def storageClassSpec (a : App) (params : VolumeParams) : StorageClassObj :=
  { name := qualifiedStorageClassName a.ns params.storageClass
    labels := [("model.juju.is/name", a.modelName)] }

/-- The (volume, claim, new-storage-class) triple returned by
filesystemToVolumeInfo. -/
structure FsVolumeInfo where
  vol : Option Volume := none
  pvc : Option PVC := none
  sc : Option StorageClassObj := none
deriving DecidableEq

/-- filesystemToVolumeInfo: a simple non-persistent source becomes a plain
volume; otherwise build claim parameters and resolve the storage class with
the precedence exact name, namespace-qualified name, synthesize new. -/
def filesystemToVolumeInfo (a : App) (name : String) (fs : FilesystemCfg)
    (scNames : List String) (pvcNameGetter : String → String) : FsVolumeInfo :=
  match volumeSourceForFilesystem fs with
  | some vs => { vol := some { name := name, source := vs } }
  | none =>
    let params := parseVolumeParams (pvcNameGetter name) fs.sizeMi fs
    let qual := qualifiedStorageClassName a.ns params.storageClass
    let resolved : VolumeParams × Option StorageClassObj :=
      if params.storageClass ∈ scNames then (params, none)
      else if qual ∈ scNames then ({ params with storageClass := qual }, none)
      else
        let sc := storageClassSpec a params
        ({ params with storageClass := sc.name }, some sc)
    let pvc : PVC :=
      { name := resolved.1.name
        labels := storageLabels fs.storageName a.legacyLabels
        annots := storageAnnots fs a.legacyLabels
        spec := { storageClassName := resolved.1.storageClass, sizeMi := resolved.1.sizeMi } }
    { pvc := some pvc, sc := resolved.2 }

/-- Modelled from the spec: PushUniqueVolume — register a volume on the pod
spec; an identical existing volume is tolerated, a same-named different one
is a NotValid error. -/
def pushUniqueVolume (pod : PodSpec) (v : Volume) : Except JujuErr PodSpec :=
  match pod.volumes.find? (fun w => w.name == v.name) with
  | some w =>
    if w = v then .ok pod
    else .error (.notValid ("duplicated volume " ++ v.name))
  | none => .ok { pod with volumes := pod.volumes ++ [v] }

/-- Modelled from the spec: PushUniqueVolumeClaimTemplate — push a claim
template onto the stateful workload spec; a same-named existing template is
a NotValid error. -/
def pushUniqueClaim (claims : List PVC) (p : PVC) : Except JujuErr (List PVC) :=
  if (claims.find? (fun q => q.name == p.name)).isSome then
    .error (.notValid ("duplicated volume claim template " ++ p.name))
  else .ok (claims ++ [p])

/-- Declared mounts of a named sidecar container (absent containers have
none). -/
def containerMounts (cfg : AppConfig) (cname : String) : List MountCfg :=
  ((cfg.containers.find? (fun c => c.name == cname)).map (fun c => c.mounts)).getD []

/-- handleVolumeMount: the charm container always receives the mount; a
sidecar receives a copy for each of its declared mounts naming the same
storage, with its own declared path overriding the default. -/
def addMountToContainers (cfg : AppConfig) (storageName : String) (m : VolumeMount) :
    List Container → List Container :=
  List.map fun c =>
    if c.name = unitContainerName then
      { c with volumeMounts := c.volumeMounts ++ [m] }
    else
      { c with volumeMounts := c.volumeMounts ++
          ((containerMounts cfg c.name).filterMap fun mt =>
            if mt.storageName = storageName then some { m with mountPath := mt.path }
            else none) }

/-- The mount-routing handler lifted to the whole pod spec. -/
def handleVolumeMount (cfg : AppConfig) (storageName : String) (m : VolumeMount)
    (pod : PodSpec) : PodSpec :=
  { pod with containers := addMountToContainers cfg storageName m pod.containers }

/-- How the per-topology claim handler treats a persistent claim: Stateful
pushes a claim template onto the workload spec, Stateless and Daemon stage a
standalone claim and attach it as a pod volume. -/
inductive PVCMode where
  | claimTemplate
  | standalone
deriving DecidableEq

/-- Pod spec and claim templates threaded through configureStorage. -/
structure StorState where
  pod : PodSpec
  claims : List PVC := []
deriving DecidableEq

/-- Result of handling one filesystem: the updated state, the operations
this filesystem staged, the updated known-class names, and an error if the
step failed partway (whatever was staged before the failure persists). -/
structure StepOut where
  st : StorState
  ops : List Op := []
  scNames : List String
  err? : Option JujuErr := none
deriving DecidableEq

/-- The storage-class operation staged for one resolved filesystem (one
apply when a new class was synthesized, nothing otherwise). -/
def scOpsOf (info : FsVolumeInfo) : List Op :=
  match info.sc with
  | some sc => [Op.storageClassOp sc]
  | none => []

/-- The known-class names after one resolved filesystem (the in-loop map
update of configureStorage). -/
def scNamesAfter (scNames : List String) (info : FsVolumeInfo) : List String :=
  match info.sc with
  | some sc => scNames ++ [sc.name]
  | none => scNames

/-- The read-only flag of a filesystem attachment (false when absent). -/
def fsReadOnly (fs : FilesystemCfg) : Bool :=
  match fs.attachment with
  | some att => att.readOnly
  | none => false

/-- Handle one filesystem of configureStorage: resolve it, register a plain
volume or stage the claim per the topology mode, stage a synthesized storage
class, and route the resulting mount. -/
def storStep (a : App) (cfg : AppConfig) (mode : PVCMode) (uid : String)
    (scNames : List String) (idx : Nat) (fs : FilesystemCfg) (st : StorState) : StepOut :=
  let readOnly := fsReadOnly fs
  let vname := volumeName a fs.storageName
  let info := filesystemToVolumeInfo a vname fs scNames
    (fun volName => volName ++ "-" ++ uid)
  let mountPath := getMountPathForFilesystem idx a.name fs
  let afterVol : Except JujuErr (StorState × Option VolumeMount) :=
    match info.vol with
    | some v =>
      match pushUniqueVolume st.pod v with
      | .error e => .error e
      | .ok pod' =>
        .ok ({ st with pod := pod' },
             some { name := v.name, mountPath := mountPath, readOnly := readOnly })
    | none => .ok (st, none)
  match afterVol with
  | .error e => { st := st, scNames := scNames, err? := some e }
  | .ok (st1, vm1) =>
    match info.pvc with
    | none =>
      match vm1 with
      | some m =>
        { st := { st1 with pod := handleVolumeMount cfg fs.storageName m st1.pod }
          ops := scOpsOf info, scNames := scNamesAfter scNames info }
      | none => { st := st1, ops := scOpsOf info, scNames := scNamesAfter scNames info }
    | some p =>
      match mode with
      | .standalone =>
        let vol : Volume := { name := p.name, source := .pvcRef p.name readOnly }
        match pushUniqueVolume st1.pod vol with
        | .error e =>
          { st := st1, ops := scOpsOf info ++ [Op.pvcOp p],
            scNames := scNamesAfter scNames info, err? := some e }
        | .ok pod' =>
          let m : VolumeMount := { name := p.name, mountPath := mountPath, readOnly := readOnly }
          { st := { st1 with pod := handleVolumeMount cfg fs.storageName m pod' }
            ops := scOpsOf info ++ [Op.pvcOp p], scNames := scNamesAfter scNames info }
      | .claimTemplate =>
        match pushUniqueClaim st1.claims p with
        | .error e =>
          { st := st1, ops := scOpsOf info, scNames := scNamesAfter scNames info,
            err? := some e }
        | .ok cl =>
          let m : VolumeMount := { name := p.name, mountPath := mountPath, readOnly := readOnly }
          { st := { st1 with pod := handleVolumeMount cfg fs.storageName m st1.pod, claims := cl }
            ops := scOpsOf info, scNames := scNamesAfter scNames info }

/-- Aggregate outcome of configureStorage. -/
structure StorOut where
  st : StorState
  ops : List Op := []
  err? : Option JujuErr := none
deriving DecidableEq

/-- configureStorage: iterate the declared filesystems in order, rejecting a
storage name already seen as NotValid before any handling of the duplicate,
and accumulate the staged operations. -/
def configureStorage (a : App) (cfg : AppConfig) (mode : PVCMode) (uid : String) :
    List String → List String → Nat → List FilesystemCfg → StorState → StorOut
  | _, _, _, [], st => { st := st }
  | scNames, seen, idx, fs :: rest, st =>
    if fs.storageName ∈ seen then
      { st := st
        err? := some (.notValid ("duplicated storage name " ++ fs.storageName ++
          " for " ++ a.name)) }
    else
      let out := storStep a cfg mode uid scNames idx fs st
      match out.err? with
      | some e => { st := out.st, ops := out.ops, err? := some e }
      | none =>
        let tail := configureStorage a cfg mode uid out.scNames
          (fs.storageName :: seen) (idx + 1) rest out.st
        { st := tail.st, ops := out.ops ++ tail.ops, err? := tail.err? }

/-! ## Ensure -/

/-- The bootstrap-credential secret staged first by every Ensure call. -/
def applicationSecret (a : App) (cfg : AppConfig) : Secret :=
  { name := secretName a
    ns := a.ns
    labels := appLabels a
    annots := annotsFor a cfg
    data := [("JUJU_K8S_APPLICATION", a.name),
             ("JUJU_K8S_MODEL", a.modelUUID),
             ("JUJU_K8S_APPLICATION_PASSWORD", cfg.introductionSecret),
             ("JUJU_K8S_CONTROLLER_ADDRESSES", cfg.controllerAddresses),
             ("JUJU_K8S_CONTROLLER_CA_CERT", cfg.controllerCertBundle)] }

/-- Observable outcome of one Ensure or Delete call: the operations staged
into the batch (also on failure, up to the failure point), the error if
any, and the cluster after the call (direct service writes happen even when
a later step fails; the batch runs only on success). -/
structure EnsureOut where
  staged : List Op := []
  err? : Option JujuErr := none
  cluster : Cluster
deriving DecidableEq

/-- The StatefulSet assembled by the Stateful branch of Ensure. -/
def buildStatefulSet (a : App) (cfg : AppConfig) (uid : String) (numPods : Option Int)
    (pod : PodSpec) (claims : List PVC) : StatefulSetObj :=
  { name := a.name
    ns := a.ns
    labels := appLabels a
    annots := insertA (annotsFor a cfg) appUuidKey uid
    replicas := numPods
    selector := appSelectorLabels a
    template := { labels := appSelectorLabels a, annots := annotsFor a cfg, spec := pod }
    claimTemplates := claims
    podManagementPolicy := "Parallel" }

/-- The Deployment assembled by the Stateless branch of Ensure. -/
def buildDeployment (a : App) (cfg : AppConfig) (uid : String) (numPods : Option Int)
    (pod : PodSpec) : DeploymentObj :=
  { name := a.name
    ns := a.ns
    labels := appLabels a
    annots := insertA (annotsFor a cfg) appUuidKey uid
    replicas := numPods
    selector := appSelectorLabels a
    template := { labels := appSelectorLabels a, annots := annotsFor a cfg, spec := pod } }

/-- The DaemonSet assembled by the Daemon branch of Ensure. -/
def buildDaemonSet (a : App) (cfg : AppConfig) (uid : String) (pod : PodSpec) : DaemonSetObj :=
  { name := a.name
    ns := a.ns
    labels := appLabels a
    annots := insertA (annotsFor a cfg) appUuidKey uid
    selector := appSelectorLabels a
    template := { labels := appSelectorLabels a, annots := annotsFor a cfg, spec := pod } }

/-- Tail of the Stateful branch after the live StatefulSet has been read:
resolve the storage-unique id, configure storage into claim templates, build
the workload (replicas set to one only on first creation) and run the batch. -/
def ensureStatefulTail (a : App) (cfg : AppConfig) (randomId : String) (c : Cluster)
    (ops0 : List Op) (pod0 : PodSpec) (scNames0 : List String)
    (exists_ : Bool) (metaRes : Except K8sErr (List (String × String))) : EnsureOut :=
  match getStorageUniqId randomId metaRes with
  | .error e => { staged := ops0, err? := some e, cluster := c }
  | .ok uid =>
    let numPods : Option Int := if exists_ then none else some 1
    let out := configureStorage a cfg .claimTemplate uid scNames0 [] 0 cfg.filesystems
      { pod := pod0 }
    match out.err? with
    | some e => { staged := ops0 ++ out.ops, err? := some e, cluster := c }
    | none =>
      let ss := buildStatefulSet a cfg uid numPods out.st.pod out.st.claims
      let ops := ops0 ++ out.ops ++ [Op.statefulSetOp ss]
      { staged := ops, cluster := runOps c ops }

/-- Tail of the Stateless branch after the live Deployment has been read. -/
def ensureStatelessTail (a : App) (cfg : AppConfig) (randomId : String) (c : Cluster)
    (ops0 : List Op) (pod0 : PodSpec) (scNames0 : List String)
    (exists_ : Bool) (metaRes : Except K8sErr (List (String × String))) : EnsureOut :=
  match getStorageUniqId randomId metaRes with
  | .error e => { staged := ops0, err? := some e, cluster := c }
  | .ok uid =>
    let numPods : Option Int := if exists_ then none else some 1
    let out := configureStorage a cfg .standalone uid scNames0 [] 0 cfg.filesystems
      { pod := pod0 }
    match out.err? with
    | some e => { staged := ops0 ++ out.ops, err? := some e, cluster := c }
    | none =>
      let d := buildDeployment a cfg uid numPods out.st.pod
      let ops := ops0 ++ out.ops ++ [Op.deploymentOp d]
      { staged := ops, cluster := runOps c ops }

/-- Tail of the Daemon branch (no existence pre-check and no replica count). -/
def ensureDaemonTail (a : App) (cfg : AppConfig) (randomId : String) (c : Cluster)
    (ops0 : List Op) (pod0 : PodSpec) (scNames0 : List String)
    (metaRes : Except K8sErr (List (String × String))) : EnsureOut :=
  match getStorageUniqId randomId metaRes with
  | .error e => { staged := ops0, err? := some e, cluster := c }
  | .ok uid =>
    let out := configureStorage a cfg .standalone uid scNames0 [] 0 cfg.filesystems
      { pod := pod0 }
    match out.err? with
    | some e => { staged := ops0 ++ out.ops, err? := some e, cluster := c }
    | none =>
      let d := buildDaemonSet a cfg uid out.st.pod
      let ops := ops0 ++ out.ops ++ [Op.daemonSetOp d]
      { staged := ops, cluster := runOps c ops }

/-- Ensure: stage the secret, ensure the default service (direct write),
assemble the pod spec, list the storage classes, then branch on the
deployment topology; an unrecognized topology is NotSupported. -/
def ensure (a : App) (cfg : AppConfig) (randomId : String) (c0 : Cluster) : EnsureOut :=
  let ops0 : List Op := [Op.secretOp (applicationSecret a cfg)]
  match configureDefaultService a (annotsFor a cfg) c0 with
  | (some e, c1) => { staged := ops0, err? := some e, cluster := c1 }
  | (none, c1) =>
    let pod0 := applicationPodSpec a cfg
    let scNames0 := c1.storageClasses.map (fun p => p.1)
    match a.deploymentType with
    | .stateful =>
      let c2 := configureHeadlessService a (annotsFor a cfg) c1
      match getRes c2.statefulSets a.name with
      | .error (.k8sFail m) =>
        { staged := ops0, err? := some (.k8s (.k8sFail m)), cluster := c2 }
      | .error .notFound =>
        ensureStatefulTail a cfg randomId c2 ops0 pod0 scNames0 false (.error .notFound)
      | .ok ss =>
        ensureStatefulTail a cfg randomId c2 ops0 pod0 scNames0 true (.ok ss.annots)
    | .stateless =>
      match getRes c1.deployments a.name with
      | .error (.k8sFail m) =>
        { staged := ops0, err? := some (.k8s (.k8sFail m)), cluster := c1 }
      | .error .notFound =>
        ensureStatelessTail a cfg randomId c1 ops0 pod0 scNames0 false (.error .notFound)
      | .ok d =>
        ensureStatelessTail a cfg randomId c1 ops0 pod0 scNames0 true (.ok d.annots)
    | .daemon =>
      ensureDaemonTail a cfg randomId c1 ops0 pod0 scNames0
        ((getRes c1.daemonSets a.name).map (fun d => d.annots))
    | .other _ =>
      { staged := ops0, err? := some (.notSupported "unknown deployment type"), cluster := c1 }

/-! ## Exists -/

/-- A single existence check: not-found is absent (no error), a present
object reports its deletion marker, other errors propagate. -/
def resourceCheck {α : Type} (store : List (String × Except String α)) (key : String)
    (marked : α → Bool) : Except JujuErr (Bool × Bool) :=
  match getRes store key with
  | .error .notFound => .ok (false, false)
  | .error e => .error (.k8s e)
  | .ok v => .ok (true, marked v)

/-- The aggregation loop of Exists over the fixed check list. -/
def existsLoop (st : DeploymentState) :
    List (Except JujuErr (Bool × Bool) × Bool) → DeploymentState × Option JujuErr
  | [] => (st, none)
  | (chk, force) :: rest =>
    match chk with
    | .error e => ({ }, some e)
    | .ok (ex, term) =>
      if ex then
        if term || force then ({ exists_ := true, terminating := true }, none)
        else existsLoop { st with exists_ := true } rest
      else existsLoop st rest

/-- The primary existence check selected by the deployment topology (none
for an unrecognized topology). -/
def primaryWorkloadCheck (a : App) (c : Cluster) : Option (Except JujuErr (Bool × Bool)) :=
  match a.deploymentType with
  | .stateful => some (resourceCheck c.statefulSets a.name (fun w => w.deletionMarked))
  | .stateless => some (resourceCheck c.deployments a.name (fun w => w.deletionMarked))
  | .daemon => some (resourceCheck c.daemonSets a.name (fun w => w.deletionMarked))
  | .other _ => none

/-- Exists: check the topology's primary workload, then the secret, then the
default service; unrecognized topology is NotSupported with an empty state. -/
def existsApp (a : App) (c : Cluster) : DeploymentState × Option JujuErr :=
  match primaryWorkloadCheck a c with
  | none => ({ }, some (.notSupported "unknown deployment type"))
  | some pc =>
    existsLoop { } [(pc, false),
      (resourceCheck c.secrets (secretName a) (fun s => s.deletionMarked), false),
      (resourceCheck c.services a.name (fun s => s.deletionMarked), false)]

/-! ## Delete -/

/-- Delete: stage deletion of the topology's primary resource (plus the
headless service for Stateful), the default service and the secret, then
run the batch; unrecognized topology is NotSupported. -/
def deleteApp (a : App) (c : Cluster) : EnsureOut :=
  match a.deploymentType with
  | .stateful =>
    let ops := [Op.deleteStatefulSetOp a.name,
                Op.deleteServiceOp (headlessServiceName a.name),
                Op.deleteServiceOp a.name,
                Op.deleteSecretOp (secretName a)]
    { staged := ops, cluster := runOps c ops }
  | .stateless =>
    let ops := [Op.deleteDeploymentOp a.name,
                Op.deleteServiceOp a.name,
                Op.deleteSecretOp (secretName a)]
    { staged := ops, cluster := runOps c ops }
  | .daemon =>
    let ops := [Op.deleteDaemonSetOp a.name,
                Op.deleteServiceOp a.name,
                Op.deleteSecretOp (secretName a)]
    { staged := ops, cluster := runOps c ops }
  | .other _ =>
    { err? := some (.notSupported "unknown deployment type"), cluster := c }

/-! ## State -/

/-- The desired-replica source of State: the live spec's replica pointer for
Stateful and Stateless (nil is the fatal missing-replicas error), the
status's desired-scheduled count for Daemon. -/
def desiredReplicasOf (a : App) (c : Cluster) : Except JujuErr Int :=
  match a.deploymentType with
  | .stateful =>
    match getRes c.statefulSets a.name with
    | .error e => .error (.k8s e)
    | .ok ss =>
      match ss.replicas with
      | none => .error (.generic "missing replicas")
      | some n => .ok n
  | .stateless =>
    match getRes c.deployments a.name with
    | .error e => .error (.k8s e)
    | .ok d =>
      match d.replicas with
      | none => .error (.generic "missing replicas")
      | some n => .ok n
  | .daemon =>
    match getRes c.daemonSets a.name with
    | .error e => .error (.k8s e)
    | .ok d => .ok d.statusDesiredScheduled
  | .other _ => .error (.notSupported "unknown deployment type")

/-- One page of the paginated pod list: the pod names of the page, the
continue cursor and the server's remaining-item count. -/
structure PodPage where
  items : List String := []
  cont : String := ""
  remaining : Option Nat := none
deriving DecidableEq

/-- Modelled from the spec: the cursor-based pagination transport delivers
pages in cursor order; the accumulation loop of State appends each page's
names and stops when the server reports no remaining items (a nil or zero
remaining count). -/
def collectPods : List PodPage → List String
  | [] => []
  | p :: rest =>
    if p.remaining = none ∨ p.remaining = some 0 then p.items
    else p.items ++ collectPods rest

/-- sort.Strings: ascending lexicographic sort. -/
def sortStrings (l : List String) : List String := l.mergeSort (fun x y => x ≤ y)

/-- State: resolve the desired replica count per topology (errors surface
with an empty state), then accumulate pod names across all pages and sort
them. -/
def stateApp (a : App) (c : Cluster) (pages : List PodPage) :
    ApplicationState × Option JujuErr :=
  match desiredReplicasOf a c with
  | .error e => ({ }, some e)
  | .ok n => ({ desiredReplicas := n, replicas := sortStrings (collectPods pages) }, none)

/-- The annotation map of the topology's live workload object, as read by
Ensure before resolving the storage-unique id. -/
def liveWorkloadAnnots (a : App) (c : Cluster) : Except K8sErr (List (String × String)) :=
  match a.deploymentType with
  | .stateful => (getRes c.statefulSets a.name).map (fun w => w.annots)
  | .stateless => (getRes c.deployments a.name).map (fun w => w.annots)
  | .daemon => (getRes c.daemonSets a.name).map (fun w => w.annots)
  | .other _ => .error .notFound

/-! ## General lemmas -/

/-- A non-empty string has positive length. -/
theorem length_pos_of_ne_empty {v : String} (h : v ≠ "") : v.length > 0 := by
  cases v with
  | mk data =>
    cases data with
    | nil => simp at h
    | cons c cs => simp [String.length]

/-- Appending a non-empty string strictly grows the length, so the result
differs from the left operand. -/
theorem self_ne_append {s t : String} (h : t ≠ "") : s ≠ s ++ t := by
  intro he
  have hl : s.length = (s ++ t).length := congrArg String.length he
  rw [String.length_append] at hl
  have := length_pos_of_ne_empty h
  omega

/-- Appending a non-empty string on the left also changes the string. -/
theorem append_ne_self {s t : String} (h : s ≠ "") : t ≠ s ++ t := by
  intro he
  have hl : t.length = (s ++ t).length := congrArg String.length he
  rw [String.length_append] at hl
  have := length_pos_of_ne_empty h
  omega

/-- A namespace-qualified storage-class name is never the bare name itself. -/
theorem qualified_ne_self (ns sc : String) : qualifiedStorageClassName ns sc ≠ sc := by
  intro he
  have hl : (qualifiedStorageClassName ns sc).length = sc.length :=
    congrArg String.length he
  rw [qualifiedStorageClassName, String.length_append, String.length_append] at hl
  have hd : ("-" : String).length = 1 := rfl
  omega

/-! ## Claim C6: storage-class resolution precedence -/

/-- C6 (confirmed).  For a filesystem that does not map to a simple
non-persistent volume source, filesystemToVolumeInfo returns no plain
volume; the claim is named by the claim-name getter; the claim's class is
the configured name when a class of exactly that name exists, and the
namespace-qualified name otherwise; and a new storage-class definition is
synthesized (named by the namespace-qualified name) exactly when neither
the configured nor the qualified name exists. -/
theorem filesystemToVolumeInfo_resolution
    (a : App) (name : String) (fs : FilesystemCfg) (scNames : List String)
    (png : String → String) (h : fs.nonPersistentMedium = none) :
    (filesystemToVolumeInfo a name fs scNames png).vol = none ∧
    (∃ p, (filesystemToVolumeInfo a name fs scNames png).pvc = some p ∧
      p.name = png name ∧ p.spec.sizeMi = fs.sizeMi ∧
      p.spec.storageClassName =
        (if fs.storageClassAttr ∈ scNames then fs.storageClassAttr
         else qualifiedStorageClassName a.ns fs.storageClassAttr)) ∧
    ((filesystemToVolumeInfo a name fs scNames png).sc =
      (if fs.storageClassAttr ∈ scNames ∨
          qualifiedStorageClassName a.ns fs.storageClassAttr ∈ scNames then none
       else some (storageClassSpec a (parseVolumeParams (png name) fs.sizeMi fs)))) ∧
    (∀ sc, (filesystemToVolumeInfo a name fs scNames png).sc = some sc →
      sc.name = qualifiedStorageClassName a.ns fs.storageClassAttr ∧
      fs.storageClassAttr ∉ scNames ∧
      qualifiedStorageClassName a.ns fs.storageClassAttr ∉ scNames) := by
  unfold filesystemToVolumeInfo volumeSourceForFilesystem
  rw [h]
  by_cases h₁ : fs.storageClassAttr ∈ scNames
  · simp [parseVolumeParams, h₁]
  · by_cases h₂ : qualifiedStorageClassName a.ns fs.storageClassAttr ∈ scNames
    · simp [parseVolumeParams, h₁, h₂]
    · simp [parseVolumeParams, storageClassSpec, h₁, h₂]

/-- Witness for C6: a concrete filesystem against a class list containing
only the qualified name resolves to the qualified name without synthesis. -/
theorem filesystemToVolumeInfo_resolution_witness :
    (filesystemToVolumeInfo
      { name := "db", ns := "ns", modelUUID := "u", modelName := "m",
        legacyLabels := false, deploymentType := .stateful }
      "db-data" { storageName := "data", sizeMi := 1024, storageClassAttr := "fast" }
      ["ns-fast"] (fun v => v ++ "-u1")).sc = none := by
  have h := filesystemToVolumeInfo_resolution
    { name := "db", ns := "ns", modelUUID := "u", modelName := "m",
      legacyLabels := false, deploymentType := .stateful }
    "db-data" { storageName := "data", sizeMi := 1024, storageClassAttr := "fast" }
    ["ns-fast"] (fun v => v ++ "-u1") (by decide)
  rw [h.2.2.1]
  decide

/-! ## Claim C10: create-once default service -/

/-- C10 (confirmed).  configureDefaultService writes the default service
only when its get reports not-found, and the created service is a ClusterIP
service selected by the application's selector labels with the single
placeholder port 65535; when the service already exists nothing is written
and the call succeeds; any other get error is propagated with the cluster
unchanged. -/
theorem configureDefaultService_create_once
    (a : App) (ann : List (String × String)) (c : Cluster) :
    (lookupA c.services a.name = none →
      configureDefaultService a ann c = (none, applyService c (defaultService a ann)) ∧
      (defaultService a ann).svcType = "ClusterIP" ∧
      (defaultService a ann).selector = appSelectorLabels a ∧
      (defaultService a ann).ports = [{ name := "placeholder", port := 65535 }]) ∧
    (∀ s, lookupA c.services a.name = some (.ok s) →
      configureDefaultService a ann c = (none, c)) ∧
    (∀ m, lookupA c.services a.name = some (.error m) →
      configureDefaultService a ann c = (some (.k8s (.k8sFail m)), c)) := by
  refine ⟨fun h => ?_, fun s h => ?_, fun m h => ?_⟩ <;>
    simp [configureDefaultService, getRes, h, defaultService]

/-- Witness for C10: on an empty cluster the default service for a concrete
app is created; on a cluster already holding it nothing happens. -/
theorem configureDefaultService_create_once_witness :
    (configureDefaultService
        { name := "db", ns := "ns", modelUUID := "u", modelName := "m",
          legacyLabels := false, deploymentType := .stateful } [] { } =
      (none, applyService { }
        (defaultService
          { name := "db", ns := "ns", modelUUID := "u", modelName := "m",
            legacyLabels := false, deploymentType := .stateful } []))) ∧
    (configureDefaultService
        { name := "db", ns := "ns", modelUUID := "u", modelName := "m",
          legacyLabels := false, deploymentType := .stateful } []
        { services := [("db", .ok { name := "db", ns := "ns" })] } =
      (none, { services := [("db", .ok { name := "db", ns := "ns" })] })) := by
  constructor
  · exact (configureDefaultService_create_once _ [] { }
      |>.1 (by decide)).1
  · exact configureDefaultService_create_once _ []
      { services := [("db", .ok { name := "db", ns := "ns" })] }
      |>.2.1 { name := "db", ns := "ns" } (by decide)

/-! ## Claim C2: storage-unique-id stability -/

/-- The default-service step never touches any store other than services. -/
theorem configureDefaultService_frame (a : App) (ann : List (String × String)) (c : Cluster) :
    ((configureDefaultService a ann c).2).statefulSets = c.statefulSets ∧
    ((configureDefaultService a ann c).2).deployments = c.deployments ∧
    ((configureDefaultService a ann c).2).daemonSets = c.daemonSets ∧
    ((configureDefaultService a ann c).2).secrets = c.secrets ∧
    ((configureDefaultService a ann c).2).pvcs = c.pvcs ∧
    ((configureDefaultService a ann c).2).storageClasses = c.storageClasses := by
  unfold configureDefaultService
  split <;> simp [applyService]

/-- C2 (confirmed).  The storage-unique-id resolution reuses a non-empty
live annotation value exactly and ignores the generated token; the
generated token is used exactly when the workload read is not-found or the
annotation is absent or empty; transport errors propagate; and an Ensure
call against a live workload carrying a non-empty storage-unique-id
annotation is independent of the random token (so the generator's output is
never observable). -/
theorem storageUniqId_stability :
    (∀ (ann : List (String × String)) (v r : String),
      lookupA ann appUuidKey = some v → v ≠ "" →
      getStorageUniqId r (.ok ann) = .ok v) ∧
    (∀ (ann : List (String × String)) (r : String),
      lookupA ann appUuidKey = none ∨ lookupA ann appUuidKey = some "" →
      getStorageUniqId r (.ok ann) = .ok r) ∧
    (∀ r : String, getStorageUniqId r (.error .notFound) = .ok r) ∧
    (∀ (r m : String),
      getStorageUniqId r (.error (.k8sFail m)) = .error (.k8s (.k8sFail m))) ∧
    (∀ (a : App) (cfg : AppConfig) (c : Cluster) (ann : List (String × String))
        (v r₁ r₂ : String),
      liveWorkloadAnnots a c = .ok ann →
      lookupA ann appUuidKey = some v → v ≠ "" →
      ensure a cfg r₁ c = ensure a cfg r₂ c) := by
  refine ⟨?_, ?_, ?_, ?_, ?_⟩
  · intro ann v r h1 h2
    simp [getStorageUniqId, h1, length_pos_of_ne_empty h2]
  · intro ann r h
    rcases h with h | h <;> simp [getStorageUniqId, h]
  · intro r; rfl
  · intro r m; rfl
  · intro a cfg c ann v r₁ r₂ hl hk hv
    have huid : ∀ r, getStorageUniqId r (.ok ann) = .ok v := by
      intro r
      simp [getStorageUniqId, hk, length_pos_of_ne_empty hv]
    cases hcds : configureDefaultService a (annotsFor a cfg) c with
    | mk e? c1 =>
      have hfr := configureDefaultService_frame a (annotsFor a cfg) c
      rw [hcds] at hfr
      cases e? with
      | some e => simp [ensure, hcds]
      | none =>
        unfold liveWorkloadAnnots at hl
        cases hdt : a.deploymentType with
        | stateful =>
          rw [hdt] at hl
          cases hss : getRes c.statefulSets a.name with
          | error e => rw [hss] at hl; simp [Except.map] at hl
          | ok ss =>
            rw [hss] at hl
            simp only [Except.map, Except.ok.injEq] at hl
            simp only [ensure, hcds, hdt]
            have hgs : getRes (configureHeadlessService a (annotsFor a cfg) c1).statefulSets
                a.name = .ok ss := by
              simp only [configureHeadlessService, applyService]
              rw [hfr.1, hss]
            simp only [hgs, ensureStatefulTail, hl, huid]
        | stateless =>
          rw [hdt] at hl
          cases hss : getRes c.deployments a.name with
          | error e => rw [hss] at hl; simp [Except.map] at hl
          | ok d =>
            rw [hss] at hl
            simp only [Except.map, Except.ok.injEq] at hl
            simp only [ensure, hcds, hdt]
            have hgs : getRes c1.deployments a.name = .ok d := by rw [hfr.2.1, hss]
            simp only [hgs, ensureStatelessTail, hl, huid]
        | daemon =>
          rw [hdt] at hl
          simp only [ensure, hcds, hdt]
          have hgs : (getRes c1.daemonSets a.name).map (fun d => d.annots) = .ok ann := by
            rw [hfr.2.2.1]; exact hl
          simp only [hgs, ensureDaemonTail, huid]
        | other s =>
          rw [hdt] at hl
          simp at hl

/-- Concrete fixtures for the C2 witness: a stateful app whose live
StatefulSet already carries the storage-unique-id annotation. -/
def w2App : App :=
  { name := "db", ns := "ns", modelUUID := "u", modelName := "m",
    legacyLabels := false, deploymentType := .stateful }

/-- The live cluster of the C2 witness. -/
def w2Cluster : Cluster :=
  { statefulSets :=
      [("db", .ok { name := "db", ns := "ns", annots := [(appUuidKey, "keep")],
                    template := { spec := { } } })] }

/-- Witness for C2: the annotation value wins over the generated token, and
a full Ensure call is insensitive to the generated token. -/
theorem storageUniqId_stability_witness :
    getStorageUniqId "r1" (.ok [(appUuidKey, "keep")]) = .ok "keep" ∧
    ensure w2App { } "r1" w2Cluster = ensure w2App { } "r2" w2Cluster := by
  constructor
  · exact storageUniqId_stability.1 [(appUuidKey, "keep")] "keep" "r1" (by decide) (by decide)
  · exact storageUniqId_stability.2.2.2.2 w2App { } w2Cluster
      [(appUuidKey, "keep")] "keep" "r1" "r2" (by decide) (by decide) (by decide)

/-! ## Claim C5: existence aggregation -/

/-- C5 (confirmed).  Exists treats not-found as absent: when only the
secret exists (primary workload absent, service absent) and it is not
deletion-marked, the verdict is exists without terminating; when the
topology's primary workload is present and deletion-marked the verdict is
exists-and-terminating no matter what the secret and service stores hold
(the remaining checks are short-circuited); and when nothing is present the
verdict is empty. -/
theorem exists_aggregation (a : App) (c : Cluster) :
    (∀ s, primaryWorkloadCheck a c = some (.ok (false, false)) →
      lookupA c.services a.name = none →
      lookupA c.secrets (secretName a) = some (.ok s) →
      s.deletionMarked = false →
      existsApp a c = ({ exists_ := true, terminating := false }, none)) ∧
    (primaryWorkloadCheck a c = some (.ok (true, true)) →
      existsApp a c = ({ exists_ := true, terminating := true }, none)) ∧
    (primaryWorkloadCheck a c = some (.ok (false, false)) →
      lookupA c.services a.name = none →
      lookupA c.secrets (secretName a) = none →
      existsApp a c = ({ exists_ := false, terminating := false }, none)) := by
  refine ⟨fun s hp hsvc hsec hm => ?_, fun hp => ?_, fun hp hsvc hsec => ?_⟩
  · simp [existsApp, hp, existsLoop, resourceCheck, getRes, hsvc, hsec, hm]
  · simp [existsApp, hp, existsLoop]
  · simp [existsApp, hp, existsLoop, resourceCheck, getRes, hsvc, hsec]

/-- The secret object of the C5 witness. -/
def w5Secret : Secret := { name := "db-application-config", ns := "ns" }

/-- The cluster of the C5 witness: only the secret exists. -/
def w5Cluster : Cluster := { secrets := [("db-application-config", .ok w5Secret)] }

/-- Witness for C5: a cluster holding only the (unmarked) secret of a
stateful app reports exists without terminating. -/
theorem exists_aggregation_witness :
    existsApp w2App w5Cluster = ({ exists_ := true, terminating := false }, none) :=
  (exists_aggregation w2App w5Cluster).1 w5Secret
    (by decide) (by decide) (by decide) (by decide)

/-! ## Claim C7: desired-replica source of State -/

/-- C7 (confirmed).  For Stateful and Stateless the desired count comes
from the live spec's replica pointer and a nil pointer is the fatal
missing-replicas error with an empty state returned; for Daemon the desired
count is the status's desired-scheduled value, which has no nil case. -/
theorem state_desired_source (a : App) (c : Cluster) (pages : List PodPage) :
    (∀ ss, a.deploymentType = .stateful →
      lookupA c.statefulSets a.name = some (.ok ss) → ss.replicas = none →
      stateApp a c pages = ({ }, some (.generic "missing replicas"))) ∧
    (∀ ss n, a.deploymentType = .stateful →
      lookupA c.statefulSets a.name = some (.ok ss) → ss.replicas = some n →
      (stateApp a c pages).2 = none ∧ (stateApp a c pages).1.desiredReplicas = n) ∧
    (∀ d, a.deploymentType = .stateless →
      lookupA c.deployments a.name = some (.ok d) → d.replicas = none →
      stateApp a c pages = ({ }, some (.generic "missing replicas"))) ∧
    (∀ d n, a.deploymentType = .stateless →
      lookupA c.deployments a.name = some (.ok d) → d.replicas = some n →
      (stateApp a c pages).2 = none ∧ (stateApp a c pages).1.desiredReplicas = n) ∧
    (∀ d, a.deploymentType = .daemon →
      lookupA c.daemonSets a.name = some (.ok d) →
      (stateApp a c pages).2 = none ∧
      (stateApp a c pages).1.desiredReplicas = d.statusDesiredScheduled) := by
  refine ⟨fun ss h1 h2 h3 => ?_, fun ss n h1 h2 h3 => ?_, fun d h1 h2 h3 => ?_,
    fun d n h1 h2 h3 => ?_, fun d h1 h2 => ?_⟩
  · simp [stateApp, desiredReplicasOf, h1, getRes, h2, h3]
  · simp [stateApp, desiredReplicasOf, h1, getRes, h2, h3]
  · simp [stateApp, desiredReplicasOf, h1, getRes, h2, h3]
  · simp [stateApp, desiredReplicasOf, h1, getRes, h2, h3]
  · simp [stateApp, desiredReplicasOf, h1, getRes, h2]

/-- The nil-replica StatefulSet of the C7 witness. -/
def w7SS : StatefulSetObj :=
  { name := "db", ns := "ns", replicas := none, template := { spec := { } } }

/-- The cluster of the C7 witness. -/
def w7Cluster : Cluster := { statefulSets := [("db", .ok w7SS)] }

/-- Witness for C7: a live StatefulSet with a nil replica pointer makes
State fail with the missing-replicas error and an empty state. -/
theorem state_desired_source_witness :
    stateApp w2App w7Cluster [] = ({ }, some (.generic "missing replicas")) :=
  (state_desired_source w2App w7Cluster []).1 w7SS
    (by decide) (by decide) (by decide)

/-! ## Claim C8: pagination of State -/

/-- Under a well-formed page sequence (every page before the last signals
remaining items, the last signals none), the accumulation loop returns
exactly the concatenation of the pages. -/
theorem collectPods_eq_join (pages : List PodPage)
    (hmid : ∀ p ∈ pages.dropLast, ¬(p.remaining = none ∨ p.remaining = some 0))
    (hlast : ∀ p, pages.getLast? = some p → (p.remaining = none ∨ p.remaining = some 0)) :
    collectPods pages = (pages.map (fun p => p.items)).flatten := by
  induction pages with
  | nil => simp [collectPods]
  | cons p rest ih =>
    cases rest with
    | nil =>
      have h := hlast p (by simp)
      simp [collectPods, h]
    | cons q rest' =>
      have hp : ¬(p.remaining = none ∨ p.remaining = some 0) := by
        apply hmid
        simp [List.dropLast]
      have ih' := ih (fun x hx => hmid x (by simp [List.dropLast] at hx ⊢; exact .inr hx))
        (fun x hx => hlast x (by rw [List.getLast?_cons_cons]; exact hx))
      show (if p.remaining = none ∨ p.remaining = some 0 then p.items
            else p.items ++ collectPods (q :: rest')) = _
      rw [if_neg hp, ih']
      simp

/-- C8 (confirmed).  State over any pod list split into pages returns the
union of the page contents (a permutation of their concatenation, hence no
omission), sorted lexicographically, with duplicates never introduced; the
loop stops exactly at the page whose remaining count is nil or zero. -/
theorem state_pagination (a : App) (c : Cluster) (pages : List PodPage) (n : Int)
    (hd : desiredReplicasOf a c = .ok n)
    (hmid : ∀ p ∈ pages.dropLast, ¬(p.remaining = none ∨ p.remaining = some 0))
    (hlast : ∀ p, pages.getLast? = some p → (p.remaining = none ∨ p.remaining = some 0)) :
    (stateApp a c pages).2 = none ∧
    (stateApp a c pages).1.desiredReplicas = n ∧
    (stateApp a c pages).1.replicas.Perm ((pages.map (fun p => p.items)).flatten) ∧
    List.Sorted (· ≤ ·) (stateApp a c pages).1.replicas ∧
    (((pages.map (fun p => p.items)).flatten).Nodup →
      (stateApp a c pages).1.replicas.Nodup) := by
  have hc := collectPods_eq_join pages hmid hlast
  have hrep : (stateApp a c pages).1.replicas = sortStrings (collectPods pages) := by
    simp [stateApp, hd]
  refine ⟨by simp [stateApp, hd], by simp [stateApp, hd], ?_, ?_, ?_⟩
  · rw [hrep, hc]
    exact List.mergeSort_perm _ _
  · rw [hrep]
    exact List.sorted_mergeSort' _
  · intro hn
    rw [hrep, hc]
    exact ((List.mergeSort_perm _ _).symm).nodup hn

/-- The live StatefulSet of the C8 witness. -/
def w8SS : StatefulSetObj :=
  { name := "db", ns := "ns", replicas := some 3, template := { spec := { } } }

/-- The three-replica cluster of the C8 witness. -/
def w8Cluster : Cluster := { statefulSets := [("db", .ok w8SS)] }

/-- The three pages of the C8 witness. -/
def w8Pages : List PodPage :=
  [{ items := ["db-2"], cont := "c1", remaining := some 2 },
   { items := ["db-0"], cont := "c2", remaining := some 1 },
   { items := ["db-1"], remaining := some 0 }]

/-- Witness for C8: three concrete pages produce the full union, sorted and
duplicate-free. -/
theorem state_pagination_witness :
    (stateApp w2App w8Cluster w8Pages).1.replicas.Perm
        ((w8Pages.map (fun p => p.items)).flatten) ∧
    List.Sorted (· ≤ ·) (stateApp w2App w8Cluster w8Pages).1.replicas ∧
    (stateApp w2App w8Cluster w8Pages).1.replicas.Nodup := by
  have h := state_pagination w2App w8Cluster w8Pages 3
    (by decide) (by decide) (by decide)
  exact ⟨h.2.2.1, h.2.2.2.1, h.2.2.2.2 (by decide)⟩

/-! ## Dissection of a successful Ensure call -/

/-- The cluster after the default-service step of Ensure. -/
def ensureC1 (a : App) (cfg : AppConfig) (c : Cluster) : Cluster :=
  (configureDefaultService a (annotsFor a cfg) c).2

/-- The live StatefulSet read by the Stateful branch. -/
def statefulGot (a : App) (cfg : AppConfig) (c : Cluster) : Except K8sErr StatefulSetObj :=
  getRes (ensureC1 a cfg c).statefulSets a.name

/-- The storage outcome of the Stateful branch for a given unique id. -/
def statefulStor (a : App) (cfg : AppConfig) (uid : String) (c : Cluster) : StorOut :=
  configureStorage a cfg .claimTemplate uid
    ((ensureC1 a cfg c).storageClasses.map (fun p => p.1)) [] 0 cfg.filesystems
    { pod := applicationPodSpec a cfg }

/-- The batch staged by a successful Stateful Ensure. -/
def statefulOps (a : App) (cfg : AppConfig) (uid : String) (c : Cluster) : List Op :=
  [Op.secretOp (applicationSecret a cfg)] ++ (statefulStor a cfg uid c).ops ++
    [Op.statefulSetOp (buildStatefulSet a cfg uid
      (if (statefulGot a cfg c).isOk then none else some 1)
      (statefulStor a cfg uid c).st.pod (statefulStor a cfg uid c).st.claims)]

/-- The live Deployment read by the Stateless branch. -/
def statelessGot (a : App) (cfg : AppConfig) (c : Cluster) : Except K8sErr DeploymentObj :=
  getRes (ensureC1 a cfg c).deployments a.name

/-- The storage outcome of the Stateless and Daemon branches. -/
def standaloneStor (a : App) (cfg : AppConfig) (uid : String) (c : Cluster) : StorOut :=
  configureStorage a cfg .standalone uid
    ((ensureC1 a cfg c).storageClasses.map (fun p => p.1)) [] 0 cfg.filesystems
    { pod := applicationPodSpec a cfg }

/-- The batch staged by a successful Stateless Ensure. -/
def statelessOps (a : App) (cfg : AppConfig) (uid : String) (c : Cluster) : List Op :=
  [Op.secretOp (applicationSecret a cfg)] ++ (standaloneStor a cfg uid c).ops ++
    [Op.deploymentOp (buildDeployment a cfg uid
      (if (statelessGot a cfg c).isOk then none else some 1)
      (standaloneStor a cfg uid c).st.pod)]

/-- The batch staged by a successful Daemon Ensure. -/
def daemonOps (a : App) (cfg : AppConfig) (uid : String) (c : Cluster) : List Op :=
  [Op.secretOp (applicationSecret a cfg)] ++ (standaloneStor a cfg uid c).ops ++
    [Op.daemonSetOp (buildDaemonSet a cfg uid (standaloneStor a cfg uid c).st.pod)]

/-- Success shape of the Stateful branch tail: the unique id resolved, the
storage configuration succeeded, and the result stages the prior operations,
the storage operations and the assembled StatefulSet, running them on the
given cluster. -/
theorem ensureStatefulTail_success (a : App) (cfg : AppConfig) (r : String) (c2 : Cluster)
    (ops0 : List Op) (pod0 : PodSpec) (scNames0 : List String) (ex : Bool)
    (metaRes : Except K8sErr (List (String × String)))
    (h2 : (ensureStatefulTail a cfg r c2 ops0 pod0 scNames0 ex metaRes).err? = none) :
    ∃ uid, getStorageUniqId r metaRes = .ok uid ∧
      (configureStorage a cfg .claimTemplate uid scNames0 [] 0 cfg.filesystems
        { pod := pod0 }).err? = none ∧
      ensureStatefulTail a cfg r c2 ops0 pod0 scNames0 ex metaRes =
        { staged := ops0 ++ (configureStorage a cfg .claimTemplate uid scNames0 [] 0
              cfg.filesystems { pod := pod0 }).ops ++
            [Op.statefulSetOp (buildStatefulSet a cfg uid (if ex then none else some 1)
              (configureStorage a cfg .claimTemplate uid scNames0 [] 0 cfg.filesystems
                { pod := pod0 }).st.pod
              (configureStorage a cfg .claimTemplate uid scNames0 [] 0 cfg.filesystems
                { pod := pod0 }).st.claims)]
          err? := none
          cluster := runOps c2 (ops0 ++ (configureStorage a cfg .claimTemplate uid scNames0
              [] 0 cfg.filesystems { pod := pod0 }).ops ++
            [Op.statefulSetOp (buildStatefulSet a cfg uid (if ex then none else some 1)
              (configureStorage a cfg .claimTemplate uid scNames0 [] 0 cfg.filesystems
                { pod := pod0 }).st.pod
              (configureStorage a cfg .claimTemplate uid scNames0 [] 0 cfg.filesystems
                { pod := pod0 }).st.claims)]) } := by
  rw [ensureStatefulTail] at h2 ⊢
  cases huid : getStorageUniqId r metaRes with
  | error e =>
    simp only [huid] at h2
    exact Option.noConfusion h2
  | ok uid =>
    simp only [huid] at h2 ⊢
    cases hse : (configureStorage a cfg .claimTemplate uid scNames0 [] 0 cfg.filesystems
        { pod := pod0 }).err? with
    | some e =>
      simp only [hse] at h2
      exact Option.noConfusion h2
    | none =>
      simp only [hse]
      exact ⟨uid, rfl, hse, rfl⟩

/-- A successful Stateful Ensure reduces to this normal form: the default
service step succeeded, the unique id came from getStorageUniqId over the
live workload read, storage configuration succeeded, and the call staged the
secret, the storage operations and the assembled StatefulSet (replicas one
exactly when the workload was absent), running them on the cluster after
both service writes. -/
theorem ensure_stateful_success (a : App) (cfg : AppConfig) (r : String) (c : Cluster)
    (h1 : a.deploymentType = .stateful) (h2 : (ensure a cfg r c).err? = none) :
    ∃ uid,
      (configureDefaultService a (annotsFor a cfg) c).1 = none ∧
      getStorageUniqId r ((statefulGot a cfg c).map (fun w => w.annots)) = .ok uid ∧
      (statefulStor a cfg uid c).err? = none ∧
      ensure a cfg r c =
        { staged := statefulOps a cfg uid c, err? := none,
          cluster := runOps
            (configureHeadlessService a (annotsFor a cfg) (ensureC1 a cfg c))
            (statefulOps a cfg uid c) } := by
  rcases hcds : configureDefaultService a (annotsFor a cfg) c with ⟨e?, c1⟩
  have hc1 : ensureC1 a cfg c = c1 := by rw [ensureC1, hcds]
  cases e? with
  | some e =>
    rw [ensure, hcds] at h2
    simp at h2
  | none =>
    rw [ensure, hcds] at h2 ⊢
    simp only [h1] at h2 ⊢
    cases hgot : getRes (configureHeadlessService a (annotsFor a cfg) c1).statefulSets
        a.name with
    | error e =>
      cases e with
      | k8sFail m =>
        simp only [hgot] at h2
        exact Option.noConfusion h2
      | notFound =>
        simp only [hgot] at h2 ⊢
        have hgeq : statefulGot a cfg c = .error .notFound := by
          unfold statefulGot
          rw [hc1]
          exact hgot
        obtain ⟨uid, hu, hs, he⟩ := ensureStatefulTail_success a cfg r
          (configureHeadlessService a (annotsFor a cfg) c1)
          [Op.secretOp (applicationSecret a cfg)] (applicationPodSpec a cfg)
          (List.map (fun p => p.1) c1.storageClasses) false (.error .notFound) h2
        have hstoreq : statefulStor a cfg uid c = configureStorage a cfg .claimTemplate uid
            (List.map (fun p => p.1) c1.storageClasses) [] 0 cfg.filesystems
            { pod := applicationPodSpec a cfg } := by
          unfold statefulStor
          rw [hc1]
        have hopeq : statefulOps a cfg uid c =
            [Op.secretOp (applicationSecret a cfg)] ++
              (configureStorage a cfg .claimTemplate uid
                (List.map (fun p => p.1) c1.storageClasses) [] 0 cfg.filesystems
                { pod := applicationPodSpec a cfg }).ops ++
            [Op.statefulSetOp (buildStatefulSet a cfg uid (if false then none else some 1)
              (configureStorage a cfg .claimTemplate uid
                (List.map (fun p => p.1) c1.storageClasses) [] 0 cfg.filesystems
                { pod := applicationPodSpec a cfg }).st.pod
              (configureStorage a cfg .claimTemplate uid
                (List.map (fun p => p.1) c1.storageClasses) [] 0 cfg.filesystems
                { pod := applicationPodSpec a cfg }).st.claims)] := by
          unfold statefulOps
          rw [hstoreq, hgeq]
          rfl
        refine ⟨uid, trivial, ?_, ?_, ?_⟩
        · rw [hgeq]
          exact hu
        · rw [hstoreq]
          exact hs
        · rw [he, hc1, hopeq]
    | ok ss =>
      simp only [hgot] at h2 ⊢
      have hgeq : statefulGot a cfg c = .ok ss := by
        unfold statefulGot
        rw [hc1]
        exact hgot
      obtain ⟨uid, hu, hs, he⟩ := ensureStatefulTail_success a cfg r
        (configureHeadlessService a (annotsFor a cfg) c1)
        [Op.secretOp (applicationSecret a cfg)] (applicationPodSpec a cfg)
        (List.map (fun p => p.1) c1.storageClasses) true (.ok ss.annots) h2
      have hstoreq : statefulStor a cfg uid c = configureStorage a cfg .claimTemplate uid
          (List.map (fun p => p.1) c1.storageClasses) [] 0 cfg.filesystems
          { pod := applicationPodSpec a cfg } := by
        unfold statefulStor
        rw [hc1]
      have hopeq : statefulOps a cfg uid c =
          [Op.secretOp (applicationSecret a cfg)] ++
            (configureStorage a cfg .claimTemplate uid
              (List.map (fun p => p.1) c1.storageClasses) [] 0 cfg.filesystems
              { pod := applicationPodSpec a cfg }).ops ++
          [Op.statefulSetOp (buildStatefulSet a cfg uid (if true then none else some 1)
            (configureStorage a cfg .claimTemplate uid
              (List.map (fun p => p.1) c1.storageClasses) [] 0 cfg.filesystems
              { pod := applicationPodSpec a cfg }).st.pod
            (configureStorage a cfg .claimTemplate uid
              (List.map (fun p => p.1) c1.storageClasses) [] 0 cfg.filesystems
              { pod := applicationPodSpec a cfg }).st.claims)] := by
        unfold statefulOps
        rw [hstoreq, hgeq]
        rfl
      refine ⟨uid, trivial, ?_, ?_, ?_⟩
      · rw [hgeq]
        exact hu
      · rw [hstoreq]
        exact hs
      · rw [he, hc1, hopeq]

/-- Success shape of the Stateless branch tail. -/
theorem ensureStatelessTail_success (a : App) (cfg : AppConfig) (r : String) (c2 : Cluster)
    (ops0 : List Op) (pod0 : PodSpec) (scNames0 : List String) (ex : Bool)
    (metaRes : Except K8sErr (List (String × String)))
    (h2 : (ensureStatelessTail a cfg r c2 ops0 pod0 scNames0 ex metaRes).err? = none) :
    ∃ uid, getStorageUniqId r metaRes = .ok uid ∧
      (configureStorage a cfg .standalone uid scNames0 [] 0 cfg.filesystems
        { pod := pod0 }).err? = none ∧
      ensureStatelessTail a cfg r c2 ops0 pod0 scNames0 ex metaRes =
        { staged := ops0 ++ (configureStorage a cfg .standalone uid scNames0 [] 0
              cfg.filesystems { pod := pod0 }).ops ++
            [Op.deploymentOp (buildDeployment a cfg uid (if ex then none else some 1)
              (configureStorage a cfg .standalone uid scNames0 [] 0 cfg.filesystems
                { pod := pod0 }).st.pod)]
          err? := none
          cluster := runOps c2 (ops0 ++ (configureStorage a cfg .standalone uid scNames0
              [] 0 cfg.filesystems { pod := pod0 }).ops ++
            [Op.deploymentOp (buildDeployment a cfg uid (if ex then none else some 1)
              (configureStorage a cfg .standalone uid scNames0 [] 0 cfg.filesystems
                { pod := pod0 }).st.pod)]) } := by
  rw [ensureStatelessTail] at h2 ⊢
  cases huid : getStorageUniqId r metaRes with
  | error e =>
    simp only [huid] at h2
    exact Option.noConfusion h2
  | ok uid =>
    simp only [huid] at h2 ⊢
    cases hse : (configureStorage a cfg .standalone uid scNames0 [] 0 cfg.filesystems
        { pod := pod0 }).err? with
    | some e =>
      simp only [hse] at h2
      exact Option.noConfusion h2
    | none =>
      simp only [hse]
      exact ⟨uid, rfl, hse, rfl⟩

/-- Success shape of the Daemon branch tail. -/
theorem ensureDaemonTail_success (a : App) (cfg : AppConfig) (r : String) (c2 : Cluster)
    (ops0 : List Op) (pod0 : PodSpec) (scNames0 : List String)
    (metaRes : Except K8sErr (List (String × String)))
    (h2 : (ensureDaemonTail a cfg r c2 ops0 pod0 scNames0 metaRes).err? = none) :
    ∃ uid, getStorageUniqId r metaRes = .ok uid ∧
      (configureStorage a cfg .standalone uid scNames0 [] 0 cfg.filesystems
        { pod := pod0 }).err? = none ∧
      ensureDaemonTail a cfg r c2 ops0 pod0 scNames0 metaRes =
        { staged := ops0 ++ (configureStorage a cfg .standalone uid scNames0 [] 0
              cfg.filesystems { pod := pod0 }).ops ++
            [Op.daemonSetOp (buildDaemonSet a cfg uid
              (configureStorage a cfg .standalone uid scNames0 [] 0 cfg.filesystems
                { pod := pod0 }).st.pod)]
          err? := none
          cluster := runOps c2 (ops0 ++ (configureStorage a cfg .standalone uid scNames0
              [] 0 cfg.filesystems { pod := pod0 }).ops ++
            [Op.daemonSetOp (buildDaemonSet a cfg uid
              (configureStorage a cfg .standalone uid scNames0 [] 0 cfg.filesystems
                { pod := pod0 }).st.pod)]) } := by
  rw [ensureDaemonTail] at h2 ⊢
  cases huid : getStorageUniqId r metaRes with
  | error e =>
    simp only [huid] at h2
    exact Option.noConfusion h2
  | ok uid =>
    simp only [huid] at h2 ⊢
    cases hse : (configureStorage a cfg .standalone uid scNames0 [] 0 cfg.filesystems
        { pod := pod0 }).err? with
    | some e =>
      simp only [hse] at h2
      exact Option.noConfusion h2
    | none =>
      simp only [hse]
      exact ⟨uid, rfl, hse, rfl⟩

/-- A successful Stateless Ensure reduces to this normal form. -/
theorem ensure_stateless_success (a : App) (cfg : AppConfig) (r : String) (c : Cluster)
    (h1 : a.deploymentType = .stateless) (h2 : (ensure a cfg r c).err? = none) :
    ∃ uid,
      (configureDefaultService a (annotsFor a cfg) c).1 = none ∧
      getStorageUniqId r ((statelessGot a cfg c).map (fun w => w.annots)) = .ok uid ∧
      (standaloneStor a cfg uid c).err? = none ∧
      ensure a cfg r c =
        { staged := statelessOps a cfg uid c, err? := none,
          cluster := runOps (ensureC1 a cfg c) (statelessOps a cfg uid c) } := by
  rcases hcds : configureDefaultService a (annotsFor a cfg) c with ⟨e?, c1⟩
  have hc1 : ensureC1 a cfg c = c1 := by rw [ensureC1, hcds]
  cases e? with
  | some e =>
    rw [ensure, hcds] at h2
    simp at h2
  | none =>
    rw [ensure, hcds] at h2 ⊢
    simp only [h1] at h2 ⊢
    cases hgot : getRes c1.deployments a.name with
    | error e =>
      cases e with
      | k8sFail m =>
        simp only [hgot] at h2
        exact Option.noConfusion h2
      | notFound =>
        simp only [hgot] at h2 ⊢
        have hgeq : statelessGot a cfg c = .error .notFound := by
          unfold statelessGot
          rw [hc1]
          exact hgot
        obtain ⟨uid, hu, hs, he⟩ := ensureStatelessTail_success a cfg r c1
          [Op.secretOp (applicationSecret a cfg)] (applicationPodSpec a cfg)
          (List.map (fun p => p.1) c1.storageClasses) false (.error .notFound) h2
        have hstoreq : standaloneStor a cfg uid c = configureStorage a cfg .standalone uid
            (List.map (fun p => p.1) c1.storageClasses) [] 0 cfg.filesystems
            { pod := applicationPodSpec a cfg } := by
          unfold standaloneStor
          rw [hc1]
        have hopeq : statelessOps a cfg uid c =
            [Op.secretOp (applicationSecret a cfg)] ++
              (configureStorage a cfg .standalone uid
                (List.map (fun p => p.1) c1.storageClasses) [] 0 cfg.filesystems
                { pod := applicationPodSpec a cfg }).ops ++
            [Op.deploymentOp (buildDeployment a cfg uid (if false then none else some 1)
              (configureStorage a cfg .standalone uid
                (List.map (fun p => p.1) c1.storageClasses) [] 0 cfg.filesystems
                { pod := applicationPodSpec a cfg }).st.pod)] := by
          unfold statelessOps
          rw [hstoreq, hgeq]
          rfl
        refine ⟨uid, trivial, ?_, ?_, ?_⟩
        · rw [hgeq]
          exact hu
        · rw [hstoreq]
          exact hs
        · rw [he, hc1, hopeq]
    | ok d =>
      simp only [hgot] at h2 ⊢
      have hgeq : statelessGot a cfg c = .ok d := by
        unfold statelessGot
        rw [hc1]
        exact hgot
      obtain ⟨uid, hu, hs, he⟩ := ensureStatelessTail_success a cfg r c1
        [Op.secretOp (applicationSecret a cfg)] (applicationPodSpec a cfg)
        (List.map (fun p => p.1) c1.storageClasses) true (.ok d.annots) h2
      have hstoreq : standaloneStor a cfg uid c = configureStorage a cfg .standalone uid
          (List.map (fun p => p.1) c1.storageClasses) [] 0 cfg.filesystems
          { pod := applicationPodSpec a cfg } := by
        unfold standaloneStor
        rw [hc1]
      have hopeq : statelessOps a cfg uid c =
          [Op.secretOp (applicationSecret a cfg)] ++
            (configureStorage a cfg .standalone uid
              (List.map (fun p => p.1) c1.storageClasses) [] 0 cfg.filesystems
              { pod := applicationPodSpec a cfg }).ops ++
          [Op.deploymentOp (buildDeployment a cfg uid (if true then none else some 1)
            (configureStorage a cfg .standalone uid
              (List.map (fun p => p.1) c1.storageClasses) [] 0 cfg.filesystems
              { pod := applicationPodSpec a cfg }).st.pod)] := by
        unfold statelessOps
        rw [hstoreq, hgeq]
        rfl
      refine ⟨uid, trivial, ?_, ?_, ?_⟩
      · rw [hgeq]
        exact hu
      · rw [hstoreq]
        exact hs
      · rw [he, hc1, hopeq]

/-- A successful Daemon Ensure reduces to this normal form. -/
theorem ensure_daemon_success (a : App) (cfg : AppConfig) (r : String) (c : Cluster)
    (h1 : a.deploymentType = .daemon) (h2 : (ensure a cfg r c).err? = none) :
    ∃ uid,
      (configureDefaultService a (annotsFor a cfg) c).1 = none ∧
      getStorageUniqId r ((getRes (ensureC1 a cfg c).daemonSets a.name).map
        (fun w => w.annots)) = .ok uid ∧
      (standaloneStor a cfg uid c).err? = none ∧
      ensure a cfg r c =
        { staged := daemonOps a cfg uid c, err? := none,
          cluster := runOps (ensureC1 a cfg c) (daemonOps a cfg uid c) } := by
  rcases hcds : configureDefaultService a (annotsFor a cfg) c with ⟨e?, c1⟩
  have hc1 : ensureC1 a cfg c = c1 := by rw [ensureC1, hcds]
  cases e? with
  | some e =>
    rw [ensure, hcds] at h2
    simp at h2
  | none =>
    rw [ensure, hcds] at h2 ⊢
    simp only [h1] at h2 ⊢
    obtain ⟨uid, hu, hs, he⟩ := ensureDaemonTail_success a cfg r c1
      [Op.secretOp (applicationSecret a cfg)] (applicationPodSpec a cfg)
      (List.map (fun p => p.1) c1.storageClasses)
      ((getRes c1.daemonSets a.name).map (fun w => w.annots)) h2
    have hstoreq : standaloneStor a cfg uid c = configureStorage a cfg .standalone uid
        (List.map (fun p => p.1) c1.storageClasses) [] 0 cfg.filesystems
        { pod := applicationPodSpec a cfg } := by
      unfold standaloneStor
      rw [hc1]
    have hopeq : daemonOps a cfg uid c =
        [Op.secretOp (applicationSecret a cfg)] ++
          (configureStorage a cfg .standalone uid
            (List.map (fun p => p.1) c1.storageClasses) [] 0 cfg.filesystems
            { pod := applicationPodSpec a cfg }).ops ++
        [Op.daemonSetOp (buildDaemonSet a cfg uid
          (configureStorage a cfg .standalone uid
            (List.map (fun p => p.1) c1.storageClasses) [] 0 cfg.filesystems
            { pod := applicationPodSpec a cfg }).st.pod)] := by
      unfold daemonOps
      rw [hstoreq]
    refine ⟨uid, trivial, ?_, ?_, ?_⟩
    · rw [hc1]
      exact hu
    · rw [hstoreq]
      exact hs
    · rw [he, hc1, hopeq]

/-! ## Claim C4: topology exhaustiveness -/

/-- The default-service step succeeds whenever the service slot is not
transport-faulted. -/
theorem configureDefaultService_ok (a : App) (ann : List (String × String)) (c : Cluster)
    (h : ∀ m, lookupA c.services a.name ≠ some (.error m)) :
    (configureDefaultService a ann c).1 = none := by
  cases hl : lookupA c.services a.name with
  | none => simp [configureDefaultService, getRes, hl]
  | some v =>
    cases v with
    | error m => exact absurd hl (h m)
    | ok s => simp [configureDefaultService, getRes, hl]

/-- C4 (confirmed).  For an unrecognized deployment-type value Ensure (when
the preceding default-service read is not transport-faulted), Exists,
Delete and State all return the NotSupported error, Exists with an empty
DeploymentState, Delete staging nothing and leaving the cluster untouched,
State with an empty ApplicationState; and for each recognized value the
operation dispatches on that topology's resource kind: Delete stages
exactly the deletes of that kind's resource set, Exists runs that kind's
primary check, a successful Ensure stages a workload object of that kind,
and State reads that kind's live object. -/
theorem topology_exhaustive (a : App) (cfg : AppConfig) (r : String) (c : Cluster)
    (pages : List PodPage) :
    (∀ s, a.deploymentType = .other s →
      ((∀ m, lookupA c.services a.name ≠ some (.error m)) →
        (ensure a cfg r c).err? = some (.notSupported "unknown deployment type")) ∧
      existsApp a c = ({ }, some (.notSupported "unknown deployment type")) ∧
      deleteApp a c =
        { staged := [], err? := some (.notSupported "unknown deployment type"),
          cluster := c } ∧
      stateApp a c pages = ({ }, some (.notSupported "unknown deployment type"))) ∧
    (a.deploymentType = .stateful →
      (deleteApp a c).staged = [Op.deleteStatefulSetOp a.name,
        Op.deleteServiceOp (headlessServiceName a.name), Op.deleteServiceOp a.name,
        Op.deleteSecretOp (secretName a)] ∧
      primaryWorkloadCheck a c =
        some (resourceCheck c.statefulSets a.name (fun w => w.deletionMarked)) ∧
      ((ensure a cfg r c).err? = none →
        ∃ w, Op.statefulSetOp w ∈ (ensure a cfg r c).staged) ∧
      (∀ ss n, lookupA c.statefulSets a.name = some (.ok ss) → ss.replicas = some n →
        desiredReplicasOf a c = .ok n)) ∧
    (a.deploymentType = .stateless →
      (deleteApp a c).staged = [Op.deleteDeploymentOp a.name, Op.deleteServiceOp a.name,
        Op.deleteSecretOp (secretName a)] ∧
      primaryWorkloadCheck a c =
        some (resourceCheck c.deployments a.name (fun w => w.deletionMarked)) ∧
      ((ensure a cfg r c).err? = none →
        ∃ w, Op.deploymentOp w ∈ (ensure a cfg r c).staged) ∧
      (∀ d n, lookupA c.deployments a.name = some (.ok d) → d.replicas = some n →
        desiredReplicasOf a c = .ok n)) ∧
    (a.deploymentType = .daemon →
      (deleteApp a c).staged = [Op.deleteDaemonSetOp a.name, Op.deleteServiceOp a.name,
        Op.deleteSecretOp (secretName a)] ∧
      primaryWorkloadCheck a c =
        some (resourceCheck c.daemonSets a.name (fun w => w.deletionMarked)) ∧
      ((ensure a cfg r c).err? = none →
        ∃ w, Op.daemonSetOp w ∈ (ensure a cfg r c).staged) ∧
      (∀ d, lookupA c.daemonSets a.name = some (.ok d) →
        desiredReplicasOf a c = .ok d.statusDesiredScheduled)) := by
  refine ⟨fun s hdt => ⟨fun hsvc => ?_, ?_, ?_, ?_⟩,
    fun hdt => ⟨?_, ?_, fun hok => ?_, fun ss n h1 h2 => ?_⟩,
    fun hdt => ⟨?_, ?_, fun hok => ?_, fun d n h1 h2 => ?_⟩,
    fun hdt => ⟨?_, ?_, fun hok => ?_, fun d h1 => ?_⟩⟩
  · rcases hcds : configureDefaultService a (annotsFor a cfg) c with ⟨e?, c1⟩
    have hnone := configureDefaultService_ok a (annotsFor a cfg) c hsvc
    rw [hcds] at hnone
    simp only at hnone
    subst hnone
    rw [ensure, hcds]
    simp only [hdt]
  · simp [existsApp, primaryWorkloadCheck, hdt]
  · simp [deleteApp, hdt]
  · simp [stateApp, desiredReplicasOf, hdt]
  · simp [deleteApp, hdt]
  · simp [primaryWorkloadCheck, hdt]
  · obtain ⟨uid, -, -, -, he⟩ := ensure_stateful_success a cfg r c hdt hok
    refine ⟨buildStatefulSet a cfg uid
      (if (statefulGot a cfg c).isOk then none else some 1)
      (statefulStor a cfg uid c).st.pod (statefulStor a cfg uid c).st.claims, ?_⟩
    rw [he]
    simp [statefulOps]
  · simp [desiredReplicasOf, hdt, getRes, h1, h2]
  · simp [deleteApp, hdt]
  · simp [primaryWorkloadCheck, hdt]
  · obtain ⟨uid, -, -, -, he⟩ := ensure_stateless_success a cfg r c hdt hok
    refine ⟨buildDeployment a cfg uid
      (if (statelessGot a cfg c).isOk then none else some 1)
      (standaloneStor a cfg uid c).st.pod, ?_⟩
    rw [he]
    simp [statelessOps]
  · simp [desiredReplicasOf, hdt, getRes, h1, h2]
  · simp [deleteApp, hdt]
  · simp [primaryWorkloadCheck, hdt]
  · obtain ⟨uid, -, -, -, he⟩ := ensure_daemon_success a cfg r c hdt hok
    refine ⟨buildDaemonSet a cfg uid (standaloneStor a cfg uid c).st.pod, ?_⟩
    rw [he]
    simp [daemonOps]
  · simp [desiredReplicasOf, hdt, getRes, h1]

/-- The unrecognized-topology app of the C4 witness. -/
def w4App : App :=
  { name := "db", ns := "ns", modelUUID := "u", modelName := "m",
    legacyLabels := false, deploymentType := .other "weird" }

/-- Witness for C4: with the unrecognized value every operation refuses
with NotSupported, and for a recognized value Delete stages the
topology-correct resource set. -/
theorem topology_exhaustive_witness :
    (ensure w4App { } "r" { }).err? = some (.notSupported "unknown deployment type") ∧
    existsApp w4App { } = ({ }, some (.notSupported "unknown deployment type")) ∧
    (deleteApp w2App { }).staged = [Op.deleteStatefulSetOp "db",
      Op.deleteServiceOp "db-endpoints", Op.deleteServiceOp "db",
      Op.deleteSecretOp "db-application-config"] := by
  refine ⟨?_, ?_, ?_⟩
  · exact ((topology_exhaustive w4App { } "r" { } []).1 "weird" rfl).1
      (fun m h => Option.noConfusion h)
  · exact ((topology_exhaustive w4App { } "r" { } []).1 "weird" rfl).2.1
  · exact ((topology_exhaustive w2App { } "r" { } []).2.1 rfl).1

/-! ## Shape and frame lemmas for the staged storage operations -/

/-- A storage operation: a claim or a storage class. -/
def storOp (op : Op) : Prop :=
  (∃ p, op = Op.pvcOp p) ∨ (∃ sc, op = Op.storageClassOp sc)

/-- Every storage-class operation is a storage operation. -/
theorem scOpsOf_shape (info : FsVolumeInfo) : ∀ op ∈ scOpsOf info, storOp op := by
  unfold scOpsOf
  split <;> simp [storOp]

/-- Every operation staged by one storStep is a storage operation. -/
theorem storStep_ops_shape (a : App) (cfg : AppConfig) (mode : PVCMode) (uid : String)
    (scNames : List String) (idx : Nat) (fs : FilesystemCfg) (st : StorState) :
    ∀ op ∈ (storStep a cfg mode uid scNames idx fs st).ops, storOp op := by
  intro op hop
  unfold storStep at hop
  cases hvol : (filesystemToVolumeInfo a (volumeName a fs.storageName) fs scNames
      (fun volName => volName ++ "-" ++ uid)).vol with
  | some v =>
    cases hpush : pushUniqueVolume st.pod v with
    | error e =>
      simp only [hvol, hpush] at hop
      simp at hop
    | ok pod' =>
      simp only [hvol, hpush] at hop
      repeat' split at hop
      all_goals
        first
        | exact scOpsOf_shape _ op hop
        | (rcases List.mem_append.mp hop with hop' | hop'
           · exact scOpsOf_shape _ op hop'
           · simp at hop'
             subst hop'
             exact .inl ⟨_, rfl⟩)
        | simp at hop
  | none =>
    simp only [hvol] at hop
    repeat' split at hop
    all_goals
      first
      | exact scOpsOf_shape _ op hop
      | (rcases List.mem_append.mp hop with hop' | hop'
         · exact scOpsOf_shape _ op hop'
         · simp at hop'
           subst hop'
           exact .inl ⟨_, rfl⟩)
      | simp at hop

/-- Every operation staged by configureStorage is a storage operation. -/
theorem configureStorage_ops_shape (a : App) (cfg : AppConfig) (mode : PVCMode)
    (uid : String) :
    ∀ (fss : List FilesystemCfg) (scNames seen : List String) (idx : Nat) (st : StorState),
      ∀ op ∈ (configureStorage a cfg mode uid scNames seen idx fss st).ops, storOp op := by
  intro fss
  induction fss with
  | nil => intro scNames seen idx st op hop; simp [configureStorage] at hop
  | cons fs rest ih =>
    intro scNames seen idx st op hop
    rw [configureStorage] at hop
    by_cases hdup : fs.storageName ∈ seen
    · simp [hdup] at hop
    · simp only [hdup, if_false] at hop
      cases herr : (storStep a cfg mode uid scNames idx fs st).err? with
      | some e =>
        simp only [herr] at hop
        exact storStep_ops_shape a cfg mode uid scNames idx fs st op hop
      | none =>
        simp only [herr] at hop
        simp only [List.mem_append] at hop
        rcases hop with hop | hop
        · exact storStep_ops_shape a cfg mode uid scNames idx fs st op hop
        · exact ih _ _ _ _ op hop

/-- Storage operations and the secret upsert do not touch the workload,
service or secret stores other than their own. -/
theorem applyOp_workload_frame (c : Cluster) (op : Op)
    (h : storOp op ∨ ∃ s, op = Op.secretOp s) :
    (applyOp c op).statefulSets = c.statefulSets ∧
    (applyOp c op).deployments = c.deployments ∧
    (applyOp c op).daemonSets = c.daemonSets ∧
    (applyOp c op).services = c.services := by
  rcases h with (⟨p, rfl⟩ | ⟨sc, rfl⟩) | ⟨s, rfl⟩ <;> exact ⟨rfl, rfl, rfl, rfl⟩

/-- Frame of runOps over a batch of storage and secret operations. -/
theorem runOps_workload_frame (ops : List Op)
    (h : ∀ op ∈ ops, storOp op ∨ ∃ s, op = Op.secretOp s) (c : Cluster) :
    (runOps c ops).statefulSets = c.statefulSets ∧
    (runOps c ops).deployments = c.deployments ∧
    (runOps c ops).daemonSets = c.daemonSets ∧
    (runOps c ops).services = c.services := by
  induction ops generalizing c with
  | nil => exact ⟨rfl, rfl, rfl, rfl⟩
  | cons op rest ih =>
    have h1 := applyOp_workload_frame c op (h op (by simp))
    have h2 := ih (fun x hx => h x (by simp [hx])) (applyOp c op)
    exact ⟨h2.1.trans h1.1, h2.2.1.trans h1.2.1, h2.2.2.1.trans h1.2.2.1,
      h2.2.2.2.trans h1.2.2.2⟩

/-- The live workload read of the Stateful branch is a plain read of the
incoming cluster: the preceding service writes do not touch it. -/
theorem statefulGot_eq (a : App) (cfg : AppConfig) (c : Cluster) :
    statefulGot a cfg c = getRes c.statefulSets a.name := by
  unfold statefulGot ensureC1
  rw [(configureDefaultService_frame a (annotsFor a cfg) c).1]

/-- The live workload read of the Stateless branch is a plain read of the
incoming cluster. -/
theorem statelessGot_eq (a : App) (cfg : AppConfig) (c : Cluster) :
    statelessGot a cfg c = getRes c.deployments a.name := by
  unfold statelessGot ensureC1
  rw [(configureDefaultService_frame a (annotsFor a cfg) c).2.1]

/-- Every operation staged by the Stateful storage run is a storage
operation. -/
theorem statefulStor_ops_shape (a : App) (cfg : AppConfig) (uid : String) (c : Cluster) :
    ∀ op ∈ (statefulStor a cfg uid c).ops, storOp op := by
  intro op hop
  unfold statefulStor at hop
  exact configureStorage_ops_shape a cfg .claimTemplate uid cfg.filesystems _ _ _ _ op hop

/-- Every operation staged by the Stateless and Daemon storage run is a
storage operation. -/
theorem standaloneStor_ops_shape (a : App) (cfg : AppConfig) (uid : String) (c : Cluster) :
    ∀ op ∈ (standaloneStor a cfg uid c).ops, storOp op := by
  intro op hop
  unfold standaloneStor at hop
  exact configureStorage_ops_shape a cfg .standalone uid cfg.filesystems _ _ _ _ op hop

/-! ## Claim C9: initial-replica frame condition -/

/-- The only StatefulSet staged by a successful Stateful Ensure is the
assembled workload. -/
theorem statefulOps_workload (a : App) (cfg : AppConfig) (uid : String) (c : Cluster)
    (w : StatefulSetObj) (h : Op.statefulSetOp w ∈ statefulOps a cfg uid c) :
    w = buildStatefulSet a cfg uid
      (if (statefulGot a cfg c).isOk then none else some 1)
      (statefulStor a cfg uid c).st.pod (statefulStor a cfg uid c).st.claims := by
  unfold statefulOps at h
  rcases List.mem_append.mp h with h | h
  · rcases List.mem_append.mp h with h | h
    · simp at h
    · have hs := statefulStor_ops_shape a cfg uid c (Op.statefulSetOp w) h
      rcases hs with ⟨p, hp⟩ | ⟨sc, hsc⟩ <;> exact Op.noConfusion (by assumption)
  · simp at h
    exact h

/-- The only Deployment staged by a successful Stateless Ensure is the
assembled workload. -/
theorem statelessOps_workload (a : App) (cfg : AppConfig) (uid : String) (c : Cluster)
    (w : DeploymentObj) (h : Op.deploymentOp w ∈ statelessOps a cfg uid c) :
    w = buildDeployment a cfg uid
      (if (statelessGot a cfg c).isOk then none else some 1)
      (standaloneStor a cfg uid c).st.pod := by
  unfold statelessOps at h
  rcases List.mem_append.mp h with h | h
  · rcases List.mem_append.mp h with h | h
    · simp at h
    · have hs := standaloneStor_ops_shape a cfg uid c (Op.deploymentOp w) h
      rcases hs with ⟨p, hp⟩ | ⟨sc, hsc⟩ <;> exact Op.noConfusion (by assumption)
  · simp at h
    exact h

/-- The pre-workload part of the Stateful batch is secret and storage only. -/
theorem statefulOps_pre_shape (a : App) (cfg : AppConfig) (uid : String) (c : Cluster) :
    ∀ op ∈ [Op.secretOp (applicationSecret a cfg)] ++ (statefulStor a cfg uid c).ops,
      storOp op ∨ ∃ s, op = Op.secretOp s := by
  intro op hop
  rcases List.mem_append.mp hop with hop | hop
  · simp at hop
    exact .inr ⟨_, hop⟩
  · exact .inl (statefulStor_ops_shape a cfg uid c op hop)

/-- The pre-workload part of the Stateless and Daemon batches is secret and
storage only. -/
theorem standaloneOps_pre_shape (a : App) (cfg : AppConfig) (uid : String) (c : Cluster) :
    ∀ op ∈ [Op.secretOp (applicationSecret a cfg)] ++ (standaloneStor a cfg uid c).ops,
      storOp op ∨ ∃ s, op = Op.secretOp s := by
  intro op hop
  rcases List.mem_append.mp hop with hop | hop
  · simp at hop
    exact .inr ⟨_, hop⟩
  · exact .inl (standaloneStor_ops_shape a cfg uid c op hop)

/-- The workload-store content written by a successful Stateful Ensure. -/
theorem ensure_stateful_cluster_sets (a : App) (cfg : AppConfig) (uid : String)
    (c : Cluster) :
    (runOps (configureHeadlessService a (annotsFor a cfg) (ensureC1 a cfg c))
        (statefulOps a cfg uid c)).statefulSets =
      insertA c.statefulSets a.name (.ok
        (match lookupA c.statefulSets a.name with
          | some (.ok old) =>
            if (buildStatefulSet a cfg uid
                (if (statefulGot a cfg c).isOk then none else some 1)
                (statefulStor a cfg uid c).st.pod
                (statefulStor a cfg uid c).st.claims).replicas = none then
              { buildStatefulSet a cfg uid
                (if (statefulGot a cfg c).isOk then none else some 1)
                (statefulStor a cfg uid c).st.pod
                (statefulStor a cfg uid c).st.claims with replicas := old.replicas }
            else buildStatefulSet a cfg uid
              (if (statefulGot a cfg c).isOk then none else some 1)
              (statefulStor a cfg uid c).st.pod (statefulStor a cfg uid c).st.claims
          | _ => buildStatefulSet a cfg uid
              (if (statefulGot a cfg c).isOk then none else some 1)
              (statefulStor a cfg uid c).st.pod (statefulStor a cfg uid c).st.claims)) := by
  have hframe : (runOps (configureHeadlessService a (annotsFor a cfg) (ensureC1 a cfg c))
      ([Op.secretOp (applicationSecret a cfg)] ++
        (statefulStor a cfg uid c).ops)).statefulSets = c.statefulSets := by
    rw [(runOps_workload_frame _ (statefulOps_pre_shape a cfg uid c) _).1]
    exact (configureDefaultService_frame a (annotsFor a cfg) c).1
  unfold statefulOps
  rw [runOps, List.foldl_append]
  simp only [List.foldl_cons, List.foldl_nil]
  rw [runOps] at hframe
  simp only [applyOp]
  rw [hframe]
  rfl

/-- The workload-store content written by a successful Stateless Ensure. -/
theorem ensure_stateless_cluster_sets (a : App) (cfg : AppConfig) (uid : String)
    (c : Cluster) :
    (runOps (ensureC1 a cfg c) (statelessOps a cfg uid c)).deployments =
      insertA c.deployments a.name (.ok
        (match lookupA c.deployments a.name with
          | some (.ok old) =>
            if (buildDeployment a cfg uid
                (if (statelessGot a cfg c).isOk then none else some 1)
                (standaloneStor a cfg uid c).st.pod).replicas = none then
              { buildDeployment a cfg uid
                (if (statelessGot a cfg c).isOk then none else some 1)
                (standaloneStor a cfg uid c).st.pod with replicas := old.replicas }
            else buildDeployment a cfg uid
              (if (statelessGot a cfg c).isOk then none else some 1)
              (standaloneStor a cfg uid c).st.pod
          | _ => buildDeployment a cfg uid
              (if (statelessGot a cfg c).isOk then none else some 1)
              (standaloneStor a cfg uid c).st.pod)) := by
  have hframe : (runOps (ensureC1 a cfg c)
      ([Op.secretOp (applicationSecret a cfg)] ++
        (standaloneStor a cfg uid c).ops)).deployments = c.deployments := by
    rw [(runOps_workload_frame _ (standaloneOps_pre_shape a cfg uid c) _).2.1]
    exact (configureDefaultService_frame a (annotsFor a cfg) c).2.1
  unfold statelessOps
  rw [runOps, List.foldl_append]
  simp only [List.foldl_cons, List.foldl_nil]
  rw [runOps] at hframe
  simp only [applyOp]
  rw [hframe]
  rfl

/-- C9 (confirmed).  For the Stateful and Stateless topologies a successful
Ensure stages an explicit replica count of one exactly when the prior
workload read was not-found; when the workload already exists the staged
object carries a nil replica count and the replica count of the live object
after the call equals the pre-existing one (a manually-set count is left
untouched). -/
theorem initial_replica_frame (a : App) (cfg : AppConfig) (r : String) (c : Cluster) :
    (a.deploymentType = .stateful → (ensure a cfg r c).err? = none →
      (lookupA c.statefulSets a.name = none →
        ∀ w, Op.statefulSetOp w ∈ (ensure a cfg r c).staged → w.replicas = some 1) ∧
      (∀ old, lookupA c.statefulSets a.name = some (.ok old) →
        (∀ w, Op.statefulSetOp w ∈ (ensure a cfg r c).staged → w.replicas = none) ∧
        (∀ w', lookupA (ensure a cfg r c).cluster.statefulSets a.name = some (.ok w') →
          w'.replicas = old.replicas))) ∧
    (a.deploymentType = .stateless → (ensure a cfg r c).err? = none →
      (lookupA c.deployments a.name = none →
        ∀ w, Op.deploymentOp w ∈ (ensure a cfg r c).staged → w.replicas = some 1) ∧
      (∀ old, lookupA c.deployments a.name = some (.ok old) →
        (∀ w, Op.deploymentOp w ∈ (ensure a cfg r c).staged → w.replicas = none) ∧
        (∀ w', lookupA (ensure a cfg r c).cluster.deployments a.name = some (.ok w') →
          w'.replicas = old.replicas))) := by
  constructor
  · intro hdt hok
    obtain ⟨uid, -, -, -, he⟩ := ensure_stateful_success a cfg r c hdt hok
    constructor
    · intro habs w hw
      rw [he] at hw
      simp only at hw
      have hweq := statefulOps_workload a cfg uid c w hw
      have hgot : statefulGot a cfg c = .error .notFound := by
        rw [statefulGot_eq, getRes, habs]
      rw [hweq, hgot]
      rfl
    · intro old hold
      have hgot : statefulGot a cfg c = .ok old := by
        rw [statefulGot_eq, getRes, hold]
      constructor
      · intro w hw
        rw [he] at hw
        simp only at hw
        have hweq := statefulOps_workload a cfg uid c w hw
        rw [hweq, hgot]
        rfl
      · intro w' hw'
        rw [he] at hw'
        simp only at hw'
        rw [ensure_stateful_cluster_sets a cfg uid c, lookupA_insertA_self] at hw'
        simp only [hold, hgot, Option.some.injEq, Except.ok.injEq] at hw'
        rw [← hw']
        rfl
  · intro hdt hok
    obtain ⟨uid, -, -, -, he⟩ := ensure_stateless_success a cfg r c hdt hok
    constructor
    · intro habs w hw
      rw [he] at hw
      simp only at hw
      have hweq := statelessOps_workload a cfg uid c w hw
      have hgot : statelessGot a cfg c = .error .notFound := by
        rw [statelessGot_eq, getRes, habs]
      rw [hweq, hgot]
      rfl
    · intro old hold
      have hgot : statelessGot a cfg c = .ok old := by
        rw [statelessGot_eq, getRes, hold]
      constructor
      · intro w hw
        rw [he] at hw
        simp only at hw
        have hweq := statelessOps_workload a cfg uid c w hw
        rw [hweq, hgot]
        rfl
      · intro w' hw'
        rw [he] at hw'
        simp only at hw'
        rw [ensure_stateless_cluster_sets a cfg uid c, lookupA_insertA_self] at hw'
        simp only [hold, hgot, Option.some.injEq, Except.ok.injEq] at hw'
        rw [← hw']
        rfl

/-- The pre-existing five-replica StatefulSet of the C9 witness. -/
def w9SS : StatefulSetObj :=
  { name := "db", ns := "ns", replicas := some 5, template := { spec := { } } }

/-- The cluster of the C9 witness. -/
def w9Cluster : Cluster := { statefulSets := [("db", .ok w9SS)] }

/-- The stateless app of the C9 witness. -/
def w9App : App :=
  { name := "web", ns := "ns", modelUUID := "u", modelName := "m",
    legacyLabels := false, deploymentType := .stateless }

/-- The pre-existing five-replica Deployment of the C9 witness. -/
def w9Dep : DeploymentObj :=
  { name := "web", ns := "ns", replicas := some 5, template := { spec := { } } }

/-- The deployment cluster of the C9 witness. -/
def w9DepCluster : Cluster := { deployments := [("web", .ok w9Dep)] }

/-- Witness for C9: on first creation the staged StatefulSet or Deployment
carries one replica; over a live five-replica StatefulSet or Deployment the
count survives Ensure. -/
theorem initial_replica_frame_witness :
    (∀ w, Op.statefulSetOp w ∈ (ensure w2App { } "u1" { }).staged →
      w.replicas = some 1) ∧
    (∀ w', lookupA (ensure w2App { } "u1" w9Cluster).cluster.statefulSets "db" =
        some (.ok w') → w'.replicas = some 5) ∧
    (∀ w, Op.deploymentOp w ∈ (ensure w9App { } "u1" { }).staged →
      w.replicas = some 1) ∧
    (∀ w', lookupA (ensure w9App { } "u1" w9DepCluster).cluster.deployments "web" =
        some (.ok w') → w'.replicas = some 5) := by
  refine ⟨?_, ?_, ?_, ?_⟩
  · exact ((initial_replica_frame w2App { } "u1" { }).1 rfl (by decide)).1 (by decide)
  · intro w' hw'
    have h := ((initial_replica_frame w2App { } "u1" w9Cluster).1 rfl (by decide)).2
      w9SS (by decide)
    exact (h.2 w' hw').trans rfl
  · exact ((initial_replica_frame w9App { } "u1" { }).2 rfl (by decide)).1 (by decide)
  · intro w' hw'
    have h := ((initial_replica_frame w9App { } "u1" w9DepCluster).2 rfl (by decide)).2
      w9Dep (by decide)
    exact (h.2 w' hw').trans rfl

/-! ## Claim C3: duplicate-name rejection -/

/-- A volume-push failure is always a NotValid error. -/
theorem pushUniqueVolume_err (pod : PodSpec) (v : Volume) (e : JujuErr)
    (h : pushUniqueVolume pod v = .error e) : ∃ m, e = .notValid m := by
  unfold pushUniqueVolume at h
  split at h
  · split at h
    · exact Except.noConfusion h
    · exact ⟨_, (Except.error.inj h).symm⟩
  · exact Except.noConfusion h

/-- A claim-template-push failure is always a NotValid error. -/
theorem pushUniqueClaim_err (claims : List PVC) (p : PVC) (e : JujuErr)
    (h : pushUniqueClaim claims p = .error e) : ∃ m, e = .notValid m := by
  unfold pushUniqueClaim at h
  split at h
  · exact ⟨_, (Except.error.inj h).symm⟩
  · exact Except.noConfusion h

/-- Every failure of one storage step is a NotValid error. -/
theorem storStep_err (a : App) (cfg : AppConfig) (mode : PVCMode) (uid : String)
    (scNames : List String) (idx : Nat) (fs : FilesystemCfg) (st : StorState) (e : JujuErr)
    (h : (storStep a cfg mode uid scNames idx fs st).err? = some e) :
    ∃ m, e = .notValid m := by
  unfold storStep at h
  cases hvol : (filesystemToVolumeInfo a (volumeName a fs.storageName) fs scNames
      (fun volName => volName ++ "-" ++ uid)).vol with
  | some v =>
    cases hpush : pushUniqueVolume st.pod v with
    | error e1 =>
      simp only [hvol, hpush] at h
      obtain rfl : e1 = e := by simpa using h
      exact pushUniqueVolume_err _ _ _ hpush
    | ok pod1 =>
      simp only [hvol, hpush] at h
      cases hpvc : (filesystemToVolumeInfo a (volumeName a fs.storageName) fs scNames
          (fun volName => volName ++ "-" ++ uid)).pvc with
      | none =>
        simp only [hpvc] at h
        exact Option.noConfusion h
      | some p =>
        simp only [hpvc] at h
        cases mode with
        | standalone =>
          cases hp2 : pushUniqueVolume pod1
              { name := p.name, source := .pvcRef p.name (fsReadOnly fs) } with
          | error e1 =>
            simp only [hp2] at h
            obtain rfl : e1 = e := by simpa using h
            exact pushUniqueVolume_err _ _ _ hp2
          | ok pod2 =>
            simp only [hp2] at h
            exact Option.noConfusion h
        | claimTemplate =>
          cases hc : pushUniqueClaim st.claims p with
          | error e1 =>
            simp only [hc] at h
            obtain rfl : e1 = e := by simpa using h
            exact pushUniqueClaim_err _ _ _ hc
          | ok cl =>
            simp only [hc] at h
            exact Option.noConfusion h
  | none =>
    simp only [hvol] at h
    cases hpvc : (filesystemToVolumeInfo a (volumeName a fs.storageName) fs scNames
        (fun volName => volName ++ "-" ++ uid)).pvc with
    | none =>
      simp only [hpvc] at h
      exact Option.noConfusion h
    | some p =>
      simp only [hpvc] at h
      cases mode with
      | standalone =>
        cases hp2 : pushUniqueVolume st.pod
            { name := p.name, source := .pvcRef p.name (fsReadOnly fs) } with
        | error e1 =>
          simp only [hp2] at h
          obtain rfl : e1 = e := by simpa using h
          exact pushUniqueVolume_err _ _ _ hp2
        | ok pod2 =>
          simp only [hp2] at h
          exact Option.noConfusion h
      | claimTemplate =>
        cases hc : pushUniqueClaim st.claims p with
        | error e1 =>
          simp only [hc] at h
          obtain rfl : e1 = e := by simpa using h
          exact pushUniqueClaim_err _ _ _ hc
        | ok cl =>
          simp only [hc] at h
          exact Option.noConfusion h

/-- Every failure of configureStorage is a NotValid error. -/
theorem configureStorage_err (a : App) (cfg : AppConfig) (mode : PVCMode) (uid : String) :
    ∀ (fss : List FilesystemCfg) (scN seen : List String) (idx : Nat) (st : StorState)
      (e : JujuErr),
      (configureStorage a cfg mode uid scN seen idx fss st).err? = some e →
      ∃ m, e = .notValid m := by
  intro fss
  induction fss with
  | nil =>
    intro scN seen idx st e h
    exact Option.noConfusion h
  | cons fs rest ih =>
    intro scN seen idx st e h
    rw [configureStorage] at h
    by_cases hmem : fs.storageName ∈ seen
    · simp only [hmem, if_true] at h
      exact ⟨_, (Option.some.inj h).symm⟩
    · simp only [hmem, if_false] at h
      cases herr : (storStep a cfg mode uid scN idx fs st).err? with
      | some e1 =>
        simp only [herr] at h
        obtain rfl : e1 = e := by simpa using h
        exact storStep_err a cfg mode uid scN idx fs st _ herr
      | none =>
        simp only [herr] at h
        exact ih _ _ _ _ e h

/-- A duplicated storage name somewhere in the remaining filesystems
guarantees configureStorage fails. -/
theorem configureStorage_dup (a : App) (cfg : AppConfig) (mode : PVCMode) (uid : String) :
    ∀ (fss : List FilesystemCfg) (scN seen : List String) (idx : Nat) (st : StorState),
      seen.Nodup → ¬ (seen ++ fss.map (fun f => f.storageName)).Nodup →
      (configureStorage a cfg mode uid scN seen idx fss st).err? ≠ none := by
  intro fss
  induction fss with
  | nil =>
    intro scN seen idx st hseen hdup
    rw [List.map_nil, List.append_nil] at hdup
    exact absurd hseen hdup
  | cons fs rest ih =>
    intro scN seen idx st hseen hdup
    rw [configureStorage]
    by_cases hmem : fs.storageName ∈ seen
    · simp [hmem]
    · simp only [hmem, if_false]
      cases herr : (storStep a cfg mode uid scN idx fs st).err? with
      | some e => simp [herr]
      | none =>
        simp only [herr]
        show (configureStorage a cfg mode uid _ _ _ rest _).err? ≠ none
        apply ih
        · exact List.nodup_cons.mpr ⟨hmem, hseen⟩
        · intro hn
          apply hdup
          exact (List.perm_middle.symm).nodup hn
/-- Two clusters agreeing outside the services store are equal up to it. -/
theorem cluster_services_frame (c c' : Cluster)
    (h1 : c'.statefulSets = c.statefulSets) (h2 : c'.deployments = c.deployments)
    (h3 : c'.daemonSets = c.daemonSets) (h4 : c'.secrets = c.secrets)
    (h5 : c'.pvcs = c.pvcs) (h6 : c'.storageClasses = c.storageClasses) :
    c' = { c with services := c'.services } := by
  cases c'
  cases c
  simp_all

/-- The unique-id resolution only fails on a transport error of the read. -/
theorem getStorageUniqId_ok (r : String)
    (metaRes : Except K8sErr (List (String × String)))
    (h : ∀ m, metaRes ≠ .error (.k8sFail m)) :
    ∃ uid, getStorageUniqId r metaRes = .ok uid := by
  cases metaRes with
  | ok ann =>
    simp only [getStorageUniqId]
    split
    · exact ⟨_, rfl⟩
    · exact ⟨r, rfl⟩
  | error e =>
    cases e with
    | notFound => exact ⟨r, rfl⟩
    | k8sFail m => exact absurd rfl (h m)

/-- A transport-failed get exposes the faulted slot. -/
theorem getRes_k8sFail {α : Type} (store : List (String × Except String α)) (k m : String)
    (h : getRes store k = Except.error (K8sErr.k8sFail m)) :
    lookupA store k = some (.error m) := by
  unfold getRes at h
  split at h <;> simp_all

/-- The Stateful tail when storage configuration fails after a resolved id:
pre-staged operations plus the storage operations staged before the
failure, the error surfaced, the batch never run. -/
theorem ensureStatefulTail_storErr (a : App) (cfg : AppConfig) (r : String) (c2 : Cluster)
    (ops0 : List Op) (pod0 : PodSpec) (scNames0 : List String) (ex : Bool)
    (metaRes : Except K8sErr (List (String × String))) (uid : String) (e : JujuErr)
    (hu : getStorageUniqId r metaRes = .ok uid)
    (he : (configureStorage a cfg .claimTemplate uid scNames0 [] 0 cfg.filesystems
      { pod := pod0 }).err? = some e) :
    ensureStatefulTail a cfg r c2 ops0 pod0 scNames0 ex metaRes =
      { staged := ops0 ++ (configureStorage a cfg .claimTemplate uid scNames0 [] 0
          cfg.filesystems { pod := pod0 }).ops, err? := some e, cluster := c2 } := by
  rw [ensureStatefulTail]
  simp only [hu, he]

/-- The Stateless tail when storage configuration fails after a resolved id. -/
theorem ensureStatelessTail_storErr (a : App) (cfg : AppConfig) (r : String) (c2 : Cluster)
    (ops0 : List Op) (pod0 : PodSpec) (scNames0 : List String) (ex : Bool)
    (metaRes : Except K8sErr (List (String × String))) (uid : String) (e : JujuErr)
    (hu : getStorageUniqId r metaRes = .ok uid)
    (he : (configureStorage a cfg .standalone uid scNames0 [] 0 cfg.filesystems
      { pod := pod0 }).err? = some e) :
    ensureStatelessTail a cfg r c2 ops0 pod0 scNames0 ex metaRes =
      { staged := ops0 ++ (configureStorage a cfg .standalone uid scNames0 [] 0
          cfg.filesystems { pod := pod0 }).ops, err? := some e, cluster := c2 } := by
  rw [ensureStatelessTail]
  simp only [hu, he]

/-- The Daemon tail when storage configuration fails after a resolved id. -/
theorem ensureDaemonTail_storErr (a : App) (cfg : AppConfig) (r : String) (c2 : Cluster)
    (ops0 : List Op) (pod0 : PodSpec) (scNames0 : List String)
    (metaRes : Except K8sErr (List (String × String))) (uid : String) (e : JujuErr)
    (hu : getStorageUniqId r metaRes = .ok uid)
    (he : (configureStorage a cfg .standalone uid scNames0 [] 0 cfg.filesystems
      { pod := pod0 }).err? = some e) :
    ensureDaemonTail a cfg r c2 ops0 pod0 scNames0 metaRes =
      { staged := ops0 ++ (configureStorage a cfg .standalone uid scNames0 [] 0
          cfg.filesystems { pod := pod0 }).ops, err? := some e, cluster := c2 } := by
  rw [ensureDaemonTail]
  simp only [hu, he]

/-- C3 (corrected).  An ApplicationSpec with a duplicated storage name makes
Ensure fail with a NotValid error before any workload object is staged and
before the batch is run: no workload operation is staged and the cluster
after the call differs from the incoming one at most in the services store
(written directly by the default and headless service steps, outside the
batch).  The Secret — staged first — and the storage objects of earlier
distinct-named filesystems remain in the unexecuted batch. -/
theorem duplicate_name_rejection (a : App) (cfg : AppConfig) (r : String) (c : Cluster)
    (hdup : ¬ (cfg.filesystems.map (fun f => f.storageName)).Nodup)
    (hrec : a.deploymentType = .stateful ∨ a.deploymentType = .stateless ∨
      a.deploymentType = .daemon)
    (hsvc : ∀ m, lookupA c.services a.name ≠ some (.error m))
    (hwl : (∀ m, lookupA c.statefulSets a.name ≠ some (.error m)) ∧
           (∀ m, lookupA c.deployments a.name ≠ some (.error m)) ∧
           (∀ m, lookupA c.daemonSets a.name ≠ some (.error m))) :
    (∃ m, (ensure a cfg r c).err? = some (.notValid m)) ∧
    (∀ w, Op.statefulSetOp w ∉ (ensure a cfg r c).staged) ∧
    (∀ w, Op.deploymentOp w ∉ (ensure a cfg r c).staged) ∧
    (∀ w, Op.daemonSetOp w ∉ (ensure a cfg r c).staged) ∧
    Op.secretOp (applicationSecret a cfg) ∈ (ensure a cfg r c).staged ∧
    (ensure a cfg r c).cluster =
      { c with services := (ensure a cfg r c).cluster.services } := by
  rcases hcds : configureDefaultService a (annotsFor a cfg) c with ⟨e?, c1⟩
  have hnone := configureDefaultService_ok a (annotsFor a cfg) c hsvc
  rw [hcds] at hnone
  simp only at hnone
  subst hnone
  have hfr := configureDefaultService_frame a (annotsFor a cfg) c
  rw [hcds] at hfr
  simp only at hfr
  have hdup0 : ∀ mode uid,
      ∃ e, (configureStorage a cfg mode uid
        (List.map (fun p => p.1) c1.storageClasses) [] 0 cfg.filesystems
        { pod := applicationPodSpec a cfg }).err? = some e := by
    intro mode uid
    cases hh : (configureStorage a cfg mode uid
        (List.map (fun p => p.1) c1.storageClasses) [] 0 cfg.filesystems
        { pod := applicationPodSpec a cfg }).err? with
    | none =>
      exact absurd hh (configureStorage_dup a cfg mode uid cfg.filesystems _ [] 0 _
        List.nodup_nil (by simpa using hdup))
    | some e => exact ⟨e, rfl⟩
  rcases hrec with hdt | hdt | hdt
  · cases hgot : getRes (configureHeadlessService a (annotsFor a cfg) c1).statefulSets
        a.name with
    | error e0 =>
      cases e0 with
      | k8sFail m =>
        exfalso
        apply hwl.1 m
        apply getRes_k8sFail
        rw [← hfr.1]
        exact hgot
      | notFound =>
        obtain ⟨uid, hu⟩ := getStorageUniqId_ok r (.error .notFound)
          (by intro m hm; simp at hm)
        obtain ⟨e, he⟩ := hdup0 .claimTemplate uid
        have heq : ensure a cfg r c =
            { staged := [Op.secretOp (applicationSecret a cfg)] ++
                (configureStorage a cfg .claimTemplate uid
                  (List.map (fun p => p.1) c1.storageClasses) [] 0 cfg.filesystems
                  { pod := applicationPodSpec a cfg }).ops,
              err? := some e,
              cluster := configureHeadlessService a (annotsFor a cfg) c1 } := by
          rw [ensure, hcds]
          simp only [hdt, hgot]
          exact ensureStatefulTail_storErr a cfg r _ _ _ _ _ _ uid e hu he
        rw [heq]
        obtain ⟨m, rfl⟩ := configureStorage_err a cfg .claimTemplate uid cfg.filesystems
          _ [] 0 _ e he
        refine ⟨⟨m, rfl⟩, ?_, ?_, ?_, by simp, ?_⟩
        · intro w hw
          rcases List.mem_append.mp hw with hw | hw
          · simp at hw
          · rcases configureStorage_ops_shape a cfg .claimTemplate uid cfg.filesystems
              _ [] 0 _ _ hw with ⟨p, hp⟩ | ⟨sc, hsc⟩ <;> exact Op.noConfusion (by assumption)
        · intro w hw
          rcases List.mem_append.mp hw with hw | hw
          · simp at hw
          · rcases configureStorage_ops_shape a cfg .claimTemplate uid cfg.filesystems
              _ [] 0 _ _ hw with ⟨p, hp⟩ | ⟨sc, hsc⟩ <;> exact Op.noConfusion (by assumption)
        · intro w hw
          rcases List.mem_append.mp hw with hw | hw
          · simp at hw
          · rcases configureStorage_ops_shape a cfg .claimTemplate uid cfg.filesystems
              _ [] 0 _ _ hw with ⟨p, hp⟩ | ⟨sc, hsc⟩ <;> exact Op.noConfusion (by assumption)
        · exact cluster_services_frame c _ hfr.1 hfr.2.1 hfr.2.2.1 hfr.2.2.2.1
            hfr.2.2.2.2.1 hfr.2.2.2.2.2
    | ok ss =>
      obtain ⟨uid, hu⟩ := getStorageUniqId_ok r (.ok ss.annots) (by intro m hm; simp at hm)
      obtain ⟨e, he⟩ := hdup0 .claimTemplate uid
      have heq : ensure a cfg r c =
          { staged := [Op.secretOp (applicationSecret a cfg)] ++
              (configureStorage a cfg .claimTemplate uid
                (List.map (fun p => p.1) c1.storageClasses) [] 0 cfg.filesystems
                { pod := applicationPodSpec a cfg }).ops,
            err? := some e,
            cluster := configureHeadlessService a (annotsFor a cfg) c1 } := by
        rw [ensure, hcds]
        simp only [hdt, hgot]
        exact ensureStatefulTail_storErr a cfg r _ _ _ _ _ _ uid e hu he
      rw [heq]
      obtain ⟨m, rfl⟩ := configureStorage_err a cfg .claimTemplate uid cfg.filesystems
        _ [] 0 _ e he
      refine ⟨⟨m, rfl⟩, ?_, ?_, ?_, by simp, ?_⟩
      · intro w hw
        rcases List.mem_append.mp hw with hw | hw
        · simp at hw
        · rcases configureStorage_ops_shape a cfg .claimTemplate uid cfg.filesystems
            _ [] 0 _ _ hw with ⟨p, hp⟩ | ⟨sc, hsc⟩ <;> exact Op.noConfusion (by assumption)
      · intro w hw
        rcases List.mem_append.mp hw with hw | hw
        · simp at hw
        · rcases configureStorage_ops_shape a cfg .claimTemplate uid cfg.filesystems
            _ [] 0 _ _ hw with ⟨p, hp⟩ | ⟨sc, hsc⟩ <;> exact Op.noConfusion (by assumption)
      · intro w hw
        rcases List.mem_append.mp hw with hw | hw
        · simp at hw
        · rcases configureStorage_ops_shape a cfg .claimTemplate uid cfg.filesystems
            _ [] 0 _ _ hw with ⟨p, hp⟩ | ⟨sc, hsc⟩ <;> exact Op.noConfusion (by assumption)
      · exact cluster_services_frame c _ hfr.1 hfr.2.1 hfr.2.2.1 hfr.2.2.2.1
          hfr.2.2.2.2.1 hfr.2.2.2.2.2
  · cases hgot : getRes c1.deployments a.name with
    | error e0 =>
      cases e0 with
      | k8sFail m =>
        exfalso
        apply hwl.2.1 m
        apply getRes_k8sFail
        rw [← hfr.2.1]
        exact hgot
      | notFound =>
        obtain ⟨uid, hu⟩ := getStorageUniqId_ok r (.error .notFound)
          (by intro m hm; simp at hm)
        obtain ⟨e, he⟩ := hdup0 .standalone uid
        have heq : ensure a cfg r c =
            { staged := [Op.secretOp (applicationSecret a cfg)] ++
                (configureStorage a cfg .standalone uid
                  (List.map (fun p => p.1) c1.storageClasses) [] 0 cfg.filesystems
                  { pod := applicationPodSpec a cfg }).ops,
              err? := some e, cluster := c1 } := by
          rw [ensure, hcds]
          simp only [hdt, hgot]
          exact ensureStatelessTail_storErr a cfg r _ _ _ _ _ _ uid e hu he
        rw [heq]
        obtain ⟨m, rfl⟩ := configureStorage_err a cfg .standalone uid cfg.filesystems
          _ [] 0 _ e he
        refine ⟨⟨m, rfl⟩, ?_, ?_, ?_, by simp, ?_⟩
        · intro w hw
          rcases List.mem_append.mp hw with hw | hw
          · simp at hw
          · rcases configureStorage_ops_shape a cfg .standalone uid cfg.filesystems
              _ [] 0 _ _ hw with ⟨p, hp⟩ | ⟨sc, hsc⟩ <;> exact Op.noConfusion (by assumption)
        · intro w hw
          rcases List.mem_append.mp hw with hw | hw
          · simp at hw
          · rcases configureStorage_ops_shape a cfg .standalone uid cfg.filesystems
              _ [] 0 _ _ hw with ⟨p, hp⟩ | ⟨sc, hsc⟩ <;> exact Op.noConfusion (by assumption)
        · intro w hw
          rcases List.mem_append.mp hw with hw | hw
          · simp at hw
          · rcases configureStorage_ops_shape a cfg .standalone uid cfg.filesystems
              _ [] 0 _ _ hw with ⟨p, hp⟩ | ⟨sc, hsc⟩ <;> exact Op.noConfusion (by assumption)
        · exact cluster_services_frame c _ hfr.1 hfr.2.1 hfr.2.2.1 hfr.2.2.2.1
            hfr.2.2.2.2.1 hfr.2.2.2.2.2
    | ok d =>
      obtain ⟨uid, hu⟩ := getStorageUniqId_ok r (.ok d.annots) (by intro m hm; simp at hm)
      obtain ⟨e, he⟩ := hdup0 .standalone uid
      have heq : ensure a cfg r c =
          { staged := [Op.secretOp (applicationSecret a cfg)] ++
              (configureStorage a cfg .standalone uid
                (List.map (fun p => p.1) c1.storageClasses) [] 0 cfg.filesystems
                { pod := applicationPodSpec a cfg }).ops,
            err? := some e, cluster := c1 } := by
        rw [ensure, hcds]
        simp only [hdt, hgot]
        exact ensureStatelessTail_storErr a cfg r _ _ _ _ _ _ uid e hu he
      rw [heq]
      obtain ⟨m, rfl⟩ := configureStorage_err a cfg .standalone uid cfg.filesystems
        _ [] 0 _ e he
      refine ⟨⟨m, rfl⟩, ?_, ?_, ?_, by simp, ?_⟩
      · intro w hw
        rcases List.mem_append.mp hw with hw | hw
        · simp at hw
        · rcases configureStorage_ops_shape a cfg .standalone uid cfg.filesystems
            _ [] 0 _ _ hw with ⟨p, hp⟩ | ⟨sc, hsc⟩ <;> exact Op.noConfusion (by assumption)
      · intro w hw
        rcases List.mem_append.mp hw with hw | hw
        · simp at hw
        · rcases configureStorage_ops_shape a cfg .standalone uid cfg.filesystems
            _ [] 0 _ _ hw with ⟨p, hp⟩ | ⟨sc, hsc⟩ <;> exact Op.noConfusion (by assumption)
      · intro w hw
        rcases List.mem_append.mp hw with hw | hw
        · simp at hw
        · rcases configureStorage_ops_shape a cfg .standalone uid cfg.filesystems
            _ [] 0 _ _ hw with ⟨p, hp⟩ | ⟨sc, hsc⟩ <;> exact Op.noConfusion (by assumption)
      · exact cluster_services_frame c _ hfr.1 hfr.2.1 hfr.2.2.1 hfr.2.2.2.1
          hfr.2.2.2.2.1 hfr.2.2.2.2.2
  · have hcl : ∀ m, (getRes c1.daemonSets a.name).map
        (fun w => w.annots) ≠ .error (.k8sFail m) := by
      intro m hm
      apply hwl.2.2 m
      apply getRes_k8sFail
      rw [← hfr.2.2.1]
      cases hg : getRes c1.daemonSets a.name with
      | ok d => rw [hg] at hm; simp [Except.map] at hm
      | error e0 =>
        rw [hg] at hm
        simp only [Except.map] at hm
        rw [Except.error.inj hm]
    obtain ⟨uid, hu⟩ := getStorageUniqId_ok r
      ((getRes c1.daemonSets a.name).map (fun w => w.annots)) hcl
    obtain ⟨e, he⟩ := hdup0 .standalone uid
    have heq : ensure a cfg r c =
        { staged := [Op.secretOp (applicationSecret a cfg)] ++
            (configureStorage a cfg .standalone uid
              (List.map (fun p => p.1) c1.storageClasses) [] 0 cfg.filesystems
              { pod := applicationPodSpec a cfg }).ops,
          err? := some e, cluster := c1 } := by
      rw [ensure, hcds]
      simp only [hdt]
      exact ensureDaemonTail_storErr a cfg r _ _ _ _ _ uid e hu he
    rw [heq]
    obtain ⟨m, rfl⟩ := configureStorage_err a cfg .standalone uid cfg.filesystems
      _ [] 0 _ e he
    refine ⟨⟨m, rfl⟩, ?_, ?_, ?_, by simp, ?_⟩
    · intro w hw
      rcases List.mem_append.mp hw with hw | hw
      · simp at hw
      · rcases configureStorage_ops_shape a cfg .standalone uid cfg.filesystems
          _ [] 0 _ _ hw with ⟨p, hp⟩ | ⟨sc, hsc⟩ <;> exact Op.noConfusion (by assumption)
    · intro w hw
      rcases List.mem_append.mp hw with hw | hw
      · simp at hw
      · rcases configureStorage_ops_shape a cfg .standalone uid cfg.filesystems
          _ [] 0 _ _ hw with ⟨p, hp⟩ | ⟨sc, hsc⟩ <;> exact Op.noConfusion (by assumption)
    · intro w hw
      rcases List.mem_append.mp hw with hw | hw
      · simp at hw
      · rcases configureStorage_ops_shape a cfg .standalone uid cfg.filesystems
          _ [] 0 _ _ hw with ⟨p, hp⟩ | ⟨sc, hsc⟩ <;> exact Op.noConfusion (by assumption)
    · exact cluster_services_frame c _ hfr.1 hfr.2.1 hfr.2.2.1 hfr.2.2.2.1
        hfr.2.2.2.2.1 hfr.2.2.2.2.2

/-- The duplicate-storage-name configuration of the C3 counterexample and
witness. -/
def w3Cfg : AppConfig :=
  { filesystems := [{ storageName := "data", sizeMi := 1, storageClassAttr := "sc" },
                    { storageName := "data", sizeMi := 1, storageClassAttr := "sc" }] }

/-- Counterexample to C3 as stated: on an empty cluster, Ensure of a
stateful app whose spec duplicates the storage name data does fail with
NotValid, but by that time the Secret (and the storage class of the first
filesystem) is already staged in the batch and both the default and
headless Services have been written to the cluster, so the validation
failure does not precede all staging and all writes. -/
theorem duplicate_name_staging_counterexample :
    (ensure w2App w3Cfg "u" { }).err? =
      some (.notValid "duplicated storage name data for db") ∧
    (ensure w2App w3Cfg "u" { }).staged ≠ [] ∧
    Op.secretOp (applicationSecret w2App w3Cfg) ∈ (ensure w2App w3Cfg "u" { }).staged ∧
    (ensure w2App w3Cfg "u" { }).cluster ≠ ({ } : Cluster) ∧
    lookupA (ensure w2App w3Cfg "u" { }).cluster.services "db" ≠ none ∧
    lookupA (ensure w2App w3Cfg "u" { }).cluster.services "db-endpoints" ≠ none := by
  refine ⟨by decide, by decide, by decide, by decide, by decide, by decide⟩

/-- Witness for the amended C3: the concrete duplicate-name spec fails with
NotValid, stages no workload object, and leaves every store except services
untouched. -/
theorem duplicate_name_rejection_witness :
    (∃ m, (ensure w2App w3Cfg "u" { }).err? = some (.notValid m)) ∧
    (∀ w, Op.statefulSetOp w ∉ (ensure w2App w3Cfg "u" { }).staged) ∧
    (ensure w2App w3Cfg "u" { }).cluster =
      { ({ } : Cluster) with services := (ensure w2App w3Cfg "u" { }).cluster.services } := by
  have h := duplicate_name_rejection w2App w3Cfg "u" { } (by decide) (.inl rfl)
    (fun m hm => Option.noConfusion hm)
    ⟨fun m hm => Option.noConfusion hm, fun m hm => Option.noConfusion hm,
     fun m hm => Option.noConfusion hm⟩
  exact ⟨h.1, h.2.1, h.2.2.2.2.2⟩

/-! ## Claim C1: idempotence of Ensure -/

/-- Right cancellation of string append. -/
theorem str_append_right_cancel {x y t : String} (h : x ++ t = y ++ t) : x = y := by
  cases x with
  | mk dx =>
    cases y with
    | mk dy =>
      cases t with
      | mk dt =>
        have hd : dx ++ dt = dy ++ dt := congrArg String.data h
        have := List.append_cancel_right hd
        rw [this]

/-- Left cancellation of string append. -/
theorem str_append_left_cancel {t x y : String} (h : t ++ x = t ++ y) : x = y := by
  cases x with
  | mk dx =>
    cases y with
    | mk dy =>
      cases t with
      | mk dt =>
        have hd : dt ++ dx = dt ++ dy := congrArg String.data h
        have := List.append_cancel_left hd
        rw [this]

/-- The claim names produced for distinct storage names are distinct. -/
theorem pvcName_inj (base s₁ s₂ uid : String)
    (h : base ++ "-" ++ s₁ ++ "-" ++ uid = base ++ "-" ++ s₂ ++ "-" ++ uid) : s₁ = s₂ :=
  str_append_left_cancel (str_append_right_cancel (str_append_right_cancel h))

/-- What the second Ensure call re-stages: the storage classes now exist so
they are dropped, and the workload now exists so its replica count is
withheld; everything else is staged unchanged. -/
def stripForSecond : Op → Option Op
  | .storageClassOp _ => none
  | .statefulSetOp w => some (.statefulSetOp { w with replicas := none })
  | .deploymentOp w => some (.deploymentOp { w with replicas := none })
  | op => some op

/-- A positive-length string is non-empty. -/
theorem ne_empty_of_length_pos {v : String} (h : v.length > 0) : v ≠ "" := by
  intro he
  subst he
  simp [String.length] at h

/-- A resolved storage-unique id is non-empty when the generated token is. -/
theorem getStorageUniqId_ne_empty (r : String)
    (metaRes : Except K8sErr (List (String × String))) (uid : String) (hr : r ≠ "")
    (h : getStorageUniqId r metaRes = .ok uid) : uid ≠ "" := by
  cases metaRes with
  | ok ann =>
    simp only [getStorageUniqId] at h
    split at h
    · have huid := Except.ok.inj h
      subst huid
      exact ne_empty_of_length_pos (by assumption)
    · have huid := Except.ok.inj h
      subst huid
      exact hr
  | error e =>
    cases e with
    | notFound =>
      have huid := Except.ok.inj h
      subst huid
      exact hr
    | k8sFail m => exact Except.noConfusion h

/-- configureDefaultService is a no-op when the service already exists. -/
theorem configureDefaultService_noop (a : App) (ann : List (String × String)) (c : Cluster)
    (s : Service) (h : lookupA c.services a.name = some (.ok s)) :
    configureDefaultService a ann c = (none, c) := by
  simp [configureDefaultService, getRes, h]

/-- Key membership after an insert. -/
theorem mem_map_fst_insertA {α : Type} (m : List (String × α)) (k n : String) (v : α) :
    n ∈ (insertA m k v).map Prod.fst ↔ n ∈ m.map Prod.fst ∨ n = k := by
  induction m with
  | nil => simp [insertA]
  | cons hd tl ih =>
    obtain ⟨k₁, v₁⟩ := hd
    by_cases h₁ : k₁ = k
    · subst h₁
      simp [insertA]
      tauto
    · simp [insertA, h₁, ih]
      tauto

/-- Storage-class names present after a batch: the prior names plus the
names of the staged class operations. -/
theorem runOps_sc_mem (ops : List Op) (c : Cluster) (n : String) :
    n ∈ (runOps c ops).storageClasses.map Prod.fst ↔
      (n ∈ c.storageClasses.map Prod.fst ∨
        ∃ sc, Op.storageClassOp sc ∈ ops ∧ sc.name = n) := by
  induction ops generalizing c with
  | nil => simp [runOps]
  | cons op rest ih =>
    show n ∈ (runOps (applyOp c op) rest).storageClasses.map Prod.fst ↔ _
    rw [ih]
    cases op with
    | storageClassOp sc =>
      rw [show (applyOp c (.storageClassOp sc)).storageClasses
            = insertA c.storageClasses sc.name sc from rfl, mem_map_fst_insertA]
      constructor
      · rintro ((h | rfl) | ⟨sc', h1, h2⟩)
        · exact Or.inl h
        · exact Or.inr ⟨sc, by simp, rfl⟩
        · exact Or.inr ⟨sc', by simp [h1], h2⟩
      · rintro (h | ⟨sc', h1, h2⟩)
        · exact Or.inl (Or.inl h)
        · rcases List.mem_cons.mp h1 with heq | hmem
          · have := Op.storageClassOp.inj heq
            subst this
            exact Or.inl (Or.inr h2.symm)
          · exact Or.inr ⟨sc', hmem, h2⟩
    | secretOp s => simp [applyOp, List.mem_cons]
    | serviceOp s => simp [applyOp, List.mem_cons]
    | pvcOp p => simp [applyOp, List.mem_cons]
    | statefulSetOp w => simp [applyOp, List.mem_cons]
    | deploymentOp w => simp [applyOp, List.mem_cons]
    | daemonSetOp w => simp [applyOp, List.mem_cons]
    | deleteStatefulSetOp m => simp [applyOp, List.mem_cons]
    | deleteDeploymentOp m => simp [applyOp, List.mem_cons]
    | deleteDaemonSetOp m => simp [applyOp, List.mem_cons]
    | deleteServiceOp m => simp [applyOp, List.mem_cons]
    | deleteSecretOp m => simp [applyOp, List.mem_cons]

/-- A batch of pointwise no-ops leaves the cluster unchanged. -/
theorem runOps_noop (ops : List Op) (c : Cluster)
    (h : ∀ op ∈ ops, applyOp c op = c) : runOps c ops = c := by
  induction ops with
  | nil => rfl
  | cons op rest ih =>
    show runOps (applyOp c op) rest = c
    rw [h op (by simp)]
    exact ih (fun x hx => h x (by simp [hx]))

/-- Claims staged later never overwrite a claim slot with a different key,
and no other operation touches the claim store. -/
theorem runOps_pvc_preserve (ops : List Op) (c : Cluster) (k : String)
    (v : Except String PVC) (hk : lookupA c.pvcs k = some v)
    (h : ∀ p, Op.pvcOp p ∈ ops → p.name ≠ k) :
    lookupA (runOps c ops).pvcs k = some v := by
  induction ops generalizing c with
  | nil => exact hk
  | cons op rest ih =>
    show lookupA (runOps (applyOp c op) rest).pvcs k = some v
    apply ih
    · cases op with
      | pvcOp p =>
        show lookupA (insertA c.pvcs p.name (.ok p)) k = some v
        rw [lookupA_insertA_ne _ _ _ _ (h p (by simp))]
        exact hk
      | secretOp s => exact hk
      | serviceOp s => exact hk
      | statefulSetOp w => exact hk
      | deploymentOp w => exact hk
      | daemonSetOp w => exact hk
      | storageClassOp sc => exact hk
      | deleteStatefulSetOp m => exact hk
      | deleteDeploymentOp m => exact hk
      | deleteDaemonSetOp m => exact hk
      | deleteServiceOp m => exact hk
      | deleteSecretOp m => exact hk
    · exact fun p hp => h p (by simp [hp])

/-- No storage-class operation for a filesystem resolved to an existing
class. -/
theorem scOpsOf_none {info : FsVolumeInfo} (h : info.sc = none) : scOpsOf info = [] := by
  unfold scOpsOf
  rw [h]

/-- The known-class names are unchanged by a filesystem resolved to an
existing class. -/
theorem scNamesAfter_none {scN : List String} {info : FsVolumeInfo} (h : info.sc = none) :
    scNamesAfter scN info = scN := by
  unfold scNamesAfter
  rw [h]

/-- The second call drops every storage-class creation of the first. -/
theorem strip_scOps (info : FsVolumeInfo) :
    (scOpsOf info).filterMap stripForSecond = [] := by
  unfold scOpsOf
  split <;> simp [stripForSecond]

/-- The known-class names only grow across one storage step. -/
theorem scNamesAfter_sub (scN : List String) (info : FsVolumeInfo) :
    ∀ n ∈ scN, n ∈ scNamesAfter scN info := by
  unfold scNamesAfter
  split <;> simp_all

/-- Resolution on the enlarged class universe of the second call: provided
the configured name gained no new binding (it was either already known or is
still unknown) and every class created by the first call is known, the
second resolution yields the same volume and claim and creates nothing. -/
theorem fsvi_second (a : App) (vname : String) (fs : FilesystemCfg)
    (scN M₂ : List String) (png : String → String)
    (hsub : ∀ n ∈ scN, n ∈ M₂)
    (hfc : fs.storageClassAttr ∉ scN → fs.storageClassAttr ∉ M₂)
    (hsc : ∀ sc, (filesystemToVolumeInfo a vname fs scN png).sc = some sc → sc.name ∈ M₂) :
    filesystemToVolumeInfo a vname fs M₂ png =
      { vol := (filesystemToVolumeInfo a vname fs scN png).vol
        pvc := (filesystemToVolumeInfo a vname fs scN png).pvc
        sc := none } := by
  unfold filesystemToVolumeInfo at hsc ⊢
  cases hvs : volumeSourceForFilesystem fs with
  | some vs => simp only [hvs]
  | none =>
    simp only [hvs, parseVolumeParams] at hsc ⊢
    by_cases hA : fs.storageClassAttr ∈ scN
    · simp only [hA, if_true, hsub _ hA]
    · simp only [hA, if_false] at hsc ⊢
      simp only [hfc hA, if_false]
      by_cases hB : qualifiedStorageClassName a.ns fs.storageClassAttr ∈ scN
      · simp only [hB, if_true, hsub _ hB]
      · simp only [hB, if_false] at hsc ⊢
        have hq : (storageClassSpec a
            { name := png vname, storageClass := fs.storageClassAttr,
              sizeMi := fs.sizeMi }).name ∈ M₂ := hsc _ rfl
        rw [storageClassSpec] at hq
        simp only [hq, if_true]
        rfl

/-- In every successful storage step the storage-class creation (when there
is one) is among the staged operations. -/
theorem storStep_scops_sub (a : App) (cfg : AppConfig) (mode : PVCMode) (uid : String)
    (scN : List String) (idx : Nat) (fs : FilesystemCfg) (st : StorState)
    (h1 : (storStep a cfg mode uid scN idx fs st).err? = none) :
    ∀ op ∈ scOpsOf (filesystemToVolumeInfo a (volumeName a fs.storageName) fs scN
      (fun volName => volName ++ "-" ++ uid)),
      op ∈ (storStep a cfg mode uid scN idx fs st).ops := by
  intro op hop
  unfold storStep at h1 ⊢
  cases hvol : (filesystemToVolumeInfo a (volumeName a fs.storageName) fs scN
      (fun volName => volName ++ "-" ++ uid)).vol with
  | some v =>
    cases hpush : pushUniqueVolume st.pod v with
    | error e =>
      simp only [hvol, hpush] at h1
      exact Option.noConfusion h1
    | ok pod1 =>
      simp only [hvol, hpush] at h1 ⊢
      cases hpvc : (filesystemToVolumeInfo a (volumeName a fs.storageName) fs scN
          (fun volName => volName ++ "-" ++ uid)).pvc with
      | none => exact hop
      | some p =>
        simp only [hpvc] at h1 ⊢
        cases mode with
        | standalone =>
          cases hp2 : pushUniqueVolume pod1
              { name := p.name, source := .pvcRef p.name (fsReadOnly fs) } with
          | error e =>
            simp only [hp2] at h1
            exact Option.noConfusion h1
          | ok pod2 =>
            simp only [hp2]
            exact List.mem_append_left _ hop
        | claimTemplate =>
          cases hc : pushUniqueClaim st.claims p with
          | error e =>
            simp only [hc] at h1
            exact Option.noConfusion h1
          | ok cl =>
            simp only [hc]
            exact hop
  | none =>
    simp only [hvol] at h1 ⊢
    cases hpvc : (filesystemToVolumeInfo a (volumeName a fs.storageName) fs scN
        (fun volName => volName ++ "-" ++ uid)).pvc with
    | none => exact hop
    | some p =>
      simp only [hpvc] at h1 ⊢
      cases mode with
      | standalone =>
        cases hp2 : pushUniqueVolume st.pod
            { name := p.name, source := .pvcRef p.name (fsReadOnly fs) } with
        | error e =>
          simp only [hp2] at h1
          exact Option.noConfusion h1
        | ok pod2 =>
          simp only [hp2]
          exact List.mem_append_left _ hop
      | claimTemplate =>
        cases hc : pushUniqueClaim st.claims p with
        | error e =>
          simp only [hc] at h1
          exact Option.noConfusion h1
        | ok cl =>
          simp only [hc]
          exact hop

/-- One storage step of the second call replays the first exactly: same
resulting state, the same operations minus the storage-class creation, no
error, and the class universe stays put; moreover all names known after the
first step are known to the second. -/
theorem storStep_second (a : App) (cfg : AppConfig) (mode : PVCMode) (uid : String)
    (scN M₂ : List String) (idx : Nat) (fs : FilesystemCfg) (st : StorState)
    (hsub : ∀ n ∈ scN, n ∈ M₂)
    (hfc : fs.storageClassAttr ∉ scN → fs.storageClassAttr ∉ M₂)
    (hops : ∀ sc, Op.storageClassOp sc ∈ (storStep a cfg mode uid scN idx fs st).ops →
      sc.name ∈ M₂)
    (h1 : (storStep a cfg mode uid scN idx fs st).err? = none) :
    storStep a cfg mode uid M₂ idx fs st =
      { st := (storStep a cfg mode uid scN idx fs st).st
        ops := (storStep a cfg mode uid scN idx fs st).ops.filterMap stripForSecond
        scNames := M₂, err? := none } ∧
    ∀ n ∈ (storStep a cfg mode uid scN idx fs st).scNames, n ∈ M₂ := by
  have hsc : ∀ sc, (filesystemToVolumeInfo a (volumeName a fs.storageName) fs scN
      (fun volName => volName ++ "-" ++ uid)).sc = some sc → sc.name ∈ M₂ := by
    intro sc hscc
    exact hops sc (storStep_scops_sub a cfg mode uid scN idx fs st h1 _
      (by simp [scOpsOf, hscc]))
  have hinfo := fsvi_second a (volumeName a fs.storageName) fs scN M₂
    (fun volName => volName ++ "-" ++ uid) hsub hfc hsc
  have hnsub : ∀ n ∈ scNamesAfter scN (filesystemToVolumeInfo a
      (volumeName a fs.storageName) fs scN (fun volName => volName ++ "-" ++ uid)), n ∈ M₂ := by
    unfold scNamesAfter
    cases hscc : (filesystemToVolumeInfo a (volumeName a fs.storageName) fs scN
        (fun volName => volName ++ "-" ++ uid)).sc with
    | none => exact hsub
    | some sc =>
      intro n hn
      rcases List.mem_append.mp hn with hn | hn
      · exact hsub n hn
      · simp at hn
        subst hn
        exact hsc sc hscc
  simp only [storStep] at h1 ⊢
  rw [hinfo]
  cases hvol : (filesystemToVolumeInfo a (volumeName a fs.storageName) fs scN
      (fun volName => volName ++ "-" ++ uid)).vol with
  | some v =>
    cases hpush : pushUniqueVolume st.pod v with
    | error e =>
      simp only [hvol, hpush] at h1
      exact Option.noConfusion h1
    | ok pod1 =>
      simp only [hvol, hpush] at h1 ⊢
      cases hpvc : (filesystemToVolumeInfo a (volumeName a fs.storageName) fs scN
          (fun volName => volName ++ "-" ++ uid)).pvc with
      | none =>
        simp only [hpvc] at h1 ⊢
        refine ⟨?_, hnsub⟩
        rw [strip_scOps]
        rfl
      | some p =>
        simp only [hpvc] at h1 ⊢
        cases mode with
        | standalone =>
          cases hp2 : pushUniqueVolume pod1
              { name := p.name, source := .pvcRef p.name (fsReadOnly fs) } with
          | error e =>
            simp only [hp2] at h1
            exact Option.noConfusion h1
          | ok pod2 =>
            simp only [hp2]
            refine ⟨?_, hnsub⟩
            rw [List.filterMap_append, strip_scOps]
            simp [stripForSecond, scOpsOf, scNamesAfter]
        | claimTemplate =>
          cases hc : pushUniqueClaim st.claims p with
          | error e =>
            simp only [hc] at h1
            exact Option.noConfusion h1
          | ok cl =>
            simp only [hc]
            refine ⟨?_, hnsub⟩
            rw [strip_scOps]
            rfl
  | none =>
    simp only [hvol] at h1 ⊢
    cases hpvc : (filesystemToVolumeInfo a (volumeName a fs.storageName) fs scN
        (fun volName => volName ++ "-" ++ uid)).pvc with
    | none =>
      simp only [hpvc] at h1 ⊢
      refine ⟨?_, hnsub⟩
      rw [strip_scOps]
      rfl
    | some p =>
      simp only [hpvc] at h1 ⊢
      cases mode with
      | standalone =>
        cases hp2 : pushUniqueVolume st.pod
            { name := p.name, source := .pvcRef p.name (fsReadOnly fs) } with
        | error e =>
          simp only [hp2] at h1
          exact Option.noConfusion h1
        | ok pod2 =>
          simp only [hp2]
          refine ⟨?_, hnsub⟩
          rw [List.filterMap_append, strip_scOps]
          simp [stripForSecond, scOpsOf, scNamesAfter]
      | claimTemplate =>
        cases hc : pushUniqueClaim st.claims p with
        | error e =>
          simp only [hc] at h1
          exact Option.noConfusion h1
        | ok cl =>
          simp only [hc]
          refine ⟨?_, hnsub⟩
          rw [strip_scOps]
          rfl

/-- The known-class names only grow across one storage step, whatever its
outcome. -/
theorem storStep_scN_sub (a : App) (cfg : AppConfig) (mode : PVCMode) (uid : String)
    (scN : List String) (idx : Nat) (fs : FilesystemCfg) (st : StorState) :
    ∀ n ∈ scN, n ∈ (storStep a cfg mode uid scN idx fs st).scNames := by
  intro n hn
  simp only [storStep]
  repeat' split
  all_goals first | exact hn | exact scNamesAfter_sub _ _ n hn

/-- The storage configuration of the second call replays the first exactly:
on the enlarged class universe (containing every name known to the first
call and every class it created, and nothing newly matching a configured
name that the first call failed to match) it produces the same pod spec and
claim templates, stages the same operations minus the storage-class
creations, and succeeds. -/
theorem configureStorage_second (a : App) (cfg : AppConfig) (mode : PVCMode) (uid : String)
    (M₂ : List String) :
    ∀ (fss : List FilesystemCfg) (scN seen : List String) (idx : Nat) (st : StorState),
      (∀ n ∈ scN, n ∈ M₂) →
      (∀ f ∈ fss, f.storageClassAttr ∉ scN → f.storageClassAttr ∉ M₂) →
      (∀ sc, Op.storageClassOp sc ∈ (configureStorage a cfg mode uid scN seen idx fss st).ops →
        sc.name ∈ M₂) →
      (configureStorage a cfg mode uid scN seen idx fss st).err? = none →
      configureStorage a cfg mode uid M₂ seen idx fss st =
        { st := (configureStorage a cfg mode uid scN seen idx fss st).st
          ops := (configureStorage a cfg mode uid scN seen idx fss st).ops.filterMap
            stripForSecond
          err? := none } := by
  intro fss
  induction fss with
  | nil =>
    intro scN seen idx st hsub hfc hops h1
    rfl
  | cons fs rest ih =>
    intro scN seen idx st hsub hfc hops h1
    simp only [configureStorage] at h1 hops ⊢
    by_cases hmem : fs.storageName ∈ seen
    · simp only [hmem, if_true] at h1
      exact Option.noConfusion h1
    · simp only [hmem, if_false] at h1 hops ⊢
      cases herr : (storStep a cfg mode uid scN idx fs st).err? with
      | some e =>
        simp only [herr] at h1
        exact Option.noConfusion h1
      | none =>
        simp only [herr] at h1 hops ⊢
        have hops1 : ∀ sc, Op.storageClassOp sc ∈ (storStep a cfg mode uid scN idx fs st).ops →
            sc.name ∈ M₂ :=
          fun sc hsc => hops sc (List.mem_append_left _ hsc)
        obtain ⟨hstep, hscn⟩ := storStep_second a cfg mode uid scN M₂ idx fs st hsub
          (hfc fs (by simp)) hops1 herr
        simp only [hstep]
        have htail := ih (storStep a cfg mode uid scN idx fs st).scNames
          (fs.storageName :: seen) (idx + 1) (storStep a cfg mode uid scN idx fs st).st
          hscn
          (fun f hf hn => hfc f (by simp [hf])
            (fun hm => hn (storStep_scN_sub a cfg mode uid scN idx fs st f.storageClassAttr hm)))
          (fun sc hsc => hops sc (List.mem_append_right _ hsc))
          h1
        simp only [htail]
        rw [List.filterMap_append]

/-- An operation that never writes or deletes a Service. -/
def svcFree (op : Op) : Prop :=
  (∀ s, op ≠ Op.serviceOp s) ∧ ∀ n, op ≠ Op.deleteServiceOp n

/-- An operation that never writes or deletes a Secret. -/
def secretFree (op : Op) : Prop :=
  (∀ s, op ≠ Op.secretOp s) ∧ ∀ n, op ≠ Op.deleteSecretOp n

/-- An operation that never writes a claim. -/
def pvcFree (op : Op) : Prop := ∀ p, op ≠ Op.pvcOp p

/-- A service-free operation leaves the services store alone. -/
theorem applyOp_svc_frame (c : Cluster) (op : Op) (h : svcFree op) :
    (applyOp c op).services = c.services := by
  obtain ⟨h1, h2⟩ := h
  cases op <;> first | rfl | exact absurd rfl (h1 _) | exact absurd rfl (h2 _)

/-- A batch of service-free operations leaves the services store alone. -/
theorem runOps_svc_frame (ops : List Op) (h : ∀ op ∈ ops, svcFree op) (c : Cluster) :
    (runOps c ops).services = c.services := by
  induction ops generalizing c with
  | nil => rfl
  | cons op rest ih =>
    show (runOps (applyOp c op) rest).services = c.services
    rw [ih (fun x hx => h x (by simp [hx])), applyOp_svc_frame c op (h op (by simp))]

/-- A secret-free operation leaves the secrets store alone. -/
theorem applyOp_secret_frame (c : Cluster) (op : Op) (h : secretFree op) :
    (applyOp c op).secrets = c.secrets := by
  obtain ⟨h1, h2⟩ := h
  cases op <;> first | rfl | exact absurd rfl (h1 _) | exact absurd rfl (h2 _)

/-- A batch of secret-free operations leaves the secrets store alone. -/
theorem runOps_secret_frame (ops : List Op) (h : ∀ op ∈ ops, secretFree op) (c : Cluster) :
    (runOps c ops).secrets = c.secrets := by
  induction ops generalizing c with
  | nil => rfl
  | cons op rest ih =>
    show (runOps (applyOp c op) rest).secrets = c.secrets
    rw [ih (fun x hx => h x (by simp [hx])), applyOp_secret_frame c op (h op (by simp))]

/-- Storage and secret operations are service-free. -/
theorem svcFree_of_shape (op : Op) (h : storOp op ∨ ∃ s, op = Op.secretOp s) : svcFree op := by
  rcases h with (⟨p, rfl⟩ | ⟨sc, rfl⟩) | ⟨s, rfl⟩ <;>
    exact ⟨fun s h => Op.noConfusion h, fun n h => Op.noConfusion h⟩

/-- Storage operations are secret-free. -/
theorem secretFree_of_storOp (op : Op) (h : storOp op) : secretFree op := by
  rcases h with ⟨p, rfl⟩ | ⟨sc, rfl⟩ <;>
    exact ⟨fun s h => Op.noConfusion h, fun n h => Op.noConfusion h⟩

/-- The whole Stateful batch is service-free. -/
theorem statefulOps_svcFree (a : App) (cfg : AppConfig) (uid : String) (c : Cluster) :
    ∀ op ∈ statefulOps a cfg uid c, svcFree op := by
  intro op hop
  unfold statefulOps at hop
  rcases List.mem_append.mp hop with hop | hop
  · exact svcFree_of_shape op (by
      rcases List.mem_append.mp hop with hop | hop
      · simp at hop
        exact .inr ⟨_, hop⟩
      · exact .inl (statefulStor_ops_shape a cfg uid c op hop))
  · simp at hop
    subst hop
    exact ⟨fun s h => Op.noConfusion h, fun n h => Op.noConfusion h⟩

/-- The whole Stateless batch is service-free. -/
theorem statelessOps_svcFree (a : App) (cfg : AppConfig) (uid : String) (c : Cluster) :
    ∀ op ∈ statelessOps a cfg uid c, svcFree op := by
  intro op hop
  unfold statelessOps at hop
  rcases List.mem_append.mp hop with hop | hop
  · exact svcFree_of_shape op (by
      rcases List.mem_append.mp hop with hop | hop
      · simp at hop
        exact .inr ⟨_, hop⟩
      · exact .inl (standaloneStor_ops_shape a cfg uid c op hop))
  · simp at hop
    subst hop
    exact ⟨fun s h => Op.noConfusion h, fun n h => Op.noConfusion h⟩

/-- The whole Daemon batch is service-free. -/
theorem daemonOps_svcFree (a : App) (cfg : AppConfig) (uid : String) (c : Cluster) :
    ∀ op ∈ daemonOps a cfg uid c, svcFree op := by
  intro op hop
  unfold daemonOps at hop
  rcases List.mem_append.mp hop with hop | hop
  · exact svcFree_of_shape op (by
      rcases List.mem_append.mp hop with hop | hop
      · simp at hop
        exact .inr ⟨_, hop⟩
      · exact .inl (standaloneStor_ops_shape a cfg uid c op hop))
  · simp at hop
    subst hop
    exact ⟨fun s h => Op.noConfusion h, fun n h => Op.noConfusion h⟩

/-- The tail of the Stateful batch after the secret is secret-free. -/
theorem statefulOps_tail_secretFree (a : App) (cfg : AppConfig) (uid : String) (c : Cluster) :
    ∀ op ∈ (statefulStor a cfg uid c).ops ++ [Op.statefulSetOp (buildStatefulSet a cfg uid
        (if (statefulGot a cfg c).isOk then none else some 1)
        (statefulStor a cfg uid c).st.pod (statefulStor a cfg uid c).st.claims)],
      secretFree op := by
  intro op hop
  rcases List.mem_append.mp hop with hop | hop
  · exact secretFree_of_storOp op (statefulStor_ops_shape a cfg uid c op hop)
  · simp at hop
    subst hop
    exact ⟨fun s h => Op.noConfusion h, fun n h => Op.noConfusion h⟩

/-- The tail of the Stateless batch after the secret is secret-free. -/
theorem statelessOps_tail_secretFree (a : App) (cfg : AppConfig) (uid : String) (c : Cluster) :
    ∀ op ∈ (standaloneStor a cfg uid c).ops ++ [Op.deploymentOp (buildDeployment a cfg uid
        (if (statelessGot a cfg c).isOk then none else some 1)
        (standaloneStor a cfg uid c).st.pod)],
      secretFree op := by
  intro op hop
  rcases List.mem_append.mp hop with hop | hop
  · exact secretFree_of_storOp op (standaloneStor_ops_shape a cfg uid c op hop)
  · simp at hop
    subst hop
    exact ⟨fun s h => Op.noConfusion h, fun n h => Op.noConfusion h⟩

/-- The tail of the Daemon batch after the secret is secret-free. -/
theorem daemonOps_tail_secretFree (a : App) (cfg : AppConfig) (uid : String) (c : Cluster) :
    ∀ op ∈ (standaloneStor a cfg uid c).ops ++
        [Op.daemonSetOp (buildDaemonSet a cfg uid (standaloneStor a cfg uid c).st.pod)],
      secretFree op := by
  intro op hop
  rcases List.mem_append.mp hop with hop | hop
  · exact secretFree_of_storOp op (standaloneStor_ops_shape a cfg uid c op hop)
  · simp at hop
    subst hop
    exact ⟨fun s h => Op.noConfusion h, fun n h => Op.noConfusion h⟩

/-- The workload-store content written by a successful Daemon Ensure. -/
theorem ensure_daemon_cluster_sets (a : App) (cfg : AppConfig) (uid : String)
    (c : Cluster) :
    (runOps (ensureC1 a cfg c) (daemonOps a cfg uid c)).daemonSets =
      insertA c.daemonSets a.name
        (.ok (buildDaemonSet a cfg uid (standaloneStor a cfg uid c).st.pod)) := by
  have hframe : (runOps (ensureC1 a cfg c)
      ([Op.secretOp (applicationSecret a cfg)] ++
        (standaloneStor a cfg uid c).ops)).daemonSets = c.daemonSets := by
    rw [(runOps_workload_frame _ (standaloneOps_pre_shape a cfg uid c) _).2.2.1]
    exact (configureDefaultService_frame a (annotsFor a cfg) c).2.2.1
  unfold daemonOps
  rw [runOps, List.foldl_append]
  simp only [List.foldl_cons, List.foldl_nil]
  rw [runOps] at hframe
  simp only [applyOp]
  rw [hframe]
  rfl

/-- A resolved claim is always named by the claim-name getter applied to the
volume name. -/
theorem fsvi_pvc_name (a : App) (vname : String) (fs : FilesystemCfg) (scN : List String)
    (png : String → String) (p : PVC)
    (h : (filesystemToVolumeInfo a vname fs scN png).pvc = some p) : p.name = png vname := by
  unfold filesystemToVolumeInfo at h
  cases hvs : volumeSourceForFilesystem fs with
  | some vs => simp [hvs] at h
  | none =>
    simp only [hvs, parseVolumeParams] at h
    by_cases hA : fs.storageClassAttr ∈ scN
    · simp only [hA, if_true] at h
      rw [← Option.some.inj h]
    · simp only [hA, if_false] at h
      by_cases hB : qualifiedStorageClassName a.ns fs.storageClassAttr ∈ scN
      · simp only [hB, if_true] at h
        rw [← Option.some.inj h]
      · simp only [hB, if_false] at h
        rw [← Option.some.inj h]

/-- A synthesized class is always the namespace-qualified configured class
of its filesystem. -/
theorem fsvi_sc_name (a : App) (vname : String) (fs : FilesystemCfg) (scN : List String)
    (png : String → String) (sc : StorageClassObj)
    (h : (filesystemToVolumeInfo a vname fs scN png).sc = some sc) :
    sc.name = qualifiedStorageClassName a.ns fs.storageClassAttr := by
  unfold filesystemToVolumeInfo at h
  cases hvs : volumeSourceForFilesystem fs with
  | some vs => simp [hvs] at h
  | none =>
    simp only [hvs, parseVolumeParams] at h
    by_cases hA : fs.storageClassAttr ∈ scN
    · simp only [hA, if_true] at h
      exact Option.noConfusion h
    · simp only [hA, if_false] at h
      by_cases hB : qualifiedStorageClassName a.ns fs.storageClassAttr ∈ scN
      · simp only [hB, if_true] at h
        exact Option.noConfusion h
      · simp only [hB, if_false] at h
        rw [← Option.some.inj h, storageClassSpec]

/-- No claim operation hides among the storage-class operations. -/
theorem mem_scOpsOf_pvc {info : FsVolumeInfo} {p : PVC}
    (h : Op.pvcOp p ∈ scOpsOf info) : False := by
  unfold scOpsOf at h
  split at h <;> simp at h

/-- A storage-class operation among the staged class operations exposes the
synthesized class. -/
theorem mem_scOpsOf {info : FsVolumeInfo} {sc : StorageClassObj}
    (h : Op.storageClassOp sc ∈ scOpsOf info) : info.sc = some sc := by
  unfold scOpsOf at h
  split at h
  · simp at h
    subst h
    assumption
  · simp at h

/-- Every claim staged by one storage step is named for that step's
filesystem. -/
theorem storStep_pvc_of (a : App) (cfg : AppConfig) (mode : PVCMode) (uid : String)
    (scN : List String) (idx : Nat) (fs : FilesystemCfg) (st : StorState) (p : PVC)
    (h : Op.pvcOp p ∈ (storStep a cfg mode uid scN idx fs st).ops) :
    p.name = volumeName a fs.storageName ++ "-" ++ uid := by
  unfold storStep at h
  cases hvol : (filesystemToVolumeInfo a (volumeName a fs.storageName) fs scN
      (fun volName => volName ++ "-" ++ uid)).vol with
  | some v =>
    cases hpush : pushUniqueVolume st.pod v with
    | error e =>
      simp only [hvol, hpush] at h
      simp at h
    | ok pod1 =>
      simp only [hvol, hpush] at h
      cases hpvc : (filesystemToVolumeInfo a (volumeName a fs.storageName) fs scN
          (fun volName => volName ++ "-" ++ uid)).pvc with
      | none =>
        simp only [hpvc] at h
        exact absurd h mem_scOpsOf_pvc
      | some p1 =>
        simp only [hpvc] at h
        cases mode with
        | standalone =>
          cases hp2 : pushUniqueVolume pod1
              { name := p1.name, source := .pvcRef p1.name (fsReadOnly fs) } with
          | error e =>
            simp only [hp2] at h
            rcases List.mem_append.mp h with h | h
            · exact absurd h mem_scOpsOf_pvc
            · simp at h
              subst h
              exact fsvi_pvc_name a (volumeName a fs.storageName) fs scN
                (fun volName => volName ++ "-" ++ uid) p hpvc
          | ok pod2 =>
            simp only [hp2] at h
            rcases List.mem_append.mp h with h | h
            · exact absurd h mem_scOpsOf_pvc
            · simp at h
              subst h
              exact fsvi_pvc_name a (volumeName a fs.storageName) fs scN
                (fun volName => volName ++ "-" ++ uid) p hpvc
        | claimTemplate =>
          cases hc : pushUniqueClaim st.claims p1 with
          | error e =>
            simp only [hc] at h
            exact absurd h mem_scOpsOf_pvc
          | ok cl =>
            simp only [hc] at h
            exact absurd h mem_scOpsOf_pvc
  | none =>
    simp only [hvol] at h
    cases hpvc : (filesystemToVolumeInfo a (volumeName a fs.storageName) fs scN
        (fun volName => volName ++ "-" ++ uid)).pvc with
    | none =>
      simp only [hpvc] at h
      exact absurd h mem_scOpsOf_pvc
    | some p1 =>
      simp only [hpvc] at h
      cases mode with
      | standalone =>
        cases hp2 : pushUniqueVolume st.pod
            { name := p1.name, source := .pvcRef p1.name (fsReadOnly fs) } with
        | error e =>
          simp only [hp2] at h
          rcases List.mem_append.mp h with h | h
          · exact absurd h mem_scOpsOf_pvc
          · simp at h
            subst h
            exact fsvi_pvc_name a (volumeName a fs.storageName) fs scN
              (fun volName => volName ++ "-" ++ uid) p hpvc
        | ok pod2 =>
          simp only [hp2] at h
          rcases List.mem_append.mp h with h | h
          · exact absurd h mem_scOpsOf_pvc
          · simp at h
            subst h
            exact fsvi_pvc_name a (volumeName a fs.storageName) fs scN
              (fun volName => volName ++ "-" ++ uid) p hpvc
      | claimTemplate =>
        cases hc : pushUniqueClaim st.claims p1 with
        | error e =>
          simp only [hc] at h
          exact absurd h mem_scOpsOf_pvc
        | ok cl =>
          simp only [hc] at h
          exact absurd h mem_scOpsOf_pvc

/-- Every class creation staged by one storage step is the qualified
configured class of that step's filesystem. -/
theorem storStep_scop_of (a : App) (cfg : AppConfig) (mode : PVCMode) (uid : String)
    (scN : List String) (idx : Nat) (fs : FilesystemCfg) (st : StorState)
    (sc : StorageClassObj)
    (h : Op.storageClassOp sc ∈ (storStep a cfg mode uid scN idx fs st).ops) :
    sc.name = qualifiedStorageClassName a.ns fs.storageClassAttr := by
  have hpvc : ∀ p : PVC, (Op.storageClassOp sc = Op.pvcOp p) → False :=
    fun p hp => Op.noConfusion hp
  have hsc : (filesystemToVolumeInfo a (volumeName a fs.storageName) fs scN
      (fun volName => volName ++ "-" ++ uid)).sc = some sc := by
    unfold storStep at h
    cases hvol : (filesystemToVolumeInfo a (volumeName a fs.storageName) fs scN
        (fun volName => volName ++ "-" ++ uid)).vol with
    | some v =>
      cases hpush : pushUniqueVolume st.pod v with
      | error e =>
        simp only [hvol, hpush] at h
        simp at h
      | ok pod1 =>
        simp only [hvol, hpush] at h
        cases hpv : (filesystemToVolumeInfo a (volumeName a fs.storageName) fs scN
            (fun volName => volName ++ "-" ++ uid)).pvc with
        | none =>
          simp only [hpv] at h
          exact mem_scOpsOf h
        | some p1 =>
          simp only [hpv] at h
          cases mode with
          | standalone =>
            cases hp2 : pushUniqueVolume pod1
                { name := p1.name, source := .pvcRef p1.name (fsReadOnly fs) } with
            | error e =>
              simp only [hp2] at h
              rcases List.mem_append.mp h with h | h
              · exact mem_scOpsOf h
              · simp at h
            | ok pod2 =>
              simp only [hp2] at h
              rcases List.mem_append.mp h with h | h
              · exact mem_scOpsOf h
              · simp at h
          | claimTemplate =>
            cases hc : pushUniqueClaim st.claims p1 with
            | error e =>
              simp only [hc] at h
              exact mem_scOpsOf h
            | ok cl =>
              simp only [hc] at h
              exact mem_scOpsOf h
    | none =>
      simp only [hvol] at h
      cases hpv : (filesystemToVolumeInfo a (volumeName a fs.storageName) fs scN
          (fun volName => volName ++ "-" ++ uid)).pvc with
      | none =>
        simp only [hpv] at h
        exact mem_scOpsOf h
      | some p1 =>
        simp only [hpv] at h
        cases mode with
        | standalone =>
          cases hp2 : pushUniqueVolume st.pod
              { name := p1.name, source := .pvcRef p1.name (fsReadOnly fs) } with
          | error e =>
            simp only [hp2] at h
            rcases List.mem_append.mp h with h | h
            · exact mem_scOpsOf h
            · simp at h
          | ok pod2 =>
            simp only [hp2] at h
            rcases List.mem_append.mp h with h | h
            · exact mem_scOpsOf h
            · simp at h
        | claimTemplate =>
          cases hc : pushUniqueClaim st.claims p1 with
          | error e =>
            simp only [hc] at h
            exact mem_scOpsOf h
          | ok cl =>
            simp only [hc] at h
            exact mem_scOpsOf h
  exact fsvi_sc_name _ _ _ _ _ _ hsc

/-- Immediately after one storage step the staged claim (when there is one)
is retrievable from the cluster the step's operations ran on. -/
theorem storStep_replay (a : App) (cfg : AppConfig) (mode : PVCMode) (uid : String)
    (scN : List String) (idx : Nat) (fs : FilesystemCfg) (st : StorState) (p : PVC)
    (c : Cluster) (h : Op.pvcOp p ∈ (storStep a cfg mode uid scN idx fs st).ops) :
    lookupA (runOps c (storStep a cfg mode uid scN idx fs st).ops).pvcs p.name =
      some (.ok p) := by
  have key : ∀ (info : FsVolumeInfo),
      Op.pvcOp p ∈ scOpsOf info ++ [Op.pvcOp p] →
      lookupA (runOps c (scOpsOf info ++ [Op.pvcOp p])).pvcs p.name = some (.ok p) := by
    intro info _
    rw [runOps, List.foldl_append]
    simp only [List.foldl_cons, List.foldl_nil, applyOp]
    exact lookupA_insertA_self _ _ _
  unfold storStep at h ⊢
  cases hvol : (filesystemToVolumeInfo a (volumeName a fs.storageName) fs scN
      (fun volName => volName ++ "-" ++ uid)).vol with
  | some v =>
    cases hpush : pushUniqueVolume st.pod v with
    | error e =>
      simp only [hvol, hpush] at h
      simp at h
    | ok pod1 =>
      simp only [hvol, hpush] at h ⊢
      cases hpv : (filesystemToVolumeInfo a (volumeName a fs.storageName) fs scN
          (fun volName => volName ++ "-" ++ uid)).pvc with
      | none =>
        simp only [hpv] at h
        exact absurd h mem_scOpsOf_pvc
      | some p1 =>
        simp only [hpv] at h ⊢
        cases mode with
        | standalone =>
          cases hp2 : pushUniqueVolume pod1
              { name := p1.name, source := .pvcRef p1.name (fsReadOnly fs) } with
          | error e =>
            simp only [hp2] at h ⊢
            obtain rfl : p = p1 := by
              rcases List.mem_append.mp h with h | h
              · exact absurd h mem_scOpsOf_pvc
              · simpa using h
            exact key _ h
          | ok pod2 =>
            simp only [hp2] at h ⊢
            obtain rfl : p = p1 := by
              rcases List.mem_append.mp h with h | h
              · exact absurd h mem_scOpsOf_pvc
              · simpa using h
            exact key _ h
        | claimTemplate =>
          cases hc : pushUniqueClaim st.claims p1 with
          | error e =>
            simp only [hc] at h
            exact absurd h mem_scOpsOf_pvc
          | ok cl =>
            simp only [hc] at h
            exact absurd h mem_scOpsOf_pvc
  | none =>
    simp only [hvol] at h ⊢
    cases hpv : (filesystemToVolumeInfo a (volumeName a fs.storageName) fs scN
        (fun volName => volName ++ "-" ++ uid)).pvc with
    | none =>
      simp only [hpv] at h
      exact absurd h mem_scOpsOf_pvc
    | some p1 =>
      simp only [hpv] at h ⊢
      cases mode with
      | standalone =>
        cases hp2 : pushUniqueVolume st.pod
            { name := p1.name, source := .pvcRef p1.name (fsReadOnly fs) } with
        | error e =>
          simp only [hp2] at h ⊢
          obtain rfl : p = p1 := by
            rcases List.mem_append.mp h with h | h
            · exact absurd h mem_scOpsOf_pvc
            · simpa using h
          exact key _ h
        | ok pod2 =>
          simp only [hp2] at h ⊢
          obtain rfl : p = p1 := by
            rcases List.mem_append.mp h with h | h
            · exact absurd h mem_scOpsOf_pvc
            · simpa using h
          exact key _ h
      | claimTemplate =>
        cases hc : pushUniqueClaim st.claims p1 with
        | error e =>
          simp only [hc] at h
          exact absurd h mem_scOpsOf_pvc
        | ok cl =>
          simp only [hc] at h
          exact absurd h mem_scOpsOf_pvc

/-- Every claim staged by configureStorage is named for a storage name not
yet seen. -/
theorem configureStorage_pvc_shape (a : App) (cfg : AppConfig) (mode : PVCMode)
    (uid : String) :
    ∀ (fss : List FilesystemCfg) (scN seen : List String) (idx : Nat) (st : StorState)
      (p : PVC), Op.pvcOp p ∈ (configureStorage a cfg mode uid scN seen idx fss st).ops →
      ∃ s, s ∉ seen ∧ p.name = volumeName a s ++ "-" ++ uid := by
  intro fss
  induction fss with
  | nil =>
    intro scN seen idx st p h
    simp [configureStorage] at h
  | cons fs rest ih =>
    intro scN seen idx st p h
    rw [configureStorage] at h
    by_cases hmem : fs.storageName ∈ seen
    · simp [hmem] at h
    · simp only [hmem, if_false] at h
      cases herr : (storStep a cfg mode uid scN idx fs st).err? with
      | some e =>
        simp only [herr] at h
        exact ⟨fs.storageName, hmem, storStep_pvc_of a cfg mode uid scN idx fs st p h⟩
      | none =>
        simp only [herr] at h
        rcases List.mem_append.mp h with h | h
        · exact ⟨fs.storageName, hmem, storStep_pvc_of a cfg mode uid scN idx fs st p h⟩
        · obtain ⟨s, hs, hn⟩ := ih _ _ _ _ _ h
          exact ⟨s, fun hx => hs (by simp [hx]), hn⟩

/-- Every class creation staged by configureStorage is the qualified
configured class of one of the declared filesystems. -/
theorem configureStorage_scop_names (a : App) (cfg : AppConfig) (mode : PVCMode)
    (uid : String) :
    ∀ (fss : List FilesystemCfg) (scN seen : List String) (idx : Nat) (st : StorState)
      (sc : StorageClassObj),
      Op.storageClassOp sc ∈ (configureStorage a cfg mode uid scN seen idx fss st).ops →
      ∃ g, g ∈ fss ∧ sc.name = qualifiedStorageClassName a.ns g.storageClassAttr := by
  intro fss
  induction fss with
  | nil =>
    intro scN seen idx st sc h
    simp [configureStorage] at h
  | cons fs rest ih =>
    intro scN seen idx st sc h
    rw [configureStorage] at h
    by_cases hmem : fs.storageName ∈ seen
    · simp [hmem] at h
    · simp only [hmem, if_false] at h
      cases herr : (storStep a cfg mode uid scN idx fs st).err? with
      | some e =>
        simp only [herr] at h
        exact ⟨fs, by simp, storStep_scop_of a cfg mode uid scN idx fs st sc h⟩
      | none =>
        simp only [herr] at h
        rcases List.mem_append.mp h with h | h
        · exact ⟨fs, by simp, storStep_scop_of a cfg mode uid scN idx fs st sc h⟩
        · obtain ⟨g, hg, hn⟩ := ih _ _ _ _ _ h
          exact ⟨g, by simp [hg], hn⟩

/-- After running the batch staged by configureStorage, every staged claim
slot holds exactly the staged claim. -/
theorem configureStorage_replay (a : App) (cfg : AppConfig) (mode : PVCMode)
    (uid : String) :
    ∀ (fss : List FilesystemCfg) (scN seen : List String) (idx : Nat) (st : StorState)
      (c : Cluster) (p : PVC),
      Op.pvcOp p ∈ (configureStorage a cfg mode uid scN seen idx fss st).ops →
      lookupA (runOps c (configureStorage a cfg mode uid scN seen idx fss st).ops).pvcs
        p.name = some (.ok p) := by
  intro fss
  induction fss with
  | nil =>
    intro scN seen idx st c p h
    simp [configureStorage] at h
  | cons fs rest ih =>
    intro scN seen idx st c p h
    rw [configureStorage] at h ⊢
    by_cases hmem : fs.storageName ∈ seen
    · simp [hmem] at h
    · simp only [hmem, if_false] at h ⊢
      cases herr : (storStep a cfg mode uid scN idx fs st).err? with
      | some e =>
        simp only [herr] at h ⊢
        exact storStep_replay a cfg mode uid scN idx fs st p c h
      | none =>
        simp only [herr] at h ⊢
        rw [runOps, List.foldl_append, ← runOps, ← runOps]
        rcases List.mem_append.mp h with h | h
        · have hstep := storStep_replay a cfg mode uid scN idx fs st p c h
          have hname := storStep_pvc_of a cfg mode uid scN idx fs st p h
          apply runOps_pvc_preserve _ _ _ _ hstep
          intro q hq hqn
          obtain ⟨s, hs, hsn⟩ := configureStorage_pvc_shape a cfg mode uid rest _ _ _ _ q hq
          rw [hqn, hname, volumeName, volumeName] at hsn
          have : s = fs.storageName := pvcName_inj a.name _ _ uid hsn.symm
          exact hs (by simp [this])
        · exact ih _ _ _ _ _ _ h

/-- Reuse of a live non-empty storage-unique-id annotation. -/
theorem getStorageUniqId_reuse (ann : List (String × String)) (v r : String)
    (h1 : lookupA ann appUuidKey = some v) (h2 : v ≠ "") :
    getStorageUniqId r (.ok ann) = .ok v := by
  simp [getStorageUniqId, h1, length_pos_of_ne_empty h2]

/-- After a successful default-service step the service slot holds an
object. -/
theorem configureDefaultService_ok_lookup (a : App) (ann : List (String × String))
    (c : Cluster) (h : (configureDefaultService a ann c).1 = none) :
    ∃ s, lookupA ((configureDefaultService a ann c).2).services a.name =
      some (Except.ok s) := by
  unfold configureDefaultService at h ⊢
  cases hl : lookupA c.services a.name with
  | none =>
    simp only [getRes, hl]
    exact ⟨defaultService a ann, lookupA_insertA_self _ _ _⟩
  | some v =>
    cases v with
    | error m =>
      simp only [getRes, hl] at h
      exact Option.noConfusion h
    | ok s =>
      simp only [getRes, hl]
      exact ⟨s, rfl⟩

/-- Re-upserting the secret already live is a no-op. -/
theorem applyOp_secret_noop (c : Cluster) (s : Secret)
    (h : lookupA c.secrets s.name = some (.ok s)) : applyOp c (.secretOp s) = c := by
  simp only [applyOp]
  rw [insertA_of_lookupA _ _ _ h]

/-- Re-upserting the claim already live is a no-op. -/
theorem applyOp_pvc_noop (c : Cluster) (p : PVC)
    (h : lookupA c.pvcs p.name = some (.ok p)) : applyOp c (.pvcOp p) = c := by
  simp only [applyOp]
  rw [insertA_of_lookupA _ _ _ h]

/-- Re-upserting the DaemonSet already live is a no-op. -/
theorem applyOp_daemonSet_noop (c : Cluster) (w : DaemonSetObj)
    (h : lookupA c.daemonSets w.name = some (.ok w)) : applyOp c (.daemonSetOp w) = c := by
  simp only [applyOp]
  rw [insertA_of_lookupA _ _ _ h]

/-- Re-upserting a StatefulSet with a nil replica pointer on top of a live
object differing only in its replica count is a no-op: the merge resurrects
the live count. -/
theorem applyOp_statefulSet_noop (c : Cluster) (w m : StatefulSetObj) (X : Option Int)
    (hw : w.replicas = none) (hm : m = { w with replicas := X })
    (hl : lookupA c.statefulSets w.name = some (.ok m)) :
    applyOp c (.statefulSetOp w) = c := by
  subst hm
  simp only [applyOp, hl]
  rw [if_pos hw]
  rw [insertA_of_lookupA _ _ _ hl]

/-- Re-upserting a Deployment with a nil replica pointer on top of a live
object differing only in its replica count is a no-op. -/
theorem applyOp_deployment_noop (c : Cluster) (w m : DeploymentObj) (X : Option Int)
    (hw : w.replicas = none) (hm : m = { w with replicas := X })
    (hl : lookupA c.deployments w.name = some (.ok m)) :
    applyOp c (.deploymentOp w) = c := by
  subst hm
  simp only [applyOp, hl]
  rw [if_pos hw]
  rw [insertA_of_lookupA _ _ _ hl]

/-- The second call's surviving storage operations are exactly the claims of
the first. -/
theorem strip_storOps_mem (ops : List Op) (hshape : ∀ op ∈ ops, storOp op) :
    ∀ op ∈ ops.filterMap stripForSecond, ∃ p, op = Op.pvcOp p ∧ Op.pvcOp p ∈ ops := by
  intro op hop
  rcases List.mem_filterMap.mp hop with ⟨op', hop', hs⟩
  rcases hshape op' hop' with ⟨p, rfl⟩ | ⟨sc, rfl⟩
  · refine ⟨p, ?_, hop'⟩
    simpa [stripForSecond] using hs.symm
  · simp [stripForSecond] at hs

/-- The merged workload written by the batch differs from the staged one at
most in its replica count (StatefulSet form). -/
theorem merged_shape_ss (w : StatefulSetObj) (lk : Option (Except String StatefulSetObj)) :
    ∃ X, (match lk with
      | some (.ok old) => if w.replicas = none then { w with replicas := old.replicas } else w
      | _ => w) = { w with replicas := X } := by
  cases lk with
  | none => exact ⟨w.replicas, rfl⟩
  | some v =>
    cases v with
    | error m => exact ⟨w.replicas, rfl⟩
    | ok old =>
      by_cases hw : w.replicas = none
      · refine ⟨old.replicas, ?_⟩
        show (if w.replicas = none then { w with replicas := old.replicas } else w) =
          { w with replicas := old.replicas }
        rw [if_pos hw]
      · refine ⟨w.replicas, ?_⟩
        show (if w.replicas = none then { w with replicas := old.replicas } else w) =
          { w with replicas := w.replicas }
        rw [if_neg hw]

/-- The merged workload written by the batch differs from the staged one at
most in its replica count (Deployment form). -/
theorem merged_shape_dep (w : DeploymentObj) (lk : Option (Except String DeploymentObj)) :
    ∃ X, (match lk with
      | some (.ok old) => if w.replicas = none then { w with replicas := old.replicas } else w
      | _ => w) = { w with replicas := X } := by
  cases lk with
  | none => exact ⟨w.replicas, rfl⟩
  | some v =>
    cases v with
    | error m => exact ⟨w.replicas, rfl⟩
    | ok old =>
      by_cases hw : w.replicas = none
      · refine ⟨old.replicas, ?_⟩
        show (if w.replicas = none then { w with replicas := old.replicas } else w) =
          { w with replicas := old.replicas }
        rw [if_pos hw]
      · refine ⟨w.replicas, ?_⟩
        show (if w.replicas = none then { w with replicas := old.replicas } else w) =
          { w with replicas := w.replicas }
        rw [if_neg hw]

/-- Existential form of the Stateful workload-store characterization. -/
theorem ensure_stateful_cluster_sets_ex (a : App) (cfg : AppConfig) (uid : String)
    (c : Cluster) :
    ∃ X, (runOps (configureHeadlessService a (annotsFor a cfg) (ensureC1 a cfg c))
        (statefulOps a cfg uid c)).statefulSets =
      insertA c.statefulSets a.name (.ok
        { buildStatefulSet a cfg uid (if (statefulGot a cfg c).isOk then none else some 1)
            (statefulStor a cfg uid c).st.pod (statefulStor a cfg uid c).st.claims with
          replicas := X }) := by
  rw [ensure_stateful_cluster_sets a cfg uid c]
  obtain ⟨X, hX⟩ := merged_shape_ss (buildStatefulSet a cfg uid
    (if (statefulGot a cfg c).isOk then none else some 1)
    (statefulStor a cfg uid c).st.pod (statefulStor a cfg uid c).st.claims)
    (lookupA c.statefulSets a.name)
  exact ⟨X, by rw [hX]⟩

/-- Existential form of the Stateless workload-store characterization. -/
theorem ensure_stateless_cluster_sets_ex (a : App) (cfg : AppConfig) (uid : String)
    (c : Cluster) :
    ∃ X, (runOps (ensureC1 a cfg c) (statelessOps a cfg uid c)).deployments =
      insertA c.deployments a.name (.ok
        { buildDeployment a cfg uid (if (statelessGot a cfg c).isOk then none else some 1)
            (standaloneStor a cfg uid c).st.pod with
          replicas := X }) := by
  rw [ensure_stateless_cluster_sets a cfg uid c]
  obtain ⟨X, hX⟩ := merged_shape_dep (buildDeployment a cfg uid
    (if (statelessGot a cfg c).isOk then none else some 1)
    (standaloneStor a cfg uid c).st.pod)
    (lookupA c.deployments a.name)
  exact ⟨X, by rw [hX]⟩

/-- Re-applying the service already live with identical content is a
no-op. -/
theorem applyService_noop (c : Cluster) (s : Service)
    (h : lookupA c.services s.name = some (.ok s)) : applyService c s = c := by
  unfold applyService
  rw [insertA_of_lookupA _ _ _ h]

/-- A second Stateful Ensure from the first call's cluster succeeds, leaves
the cluster unchanged, and stages the first batch minus the storage-class
creations, with the workload's replica count withheld. -/
theorem ensure_second_stateful (a : App) (cfg : AppConfig) (r₁ r₂ : String) (c : Cluster)
    (hdt : a.deploymentType = .stateful) (hr : r₁ ≠ "")
    (hcol : ∀ f ∈ cfg.filesystems, ∀ g ∈ cfg.filesystems,
      f.storageClassAttr ≠ qualifiedStorageClassName a.ns g.storageClassAttr)
    (h1 : (ensure a cfg r₁ c).err? = none) :
    ensure a cfg r₂ (ensure a cfg r₁ c).cluster =
      { staged := (ensure a cfg r₁ c).staged.filterMap stripForSecond
        err? := none
        cluster := (ensure a cfg r₁ c).cluster } := by
  obtain ⟨uid, hcds1, hu1, hs1, he1⟩ := ensure_stateful_success a cfg r₁ c hdt h1
  simp only [he1]
  have hserv : (runOps (configureHeadlessService a (annotsFor a cfg) (ensureC1 a cfg c))
      (statefulOps a cfg uid c)).services =
      (configureHeadlessService a (annotsFor a cfg) (ensureC1 a cfg c)).services :=
    runOps_svc_frame _ (statefulOps_svcFree a cfg uid c) _
  obtain ⟨X, hssets⟩ := ensure_stateful_cluster_sets_ex a cfg uid c
  obtain ⟨s₀, hs₀⟩ := configureDefaultService_ok_lookup a (annotsFor a cfg) c hcds1
  have hlooksvc : lookupA (runOps (configureHeadlessService a (annotsFor a cfg)
      (ensureC1 a cfg c)) (statefulOps a cfg uid c)).services a.name =
      some (.ok s₀) := by
    rw [hserv]
    show lookupA (insertA (ensureC1 a cfg c).services
      (headlessService a (annotsFor a cfg)).name
      (.ok (headlessService a (annotsFor a cfg)))) a.name = some (.ok s₀)
    rw [lookupA_insertA_ne]
    · exact hs₀
    · show headlessServiceName a.name ≠ a.name
      unfold headlessServiceName
      exact (self_ne_append (by decide)).symm
  have hcds2 : configureDefaultService a (annotsFor a cfg)
      (runOps (configureHeadlessService a (annotsFor a cfg) (ensureC1 a cfg c))
        (statefulOps a cfg uid c)) =
      (none, runOps (configureHeadlessService a (annotsFor a cfg) (ensureC1 a cfg c))
        (statefulOps a cfg uid c)) :=
    configureDefaultService_noop a _ _ s₀ hlooksvc
  have hheadless : configureHeadlessService a (annotsFor a cfg)
      (runOps (configureHeadlessService a (annotsFor a cfg) (ensureC1 a cfg c))
        (statefulOps a cfg uid c)) =
      runOps (configureHeadlessService a (annotsFor a cfg) (ensureC1 a cfg c))
        (statefulOps a cfg uid c) := by
    have hlh : lookupA (runOps (configureHeadlessService a (annotsFor a cfg)
        (ensureC1 a cfg c)) (statefulOps a cfg uid c)).services
        (headlessService a (annotsFor a cfg)).name =
        some (.ok (headlessService a (annotsFor a cfg))) := by
      rw [hserv]
      exact lookupA_insertA_self _ _ _
    exact applyService_noop _ _ hlh
  have hread : getRes (runOps (configureHeadlessService a (annotsFor a cfg)
      (ensureC1 a cfg c)) (statefulOps a cfg uid c)).statefulSets a.name =
      .ok { buildStatefulSet a cfg uid
        (if (statefulGot a cfg c).isOk then none else some 1)
        (statefulStor a cfg uid c).st.pod (statefulStor a cfg uid c).st.claims with
        replicas := X } := by
    unfold getRes
    rw [hssets, lookupA_insertA_self]
  have huid2 : getStorageUniqId r₂ (Except.ok (buildStatefulSet a cfg uid
      (if (statefulGot a cfg c).isOk then none else some 1)
      (statefulStor a cfg uid c).st.pod (statefulStor a cfg uid c).st.claims).annots) =
      .ok uid := by
    have hann : (buildStatefulSet a cfg uid
        (if (statefulGot a cfg c).isOk then none else some 1)
        (statefulStor a cfg uid c).st.pod (statefulStor a cfg uid c).st.claims).annots =
        insertA (annotsFor a cfg) appUuidKey uid := rfl
    rw [hann]
    exact getStorageUniqId_reuse _ uid r₂ (lookupA_insertA_self _ _ _)
      (getStorageUniqId_ne_empty r₁ _ uid hr hu1)
  have hsub : ∀ n ∈ (ensureC1 a cfg c).storageClasses.map (fun p => p.1),
      n ∈ (runOps (configureHeadlessService a (annotsFor a cfg) (ensureC1 a cfg c))
        (statefulOps a cfg uid c)).storageClasses.map (fun p => p.1) := by
    intro n hn
    exact (runOps_sc_mem _ _ _).mpr (Or.inl hn)
  have hops : ∀ sc, Op.storageClassOp sc ∈ (configureStorage a cfg .claimTemplate uid
      ((ensureC1 a cfg c).storageClasses.map (fun p => p.1)) [] 0 cfg.filesystems
      { pod := applicationPodSpec a cfg }).ops →
      sc.name ∈ (runOps (configureHeadlessService a (annotsFor a cfg) (ensureC1 a cfg c))
        (statefulOps a cfg uid c)).storageClasses.map (fun p => p.1) := by
    intro sc hsc
    apply (runOps_sc_mem _ _ _).mpr
    refine Or.inr ⟨sc, ?_, rfl⟩
    unfold statefulOps
    exact List.mem_append_left _ (List.mem_append_right _ hsc)
  have hfc : ∀ f ∈ cfg.filesystems, f.storageClassAttr ∉
      (ensureC1 a cfg c).storageClasses.map (fun p => p.1) →
      f.storageClassAttr ∉ (runOps (configureHeadlessService a (annotsFor a cfg)
        (ensureC1 a cfg c)) (statefulOps a cfg uid c)).storageClasses.map
        (fun p => p.1) := by
    intro f hf hnot hmem
    rcases (runOps_sc_mem _ _ _).mp hmem with hbase | ⟨sc, hscmem, hscname⟩
    · exact hnot hbase
    · have hsc' : Op.storageClassOp sc ∈ (statefulStor a cfg uid c).ops := by
        unfold statefulOps at hscmem
        rcases List.mem_append.mp hscmem with h | h
        · rcases List.mem_append.mp h with h | h
          · simp at h
          · exact h
        · simp at h
      obtain ⟨g, hg, hgn⟩ := configureStorage_scop_names a cfg .claimTemplate uid
        cfg.filesystems _ _ _ _ sc hsc'
      rw [hscname] at hgn
      exact hcol f hf g hg hgn
  have hs1x : (configureStorage a cfg .claimTemplate uid
      ((ensureC1 a cfg c).storageClasses.map (fun p => p.1)) [] 0 cfg.filesystems
      { pod := applicationPodSpec a cfg }).err? = none := hs1
  have hstor2 := configureStorage_second a cfg .claimTemplate uid
    ((runOps (configureHeadlessService a (annotsFor a cfg) (ensureC1 a cfg c))
      (statefulOps a cfg uid c)).storageClasses.map (fun p => p.1))
    cfg.filesystems ((ensureC1 a cfg c).storageClasses.map (fun p => p.1)) [] 0
    { pod := applicationPodSpec a cfg } hsub hfc hops hs1x
  have hseclook : lookupA (runOps (configureHeadlessService a (annotsFor a cfg)
      (ensureC1 a cfg c)) (statefulOps a cfg uid c)).secrets
      (applicationSecret a cfg).name = some (.ok (applicationSecret a cfg)) := by
    rw [show runOps (configureHeadlessService a (annotsFor a cfg) (ensureC1 a cfg c))
        (statefulOps a cfg uid c) =
      runOps (applyOp (configureHeadlessService a (annotsFor a cfg) (ensureC1 a cfg c))
        (Op.secretOp (applicationSecret a cfg)))
        ((statefulStor a cfg uid c).ops ++ [Op.statefulSetOp (buildStatefulSet a cfg uid
          (if (statefulGot a cfg c).isOk then none else some 1)
          (statefulStor a cfg uid c).st.pod (statefulStor a cfg uid c).st.claims)])
      from rfl]
    rw [runOps_secret_frame _ (statefulOps_tail_secretFree a cfg uid c) _]
    exact lookupA_insertA_self _ _ _
  have hpvclook : ∀ p, Op.pvcOp p ∈ (configureStorage a cfg .claimTemplate uid
      ((ensureC1 a cfg c).storageClasses.map (fun p => p.1)) [] 0 cfg.filesystems
      { pod := applicationPodSpec a cfg }).ops →
      lookupA (runOps (configureHeadlessService a (annotsFor a cfg) (ensureC1 a cfg c))
        (statefulOps a cfg uid c)).pvcs p.name = some (.ok p) := by
    intro p hp
    show lookupA (runOps (configureHeadlessService a (annotsFor a cfg) (ensureC1 a cfg c))
      (Op.secretOp (applicationSecret a cfg) ::
        ((statefulStor a cfg uid c).ops ++ [Op.statefulSetOp (buildStatefulSet a cfg uid
          (if (statefulGot a cfg c).isOk then none else some 1)
          (statefulStor a cfg uid c).st.pod
          (statefulStor a cfg uid c).st.claims)]))).pvcs p.name = some (.ok p)
    rw [runOps, List.foldl_cons, List.foldl_append]
    simp only [List.foldl_cons, List.foldl_nil]
    show lookupA (List.foldl applyOp
      (applyOp (configureHeadlessService a (annotsFor a cfg) (ensureC1 a cfg c))
        (Op.secretOp (applicationSecret a cfg)))
      (statefulStor a cfg uid c).ops).pvcs p.name = some (.ok p)
    exact configureStorage_replay a cfg .claimTemplate uid cfg.filesystems _ _ _ _ _ p hp
  have hlss : lookupA (runOps (configureHeadlessService a (annotsFor a cfg)
      (ensureC1 a cfg c)) (statefulOps a cfg uid c)).statefulSets
      (buildStatefulSet a cfg uid (none : Option Int)
        (statefulStor a cfg uid c).st.pod (statefulStor a cfg uid c).st.claims).name =
      some (.ok { buildStatefulSet a cfg uid
        (if (statefulGot a cfg c).isOk then none else some 1)
        (statefulStor a cfg uid c).st.pod (statefulStor a cfg uid c).st.claims with
        replicas := X }) := by
    show lookupA (runOps (configureHeadlessService a (annotsFor a cfg)
      (ensureC1 a cfg c)) (statefulOps a cfg uid c)).statefulSets a.name = _
    rw [hssets]
    exact lookupA_insertA_self _ _ _
  rw [ensure, hcds2]
  simp only [hdt, hheadless, hread, huid2, hstor2, ensureStatefulTail,
    eq_self_iff_true, if_true]
  have hstaged : (statefulOps a cfg uid c).filterMap stripForSecond =
      [Op.secretOp (applicationSecret a cfg)] ++
        ((configureStorage a cfg .claimTemplate uid
          ((ensureC1 a cfg c).storageClasses.map (fun p => p.1)) [] 0 cfg.filesystems
          { pod := applicationPodSpec a cfg }).ops.filterMap stripForSecond) ++
        [Op.statefulSetOp (buildStatefulSet a cfg uid none
          (configureStorage a cfg .claimTemplate uid
            ((ensureC1 a cfg c).storageClasses.map (fun p => p.1)) [] 0 cfg.filesystems
            { pod := applicationPodSpec a cfg }).st.pod
          (configureStorage a cfg .claimTemplate uid
            ((ensureC1 a cfg c).storageClasses.map (fun p => p.1)) [] 0 cfg.filesystems
            { pod := applicationPodSpec a cfg }).st.claims)] := by
    unfold statefulOps statefulStor
    rw [List.filterMap_append, List.filterMap_append]
    simp only [List.filterMap_cons, List.filterMap_nil, stripForSecond]
    rfl
  have hclu : runOps (runOps (configureHeadlessService a (annotsFor a cfg)
      (ensureC1 a cfg c)) (statefulOps a cfg uid c))
      ([Op.secretOp (applicationSecret a cfg)] ++
        ((configureStorage a cfg .claimTemplate uid
          ((ensureC1 a cfg c).storageClasses.map (fun p => p.1)) [] 0 cfg.filesystems
          { pod := applicationPodSpec a cfg }).ops.filterMap stripForSecond) ++
        [Op.statefulSetOp (buildStatefulSet a cfg uid none
          (configureStorage a cfg .claimTemplate uid
            ((ensureC1 a cfg c).storageClasses.map (fun p => p.1)) [] 0 cfg.filesystems
            { pod := applicationPodSpec a cfg }).st.pod
          (configureStorage a cfg .claimTemplate uid
            ((ensureC1 a cfg c).storageClasses.map (fun p => p.1)) [] 0 cfg.filesystems
            { pod := applicationPodSpec a cfg }).st.claims)]) =
      runOps (configureHeadlessService a (annotsFor a cfg) (ensureC1 a cfg c))
        (statefulOps a cfg uid c) := by
    apply runOps_noop
    intro op hop
    rcases List.mem_append.mp hop with hop | hop
    · rcases List.mem_append.mp hop with hop | hop
      · simp at hop
        subst hop
        exact applyOp_secret_noop _ _ hseclook
      · obtain ⟨p, rfl, hpmem⟩ := strip_storOps_mem _
          (configureStorage_ops_shape a cfg .claimTemplate uid cfg.filesystems _ _ _ _)
          op hop
        exact applyOp_pvc_noop _ _ (hpvclook p hpmem)
    · simp at hop
      subst hop
      exact applyOp_statefulSet_noop _ _ _ X rfl rfl hlss
  rw [hstaged, hclu]

/-- A second Stateless Ensure from the first call's cluster succeeds, leaves
the cluster unchanged, and stages the first batch minus the storage-class
creations, with the workload's replica count withheld. -/
theorem ensure_second_stateless (a : App) (cfg : AppConfig) (r₁ r₂ : String) (c : Cluster)
    (hdt : a.deploymentType = .stateless) (hr : r₁ ≠ "")
    (hcol : ∀ f ∈ cfg.filesystems, ∀ g ∈ cfg.filesystems,
      f.storageClassAttr ≠ qualifiedStorageClassName a.ns g.storageClassAttr)
    (h1 : (ensure a cfg r₁ c).err? = none) :
    ensure a cfg r₂ (ensure a cfg r₁ c).cluster =
      { staged := (ensure a cfg r₁ c).staged.filterMap stripForSecond
        err? := none
        cluster := (ensure a cfg r₁ c).cluster } := by
  obtain ⟨uid, hcds1, hu1, hs1, he1⟩ := ensure_stateless_success a cfg r₁ c hdt h1
  simp only [he1]
  have hserv : (runOps (ensureC1 a cfg c) (statelessOps a cfg uid c)).services =
      (ensureC1 a cfg c).services :=
    runOps_svc_frame _ (statelessOps_svcFree a cfg uid c) _
  obtain ⟨X, hssets⟩ := ensure_stateless_cluster_sets_ex a cfg uid c
  obtain ⟨s₀, hs₀⟩ := configureDefaultService_ok_lookup a (annotsFor a cfg) c hcds1
  have hlooksvc : lookupA (runOps (ensureC1 a cfg c)
      (statelessOps a cfg uid c)).services a.name = some (.ok s₀) := by
    rw [hserv]
    exact hs₀
  have hcds2 : configureDefaultService a (annotsFor a cfg)
      (runOps (ensureC1 a cfg c) (statelessOps a cfg uid c)) =
      (none, runOps (ensureC1 a cfg c) (statelessOps a cfg uid c)) :=
    configureDefaultService_noop a _ _ s₀ hlooksvc
  have hread : getRes (runOps (ensureC1 a cfg c)
      (statelessOps a cfg uid c)).deployments a.name =
      .ok { buildDeployment a cfg uid
        (if (statelessGot a cfg c).isOk then none else some 1)
        (standaloneStor a cfg uid c).st.pod with replicas := X } := by
    unfold getRes
    rw [hssets, lookupA_insertA_self]
  have huid2 : getStorageUniqId r₂ (Except.ok (buildDeployment a cfg uid
      (if (statelessGot a cfg c).isOk then none else some 1)
      (standaloneStor a cfg uid c).st.pod).annots) = .ok uid := by
    have hann : (buildDeployment a cfg uid
        (if (statelessGot a cfg c).isOk then none else some 1)
        (standaloneStor a cfg uid c).st.pod).annots =
        insertA (annotsFor a cfg) appUuidKey uid := rfl
    rw [hann]
    exact getStorageUniqId_reuse _ uid r₂ (lookupA_insertA_self _ _ _)
      (getStorageUniqId_ne_empty r₁ _ uid hr hu1)
  have hsub : ∀ n ∈ (ensureC1 a cfg c).storageClasses.map (fun p => p.1),
      n ∈ (runOps (ensureC1 a cfg c)
        (statelessOps a cfg uid c)).storageClasses.map (fun p => p.1) := by
    intro n hn
    exact (runOps_sc_mem _ _ _).mpr (Or.inl hn)
  have hops : ∀ sc, Op.storageClassOp sc ∈ (configureStorage a cfg .standalone uid
      ((ensureC1 a cfg c).storageClasses.map (fun p => p.1)) [] 0 cfg.filesystems
      { pod := applicationPodSpec a cfg }).ops →
      sc.name ∈ (runOps (ensureC1 a cfg c)
        (statelessOps a cfg uid c)).storageClasses.map (fun p => p.1) := by
    intro sc hsc
    apply (runOps_sc_mem _ _ _).mpr
    refine Or.inr ⟨sc, ?_, rfl⟩
    unfold statelessOps
    exact List.mem_append_left _ (List.mem_append_right _ hsc)
  have hfc : ∀ f ∈ cfg.filesystems, f.storageClassAttr ∉
      (ensureC1 a cfg c).storageClasses.map (fun p => p.1) →
      f.storageClassAttr ∉ (runOps (ensureC1 a cfg c)
        (statelessOps a cfg uid c)).storageClasses.map (fun p => p.1) := by
    intro f hf hnot hmem
    rcases (runOps_sc_mem _ _ _).mp hmem with hbase | ⟨sc, hscmem, hscname⟩
    · exact hnot hbase
    · have hsc' : Op.storageClassOp sc ∈ (standaloneStor a cfg uid c).ops := by
        unfold statelessOps at hscmem
        rcases List.mem_append.mp hscmem with h | h
        · rcases List.mem_append.mp h with h | h
          · simp at h
          · exact h
        · simp at h
      obtain ⟨g, hg, hgn⟩ := configureStorage_scop_names a cfg .standalone uid
        cfg.filesystems _ _ _ _ sc hsc'
      rw [hscname] at hgn
      exact hcol f hf g hg hgn
  have hs1x : (configureStorage a cfg .standalone uid
      ((ensureC1 a cfg c).storageClasses.map (fun p => p.1)) [] 0 cfg.filesystems
      { pod := applicationPodSpec a cfg }).err? = none := hs1
  have hstor2 := configureStorage_second a cfg .standalone uid
    ((runOps (ensureC1 a cfg c)
      (statelessOps a cfg uid c)).storageClasses.map (fun p => p.1))
    cfg.filesystems ((ensureC1 a cfg c).storageClasses.map (fun p => p.1)) [] 0
    { pod := applicationPodSpec a cfg } hsub hfc hops hs1x
  have hseclook : lookupA (runOps (ensureC1 a cfg c)
      (statelessOps a cfg uid c)).secrets
      (applicationSecret a cfg).name = some (.ok (applicationSecret a cfg)) := by
    rw [show runOps (ensureC1 a cfg c) (statelessOps a cfg uid c) =
      runOps (applyOp (ensureC1 a cfg c)
        (Op.secretOp (applicationSecret a cfg)))
        ((standaloneStor a cfg uid c).ops ++ [Op.deploymentOp (buildDeployment a cfg uid
          (if (statelessGot a cfg c).isOk then none else some 1)
          (standaloneStor a cfg uid c).st.pod)])
      from rfl]
    rw [runOps_secret_frame _ (statelessOps_tail_secretFree a cfg uid c) _]
    exact lookupA_insertA_self _ _ _
  have hpvclook : ∀ p, Op.pvcOp p ∈ (configureStorage a cfg .standalone uid
      ((ensureC1 a cfg c).storageClasses.map (fun p => p.1)) [] 0 cfg.filesystems
      { pod := applicationPodSpec a cfg }).ops →
      lookupA (runOps (ensureC1 a cfg c)
        (statelessOps a cfg uid c)).pvcs p.name = some (.ok p) := by
    intro p hp
    show lookupA (runOps (ensureC1 a cfg c)
      (Op.secretOp (applicationSecret a cfg) ::
        ((standaloneStor a cfg uid c).ops ++ [Op.deploymentOp (buildDeployment a cfg uid
          (if (statelessGot a cfg c).isOk then none else some 1)
          (standaloneStor a cfg uid c).st.pod)]))).pvcs p.name = some (.ok p)
    rw [runOps, List.foldl_cons, List.foldl_append]
    simp only [List.foldl_cons, List.foldl_nil]
    show lookupA (List.foldl applyOp
      (applyOp (ensureC1 a cfg c) (Op.secretOp (applicationSecret a cfg)))
      (standaloneStor a cfg uid c).ops).pvcs p.name = some (.ok p)
    exact configureStorage_replay a cfg .standalone uid cfg.filesystems _ _ _ _ _ p hp
  have hldep : lookupA (runOps (ensureC1 a cfg c)
      (statelessOps a cfg uid c)).deployments
      (buildDeployment a cfg uid (none : Option Int)
        (standaloneStor a cfg uid c).st.pod).name =
      some (.ok { buildDeployment a cfg uid
        (if (statelessGot a cfg c).isOk then none else some 1)
        (standaloneStor a cfg uid c).st.pod with replicas := X }) := by
    show lookupA (runOps (ensureC1 a cfg c)
      (statelessOps a cfg uid c)).deployments a.name = _
    rw [hssets]
    exact lookupA_insertA_self _ _ _
  rw [ensure, hcds2]
  simp only [hdt, hread, huid2, hstor2, ensureStatelessTail,
    eq_self_iff_true, if_true]
  have hstaged : (statelessOps a cfg uid c).filterMap stripForSecond =
      [Op.secretOp (applicationSecret a cfg)] ++
        ((configureStorage a cfg .standalone uid
          ((ensureC1 a cfg c).storageClasses.map (fun p => p.1)) [] 0 cfg.filesystems
          { pod := applicationPodSpec a cfg }).ops.filterMap stripForSecond) ++
        [Op.deploymentOp (buildDeployment a cfg uid none
          (configureStorage a cfg .standalone uid
            ((ensureC1 a cfg c).storageClasses.map (fun p => p.1)) [] 0 cfg.filesystems
            { pod := applicationPodSpec a cfg }).st.pod)] := by
    unfold statelessOps standaloneStor
    rw [List.filterMap_append, List.filterMap_append]
    simp only [List.filterMap_cons, List.filterMap_nil, stripForSecond]
    rfl
  have hclu : runOps (runOps (ensureC1 a cfg c) (statelessOps a cfg uid c))
      ([Op.secretOp (applicationSecret a cfg)] ++
        ((configureStorage a cfg .standalone uid
          ((ensureC1 a cfg c).storageClasses.map (fun p => p.1)) [] 0 cfg.filesystems
          { pod := applicationPodSpec a cfg }).ops.filterMap stripForSecond) ++
        [Op.deploymentOp (buildDeployment a cfg uid none
          (configureStorage a cfg .standalone uid
            ((ensureC1 a cfg c).storageClasses.map (fun p => p.1)) [] 0 cfg.filesystems
            { pod := applicationPodSpec a cfg }).st.pod)]) =
      runOps (ensureC1 a cfg c) (statelessOps a cfg uid c) := by
    apply runOps_noop
    intro op hop
    rcases List.mem_append.mp hop with hop | hop
    · rcases List.mem_append.mp hop with hop | hop
      · simp at hop
        subst hop
        exact applyOp_secret_noop _ _ hseclook
      · obtain ⟨p, rfl, hpmem⟩ := strip_storOps_mem _
          (configureStorage_ops_shape a cfg .standalone uid cfg.filesystems _ _ _ _)
          op hop
        exact applyOp_pvc_noop _ _ (hpvclook p hpmem)
    · simp at hop
      subst hop
      exact applyOp_deployment_noop _ _ _ X rfl rfl hldep
  rw [hstaged, hclu]

/-- A second Daemon Ensure from the first call's cluster succeeds, leaves
the cluster unchanged, and stages the first batch minus the storage-class
creations. -/
theorem ensure_second_daemon (a : App) (cfg : AppConfig) (r₁ r₂ : String) (c : Cluster)
    (hdt : a.deploymentType = .daemon) (hr : r₁ ≠ "")
    (hcol : ∀ f ∈ cfg.filesystems, ∀ g ∈ cfg.filesystems,
      f.storageClassAttr ≠ qualifiedStorageClassName a.ns g.storageClassAttr)
    (h1 : (ensure a cfg r₁ c).err? = none) :
    ensure a cfg r₂ (ensure a cfg r₁ c).cluster =
      { staged := (ensure a cfg r₁ c).staged.filterMap stripForSecond
        err? := none
        cluster := (ensure a cfg r₁ c).cluster } := by
  obtain ⟨uid, hcds1, hu1, hs1, he1⟩ := ensure_daemon_success a cfg r₁ c hdt h1
  simp only [he1]
  have hserv : (runOps (ensureC1 a cfg c) (daemonOps a cfg uid c)).services =
      (ensureC1 a cfg c).services :=
    runOps_svc_frame _ (daemonOps_svcFree a cfg uid c) _
  obtain ⟨s₀, hs₀⟩ := configureDefaultService_ok_lookup a (annotsFor a cfg) c hcds1
  have hlooksvc : lookupA (runOps (ensureC1 a cfg c)
      (daemonOps a cfg uid c)).services a.name = some (.ok s₀) := by
    rw [hserv]
    exact hs₀
  have hcds2 : configureDefaultService a (annotsFor a cfg)
      (runOps (ensureC1 a cfg c) (daemonOps a cfg uid c)) =
      (none, runOps (ensureC1 a cfg c) (daemonOps a cfg uid c)) :=
    configureDefaultService_noop a _ _ s₀ hlooksvc
  have hread : getRes (runOps (ensureC1 a cfg c)
      (daemonOps a cfg uid c)).daemonSets a.name =
      .ok (buildDaemonSet a cfg uid (standaloneStor a cfg uid c).st.pod) := by
    unfold getRes
    rw [ensure_daemon_cluster_sets a cfg uid c, lookupA_insertA_self]
  have huid2 : getStorageUniqId r₂ (Except.ok
      (buildDaemonSet a cfg uid (standaloneStor a cfg uid c).st.pod).annots) = .ok uid := by
    have hann : (buildDaemonSet a cfg uid (standaloneStor a cfg uid c).st.pod).annots =
        insertA (annotsFor a cfg) appUuidKey uid := rfl
    rw [hann]
    exact getStorageUniqId_reuse _ uid r₂ (lookupA_insertA_self _ _ _)
      (getStorageUniqId_ne_empty r₁ _ uid hr hu1)
  have hsub : ∀ n ∈ (ensureC1 a cfg c).storageClasses.map (fun p => p.1),
      n ∈ (runOps (ensureC1 a cfg c)
        (daemonOps a cfg uid c)).storageClasses.map (fun p => p.1) := by
    intro n hn
    exact (runOps_sc_mem _ _ _).mpr (Or.inl hn)
  have hops : ∀ sc, Op.storageClassOp sc ∈ (configureStorage a cfg .standalone uid
      ((ensureC1 a cfg c).storageClasses.map (fun p => p.1)) [] 0 cfg.filesystems
      { pod := applicationPodSpec a cfg }).ops →
      sc.name ∈ (runOps (ensureC1 a cfg c)
        (daemonOps a cfg uid c)).storageClasses.map (fun p => p.1) := by
    intro sc hsc
    apply (runOps_sc_mem _ _ _).mpr
    refine Or.inr ⟨sc, ?_, rfl⟩
    unfold daemonOps
    exact List.mem_append_left _ (List.mem_append_right _ hsc)
  have hfc : ∀ f ∈ cfg.filesystems, f.storageClassAttr ∉
      (ensureC1 a cfg c).storageClasses.map (fun p => p.1) →
      f.storageClassAttr ∉ (runOps (ensureC1 a cfg c)
        (daemonOps a cfg uid c)).storageClasses.map (fun p => p.1) := by
    intro f hf hnot hmem
    rcases (runOps_sc_mem _ _ _).mp hmem with hbase | ⟨sc, hscmem, hscname⟩
    · exact hnot hbase
    · have hsc' : Op.storageClassOp sc ∈ (standaloneStor a cfg uid c).ops := by
        unfold daemonOps at hscmem
        rcases List.mem_append.mp hscmem with h | h
        · rcases List.mem_append.mp h with h | h
          · simp at h
          · exact h
        · simp at h
      obtain ⟨g, hg, hgn⟩ := configureStorage_scop_names a cfg .standalone uid
        cfg.filesystems _ _ _ _ sc hsc'
      rw [hscname] at hgn
      exact hcol f hf g hg hgn
  have hs1x : (configureStorage a cfg .standalone uid
      ((ensureC1 a cfg c).storageClasses.map (fun p => p.1)) [] 0 cfg.filesystems
      { pod := applicationPodSpec a cfg }).err? = none := hs1
  have hstor2 := configureStorage_second a cfg .standalone uid
    ((runOps (ensureC1 a cfg c)
      (daemonOps a cfg uid c)).storageClasses.map (fun p => p.1))
    cfg.filesystems ((ensureC1 a cfg c).storageClasses.map (fun p => p.1)) [] 0
    { pod := applicationPodSpec a cfg } hsub hfc hops hs1x
  have hseclook : lookupA (runOps (ensureC1 a cfg c)
      (daemonOps a cfg uid c)).secrets
      (applicationSecret a cfg).name = some (.ok (applicationSecret a cfg)) := by
    rw [show runOps (ensureC1 a cfg c) (daemonOps a cfg uid c) =
      runOps (applyOp (ensureC1 a cfg c)
        (Op.secretOp (applicationSecret a cfg)))
        ((standaloneStor a cfg uid c).ops ++ [Op.daemonSetOp (buildDaemonSet a cfg uid
          (standaloneStor a cfg uid c).st.pod)])
      from rfl]
    rw [runOps_secret_frame _ (daemonOps_tail_secretFree a cfg uid c) _]
    exact lookupA_insertA_self _ _ _
  have hpvclook : ∀ p, Op.pvcOp p ∈ (configureStorage a cfg .standalone uid
      ((ensureC1 a cfg c).storageClasses.map (fun p => p.1)) [] 0 cfg.filesystems
      { pod := applicationPodSpec a cfg }).ops →
      lookupA (runOps (ensureC1 a cfg c)
        (daemonOps a cfg uid c)).pvcs p.name = some (.ok p) := by
    intro p hp
    show lookupA (runOps (ensureC1 a cfg c)
      (Op.secretOp (applicationSecret a cfg) ::
        ((standaloneStor a cfg uid c).ops ++ [Op.daemonSetOp (buildDaemonSet a cfg uid
          (standaloneStor a cfg uid c).st.pod)]))).pvcs p.name = some (.ok p)
    rw [runOps, List.foldl_cons, List.foldl_append]
    simp only [List.foldl_cons, List.foldl_nil]
    show lookupA (List.foldl applyOp
      (applyOp (ensureC1 a cfg c) (Op.secretOp (applicationSecret a cfg)))
      (standaloneStor a cfg uid c).ops).pvcs p.name = some (.ok p)
    exact configureStorage_replay a cfg .standalone uid cfg.filesystems _ _ _ _ _ p hp
  have hldm : lookupA (runOps (ensureC1 a cfg c)
      (daemonOps a cfg uid c)).daemonSets
      (buildDaemonSet a cfg uid (configureStorage a cfg .standalone uid
        ((ensureC1 a cfg c).storageClasses.map (fun p => p.1)) [] 0 cfg.filesystems
        { pod := applicationPodSpec a cfg }).st.pod).name =
      some (.ok (buildDaemonSet a cfg uid
        (configureStorage a cfg .standalone uid
          ((ensureC1 a cfg c).storageClasses.map (fun p => p.1)) [] 0 cfg.filesystems
          { pod := applicationPodSpec a cfg }).st.pod)) := by
    show lookupA (runOps (ensureC1 a cfg c)
      (daemonOps a cfg uid c)).daemonSets a.name = _
    rw [ensure_daemon_cluster_sets a cfg uid c]
    exact lookupA_insertA_self _ _ _
  rw [ensure, hcds2]
  simp only [hdt, hread, Except.map, huid2, hstor2, ensureDaemonTail]
  have hstaged : (daemonOps a cfg uid c).filterMap stripForSecond =
      [Op.secretOp (applicationSecret a cfg)] ++
        ((configureStorage a cfg .standalone uid
          ((ensureC1 a cfg c).storageClasses.map (fun p => p.1)) [] 0 cfg.filesystems
          { pod := applicationPodSpec a cfg }).ops.filterMap stripForSecond) ++
        [Op.daemonSetOp (buildDaemonSet a cfg uid
          (configureStorage a cfg .standalone uid
            ((ensureC1 a cfg c).storageClasses.map (fun p => p.1)) [] 0 cfg.filesystems
            { pod := applicationPodSpec a cfg }).st.pod)] := by
    unfold daemonOps standaloneStor
    rw [List.filterMap_append, List.filterMap_append]
    simp only [List.filterMap_cons, List.filterMap_nil, stripForSecond]
  have hclu : runOps (runOps (ensureC1 a cfg c) (daemonOps a cfg uid c))
      ([Op.secretOp (applicationSecret a cfg)] ++
        ((configureStorage a cfg .standalone uid
          ((ensureC1 a cfg c).storageClasses.map (fun p => p.1)) [] 0 cfg.filesystems
          { pod := applicationPodSpec a cfg }).ops.filterMap stripForSecond) ++
        [Op.daemonSetOp (buildDaemonSet a cfg uid
          (configureStorage a cfg .standalone uid
            ((ensureC1 a cfg c).storageClasses.map (fun p => p.1)) [] 0 cfg.filesystems
            { pod := applicationPodSpec a cfg }).st.pod)]) =
      runOps (ensureC1 a cfg c) (daemonOps a cfg uid c) := by
    apply runOps_noop
    intro op hop
    rcases List.mem_append.mp hop with hop | hop
    · rcases List.mem_append.mp hop with hop | hop
      · simp at hop
        subst hop
        exact applyOp_secret_noop _ _ hseclook
      · obtain ⟨p, rfl, hpmem⟩ := strip_storOps_mem _
          (configureStorage_ops_shape a cfg .standalone uid cfg.filesystems _ _ _ _)
          op hop
        exact applyOp_pvc_noop _ _ (hpvclook p hpmem)
    · simp at hop
      subst hop
      exact applyOp_daemonSet_noop _ _ hldm
  rw [hstaged, hclu]

/-- An unrecognized topology makes Ensure fail. -/
theorem ensure_other_err (a : App) (cfg : AppConfig) (r : String) (c : Cluster) (s : String)
    (hdt : a.deploymentType = .other s) : (ensure a cfg r c).err? ≠ none := by
  rw [ensure]
  rcases hcds : configureDefaultService a (annotsFor a cfg) c with ⟨e?, c1⟩
  cases e? with
  | some e => simp
  | none => simp [hdt]

/-- C1 (corrected).  Re-invoking Ensure with the same spec from the cluster
produced by a successful first call is idempotent — the second call
succeeds, leaves the cluster exactly unchanged, and stages the same batch
except that the storage classes created by the first call are no longer
staged and the workload is staged with its replica count withheld —
provided the freshly generated id is non-empty and no filesystem's
configured storage-class name collides with the namespace-qualified name of
any filesystem's configured class (without that proviso the second call
resolves storage differently and the cluster changes). -/
theorem ensure_idempotent (a : App) (cfg : AppConfig) (r₁ r₂ : String) (c : Cluster)
    (hr : r₁ ≠ "")
    (hcol : ∀ f ∈ cfg.filesystems, ∀ g ∈ cfg.filesystems,
      f.storageClassAttr ≠ qualifiedStorageClassName a.ns g.storageClassAttr)
    (h1 : (ensure a cfg r₁ c).err? = none) :
    (ensure a cfg r₂ (ensure a cfg r₁ c).cluster).err? = none ∧
    (ensure a cfg r₂ (ensure a cfg r₁ c).cluster).cluster = (ensure a cfg r₁ c).cluster ∧
    (ensure a cfg r₂ (ensure a cfg r₁ c).cluster).staged =
      (ensure a cfg r₁ c).staged.filterMap stripForSecond := by
  cases hdt : a.deploymentType with
  | stateful =>
    rw [ensure_second_stateful a cfg r₁ r₂ c hdt hr hcol h1]
    exact ⟨rfl, rfl, rfl⟩
  | stateless =>
    rw [ensure_second_stateless a cfg r₁ r₂ c hdt hr hcol h1]
    exact ⟨rfl, rfl, rfl⟩
  | daemon =>
    rw [ensure_second_daemon a cfg r₁ r₂ c hdt hr hcol h1]
    exact ⟨rfl, rfl, rfl⟩
  | other s => exact absurd h1 (ensure_other_err a cfg r₁ c s hdt)

/-- Counterexample input: a stateless app with two filesystems whose
configured storage-class names collide through namespace qualification
("ns-mysc" is the qualified form of "mysc" in namespace "ns"). -/
def w1App : App :=
  { name := "app", ns := "ns", modelUUID := "u", modelName := "m",
    legacyLabels := false, deploymentType := .stateless }

/-- The colliding storage configuration of the counterexample. -/
def w1Cfg : AppConfig :=
  { filesystems :=
      [{ storageName := "d1", sizeMi := 1, storageClassAttr := "ns-mysc" },
       { storageName := "d2", sizeMi := 1, storageClassAttr := "mysc" }] }

/-- C1 (counterexample).  Ensure is not idempotent as claimed: with the
colliding configuration both calls succeed, yet the second call changes the
cluster — the first call synthesizes the class "ns-ns-mysc" for the first
filesystem, while the second call finds the class "ns-mysc" (created by the
first call for the other filesystem) and rebinds the first filesystem's
claim to it. -/
theorem ensure_idempotence_counterexample :
    (ensure w1App w1Cfg "u1" { }).err? = none ∧
    (ensure w1App w1Cfg "u2" (ensure w1App w1Cfg "u1" { }).cluster).err? = none ∧
    (ensure w1App w1Cfg "u2" (ensure w1App w1Cfg "u1" { }).cluster).cluster ≠
      (ensure w1App w1Cfg "u1" { }).cluster := by
  decide

/-- Witness fixture: a stateful app with one ordinary filesystem. -/
def wIApp : App :=
  { name := "db", ns := "ns", modelUUID := "u", modelName := "m",
    legacyLabels := false, deploymentType := .stateful }

/-- Witness fixture: one filesystem with a class name free of qualification
collisions. -/
def wICfg : AppConfig :=
  { filesystems := [{ storageName := "data", sizeMi := 1, storageClassAttr := "fast" }] }

/-- C1 witness: the amended idempotence theorem applied to the concrete
stateful fixture. -/
theorem ensure_idempotent_witness :
    (("u1" : String) ≠ "" ∧
      (∀ f ∈ wICfg.filesystems, ∀ g ∈ wICfg.filesystems,
        f.storageClassAttr ≠ qualifiedStorageClassName wIApp.ns g.storageClassAttr) ∧
      (ensure wIApp wICfg "u1" { }).err? = none) ∧
    ((ensure wIApp wICfg "u2" (ensure wIApp wICfg "u1" { }).cluster).err? = none ∧
      (ensure wIApp wICfg "u2" (ensure wIApp wICfg "u1" { }).cluster).cluster =
        (ensure wIApp wICfg "u1" { }).cluster ∧
      (ensure wIApp wICfg "u2" (ensure wIApp wICfg "u1" { }).cluster).staged =
        (ensure wIApp wICfg "u1" { }).staged.filterMap stripForSecond) :=
  ⟨⟨by decide, by decide, by decide⟩,
    ensure_idempotent wIApp wICfg "u1" "u2" { } (by decide) (by decide) (by decide)⟩

end JujuK8sApp
